import Mathlib

/-! LinearAlgebra (`linalg.hpp`): vectors and square matrices.

A shallow embedding of the fixed-size vector and matrix classes of `linalg.hpp`.

* `vec2_t`, `vec3_t`, `vec4_t` are the classes of the same name: a record of the named
  scalar fields, in declaration order.
* `mat2_t`, `mat3_t`, `mat4_t` hold the member `columns[N]`; the array is modelled by one
  field per slot (`columns0`, `columns1`, ...), in storage order.
* `operator[]` reinterprets the object as a flat array; with structure packing disabled
  slot `i` of a vector is its `i`-th named field and slot `i` of a matrix its `i`-th column.
  The index type is `Fin N`: an index outside `0..N-1` is undefined behaviour in the source
  and has no counterpart here. For the vectors the cast itself is modelled as well
  (`castIndex`, `castSetIndex` over a byte layout of the members), and that it reaches the
  `i`-th named field is derived from the layout rather than assumed.
* A mutating member function (`inverse`, `transpose`) assigns to `*this` and returns
  `*this`; it is modelled by the function from the old receiver to the new one, which is
  also the value the call returns. The friend overloads (`inverse(m)`, `transpose(m)`)
  copy their argument and call the member, so they are the same function.
* The scalar type `T` is a parameter. Operations only ask for the arithmetic they use.
-/

namespace LinAlg

/-! ## Scalar equality policy -/

/-- The macro `LINALG_EPSILON` (`1E-4f`), read as the exact number `1/10000`. -/
def LINALG_EPSILON {T : Type} [One T] [NatCast T] [Div T] : T := 1 / ((10000 : Nat) : T)

/-- The macro `LINALG_FEQUAL(x, y)`:
`(((y) - LINALG_EPSILON) < (x)) && ((x) < ((y) + LINALG_EPSILON))`. -/
def LINALG_FEQUAL {T : Type} [LinearOrderedField T] (x y : T) : Bool :=
  decide ((y - LINALG_EPSILON) < x) && decide (x < (y + LINALG_EPSILON))

/-! ## vec2_t -/

/-- The class `vec2_t<T>`: the fields `T x, y`. -/
structure vec2_t (T : Type) where
  x : T
  y : T
  deriving DecidableEq

namespace vec2_t

variable {T : Type}

/-- The broadcast constructor `vec2_t(const T2 &xy)`. -/
def splat (xy : T) : vec2_t T := ⟨xy, xy⟩

/-- The read through `operator[](const int index) const`. -/
def index (v : vec2_t T) : Fin 2 → T
  | 0 => v.x
  | 1 => v.y

/-- The write `v[index] = s` through the reference returned by `operator[](const int index)`. -/
def setIndex (v : vec2_t T) (i : Fin 2) (s : T) : vec2_t T :=
  match i with
  | 0 => { v with x := s }
  | 1 => { v with y := s }

/-- The friend `operator*(const vec2 &lhs, const vec2 &rhs)`: component-wise product. -/
def mul [Mul T] (lhs rhs : vec2_t T) : vec2_t T := ⟨lhs.x * rhs.x, lhs.y * rhs.y⟩

/-- The friend `operator*(const vec2 &lhs, const T &rhs)`: `lhs * vec2(rhs)`. -/
def mulScalar [Mul T] (lhs : vec2_t T) (rhs : T) : vec2_t T := lhs.mul (splat rhs)

/-- The member `dot`. -/
def dot [Add T] [Mul T] (self rhs : vec2_t T) : T := self.x * rhs.x + self.y * rhs.y

end vec2_t

/-! ## vec3_t -/

/-- The class `vec3_t<T>`: the fields `T x, y, z`. -/
structure vec3_t (T : Type) where
  x : T
  y : T
  z : T
  deriving DecidableEq

namespace vec3_t

variable {T : Type}

/-- The broadcast constructor `vec3_t(const T2 &xyz)`. -/
def splat (xyz : T) : vec3_t T := ⟨xyz, xyz, xyz⟩

/-- The read through `operator[](const int index) const`. -/
def index (v : vec3_t T) : Fin 3 → T
  | 0 => v.x
  | 1 => v.y
  | 2 => v.z

/-- The write `v[index] = s` through the reference returned by `operator[](const int index)`. -/
def setIndex (v : vec3_t T) (i : Fin 3) (s : T) : vec3_t T :=
  match i with
  | 0 => { v with x := s }
  | 1 => { v with y := s }
  | 2 => { v with z := s }

/-- The friend `operator*(const vec3 &lhs, const vec3 &rhs)`: component-wise product. -/
def mul [Mul T] (lhs rhs : vec3_t T) : vec3_t T :=
  ⟨lhs.x * rhs.x, lhs.y * rhs.y, lhs.z * rhs.z⟩

/-- The friend `operator*(const vec3 &lhs, const T &rhs)`: `lhs * vec3(rhs)`. -/
def mulScalar [Mul T] (lhs : vec3_t T) (rhs : T) : vec3_t T := lhs.mul (splat rhs)

/-- The member `dot`. -/
def dot [Add T] [Mul T] (self rhs : vec3_t T) : T :=
  self.x * rhs.x + self.y * rhs.y + self.z * rhs.z

end vec3_t

/-! ## vec4_t -/

/-- The class `vec4_t<T>`: the fields `T x, y, z, w`. -/
structure vec4_t (T : Type) where
  x : T
  y : T
  z : T
  w : T
  deriving DecidableEq

namespace vec4_t

variable {T : Type}

/-- The broadcast constructor `vec4_t(const T2 &xyzw)`. -/
def splat (xyzw : T) : vec4_t T := ⟨xyzw, xyzw, xyzw, xyzw⟩

/-- The read through `operator[](const int index) const`. -/
def index (v : vec4_t T) : Fin 4 → T
  | 0 => v.x
  | 1 => v.y
  | 2 => v.z
  | 3 => v.w

/-- The write `v[index] = s` through the reference returned by `operator[](const int index)`. -/
def setIndex (v : vec4_t T) (i : Fin 4) (s : T) : vec4_t T :=
  match i with
  | 0 => { v with x := s }
  | 1 => { v with y := s }
  | 2 => { v with z := s }
  | 3 => { v with w := s }

/-- The friend `operator*(const vec4 &lhs, const vec4 &rhs)`: component-wise product. -/
def mul [Mul T] (lhs rhs : vec4_t T) : vec4_t T :=
  ⟨lhs.x * rhs.x, lhs.y * rhs.y, lhs.z * rhs.z, lhs.w * rhs.w⟩

/-- The friend `operator*(const vec4 &lhs, const T &rhs)`: `lhs * vec4(rhs)`. -/
def mulScalar [Mul T] (lhs : vec4_t T) (rhs : T) : vec4_t T := lhs.mul (splat rhs)

/-- The member `dot`. -/
def dot [Add T] [Mul T] (self rhs : vec4_t T) : T :=
  self.x * rhs.x + self.y * rhs.y + self.z * rhs.z + self.w * rhs.w

end vec4_t

/-! ## mat2_t -/

/-- The class `mat2_t<T>`: the member `vec2 columns[2]`. -/
structure mat2_t (T : Type) where
  columns0 : vec2_t T
  columns1 : vec2_t T
  deriving DecidableEq

namespace mat2_t

variable {T : Type}

/-- The constructor `mat2_t(const T mainDiagonalValue = T(1))`. -/
def diag [Zero T] (mainDiagonalValue : T) : mat2_t T :=
  ⟨⟨mainDiagonalValue, 0⟩, ⟨0, mainDiagonalValue⟩⟩

/-- The static member `mat2_t<T>::identity = mat2_t<T>(T(1))`. -/
def identity [Zero T] [One T] : mat2_t T := diag 1

/-- The constructor `mat2_t(a, b, c, d)`: `mat2(vec2(a, b), vec2(c, d))`. -/
def ofScalars (a b c d : T) : mat2_t T := ⟨⟨a, b⟩, ⟨c, d⟩⟩

/-- The read through `operator[](const int index) const`: the column in slot `index`. -/
def index (m : mat2_t T) : Fin 2 → vec2_t T
  | 0 => m.columns0
  | 1 => m.columns1

/-- The write `m[index] = v` through the reference returned by `operator[]`. -/
def setIndex (m : mat2_t T) (i : Fin 2) (v : vec2_t T) : mat2_t T :=
  match i with
  | 0 => { m with columns0 := v }
  | 1 => { m with columns1 := v }

/-- The member `col`. -/
def col (m : mat2_t T) (i : Fin 2) : vec2_t T := m.index i

/-- The member `row`. -/
def row (m : mat2_t T) (i : Fin 2) : vec2_t T := ⟨(m.index 0).index i, (m.index 1).index i⟩

/-- The getter `value(row, column)`: `(*this)[column][row]`. -/
def value (m : mat2_t T) (row column : Fin 2) : T := (m.index column).index row

/-- The setter `value(row, column, value)`: `(*this)[column][row] = value`. -/
def setValue (m : mat2_t T) (row column : Fin 2) (v : T) : mat2_t T :=
  m.setIndex column ((m.index column).setIndex row v)

/-- The member `operator*(const mat2 &rhs)`: `result` starts as the default-constructed
matrix (the identity) and the two nested loops store `row(i).dot(rhs.col(j))` at `(i, j)`. -/
def mul [Zero T] [One T] [Add T] [Mul T] (self rhs : mat2_t T) : mat2_t T :=
  ([0, 1] : List (Fin 2)).foldl
    (fun result i =>
      ([0, 1] : List (Fin 2)).foldl
        (fun result j => result.setValue i j ((self.row i).dot (rhs.col j)))
        result)
    (diag 1)

/-- The member `operator*(const vec2 &rhs)`: matrix times column vector. -/
def mulVec [Add T] [Mul T] (self : mat2_t T) (rhs : vec2_t T) : vec2_t T :=
  ⟨(rhs.x * (self.index 0).x) + (rhs.y * (self.index 1).x),
   (rhs.x * (self.index 0).y) + (rhs.y * (self.index 1).y)⟩

/-- The friend `operator*(const vec2 &lhs, const mat2 &rhs)`: row vector times matrix. -/
def vecMul [Add T] [Mul T] (lhs : vec2_t T) (rhs : mat2_t T) : vec2_t T :=
  ⟨lhs.dot (rhs.index 0), lhs.dot (rhs.index 1)⟩

/-- The member `operator*(const T &rhs)`: `result[i] = (*this)[i] * rhs` for `i = 0, 1`. -/
def mulScalar [Zero T] [One T] [Mul T] (self : mat2_t T) (rhs : T) : mat2_t T :=
  ([0, 1] : List (Fin 2)).foldl
    (fun result i => result.setIndex i ((self.index i).mulScalar rhs))
    (diag 1)

/-- The friend `operator*(const T &lhs, const mat2 &rhs)`: `rhs * lhs`. -/
def scalarMul [Zero T] [One T] [Mul T] (lhs : T) (rhs : mat2_t T) : mat2_t T :=
  rhs.mulScalar lhs

/-- The member `determinant`. -/
def determinant [Sub T] [Mul T] (self : mat2_t T) : T :=
  ((self.index 0).index 0 * (self.index 1).index 1)
    - ((self.index 1).index 0 * (self.index 0).index 1)

/-- The member `inverse`: `d = T(1) / determinant()`, then
`*this = d * mat2(m[1][1], -m[0][1], -m[1][0], m[0][0])`. -/
def inverse [Zero T] [One T] [Neg T] [Sub T] [Mul T] [Div T] (self : mat2_t T) : mat2_t T :=
  let d : T := 1 / self.determinant
  scalarMul d (ofScalars
    ((self.index 1).index 1) (-(self.index 0).index 1)
    (-(self.index 1).index 0) ((self.index 0).index 0))

/-- The member `transpose`. -/
def transpose (self : mat2_t T) : mat2_t T :=
  ⟨⟨(self.index 0).x, (self.index 1).x⟩,
   ⟨(self.index 0).y, (self.index 1).y⟩⟩

end mat2_t

/-! ## mat3_t -/

/-- The class `mat3_t<T>`: the member `vec3 columns[3]`. -/
structure mat3_t (T : Type) where
  columns0 : vec3_t T
  columns1 : vec3_t T
  columns2 : vec3_t T
  deriving DecidableEq

namespace mat3_t

variable {T : Type}

/-- The constructor `mat3_t(const T mainDiagonalValue = T(1))`. -/
def diag [Zero T] (mainDiagonalValue : T) : mat3_t T :=
  ⟨⟨mainDiagonalValue, 0, 0⟩, ⟨0, mainDiagonalValue, 0⟩, ⟨0, 0, mainDiagonalValue⟩⟩

/-- The static member `mat3_t<T>::identity = mat3_t<T>(T(1))`. -/
def identity [Zero T] [One T] : mat3_t T := diag 1

/-- The constructor `mat3_t(a, b, c, d, e, f, g, h, i)`:
`mat3(vec3(a, b, c), vec3(d, e, f), vec3(g, h, i))`. -/
def ofScalars (a b c d e f g h i : T) : mat3_t T := ⟨⟨a, b, c⟩, ⟨d, e, f⟩, ⟨g, h, i⟩⟩

/-- The read through `operator[](const int index) const`: the column in slot `index`. -/
def index (m : mat3_t T) : Fin 3 → vec3_t T
  | 0 => m.columns0
  | 1 => m.columns1
  | 2 => m.columns2

/-- The write `m[index] = v` through the reference returned by `operator[]`. -/
def setIndex (m : mat3_t T) (i : Fin 3) (v : vec3_t T) : mat3_t T :=
  match i with
  | 0 => { m with columns0 := v }
  | 1 => { m with columns1 := v }
  | 2 => { m with columns2 := v }

/-- The member `col`. -/
def col (m : mat3_t T) (i : Fin 3) : vec3_t T := m.index i

/-- The member `row`. -/
def row (m : mat3_t T) (i : Fin 3) : vec3_t T :=
  ⟨(m.index 0).index i, (m.index 1).index i, (m.index 2).index i⟩

/-- The getter `value(row, column)`: `(*this)[column][row]`. -/
def value (m : mat3_t T) (row column : Fin 3) : T := (m.index column).index row

/-- The setter `value(row, column, value)`: `(*this)[column][row] = value`. -/
def setValue (m : mat3_t T) (row column : Fin 3) (v : T) : mat3_t T :=
  m.setIndex column ((m.index column).setIndex row v)

/-- The member `operator*(const mat3 &rhs)`: `result` starts as the default-constructed
matrix (the identity) and the two nested loops store `row(i).dot(rhs.col(j))` at `(i, j)`. -/
def mul [Zero T] [One T] [Add T] [Mul T] (self rhs : mat3_t T) : mat3_t T :=
  ([0, 1, 2] : List (Fin 3)).foldl
    (fun result i =>
      ([0, 1, 2] : List (Fin 3)).foldl
        (fun result j => result.setValue i j ((self.row i).dot (rhs.col j)))
        result)
    (diag 1)

/-- The member `operator*(const vec3 &rhs)`: matrix times column vector. -/
def mulVec [Add T] [Mul T] (self : mat3_t T) (rhs : vec3_t T) : vec3_t T :=
  ⟨(rhs.x * (self.index 0).x) + (rhs.y * (self.index 1).x) + (rhs.z * (self.index 2).x),
   (rhs.x * (self.index 0).y) + (rhs.y * (self.index 1).y) + (rhs.z * (self.index 2).y),
   (rhs.x * (self.index 0).z) + (rhs.y * (self.index 1).z) + (rhs.z * (self.index 2).z)⟩

/-- The friend `operator*(const vec3 &lhs, const mat3 &rhs)`: row vector times matrix. -/
def vecMul [Add T] [Mul T] (lhs : vec3_t T) (rhs : mat3_t T) : vec3_t T :=
  ⟨lhs.dot (rhs.index 0), lhs.dot (rhs.index 1), lhs.dot (rhs.index 2)⟩

/-- The member `operator*(const T &rhs)`: `result[i] = (*this)[i] * rhs` for `i = 0, 1, 2`. -/
def mulScalar [Zero T] [One T] [Mul T] (self : mat3_t T) (rhs : T) : mat3_t T :=
  ([0, 1, 2] : List (Fin 3)).foldl
    (fun result i => result.setIndex i ((self.index i).mulScalar rhs))
    (diag 1)

/-- The friend `operator*(const T &lhs, const mat3 &rhs)`: `rhs * lhs`. -/
def scalarMul [Zero T] [One T] [Mul T] (lhs : T) (rhs : mat3_t T) : mat3_t T :=
  rhs.mulScalar lhs

/-- The member `determinant`, with the parentheses of the source: each line of the
`return` expression is `m[a][0] * (p * q) - (r * s)`, and the three lines are joined by
`-` and `+`, all left-associative. -/
def determinant [Add T] [Sub T] [Mul T] (self : mat3_t T) : T :=
  (self.index 0).index 0 * ((self.index 1).index 1 * (self.index 2).index 2)
      - ((self.index 2).index 1 * (self.index 1).index 2)
    - (self.index 1).index 0 * ((self.index 0).index 1 * (self.index 2).index 2)
      - ((self.index 2).index 1 * (self.index 0).index 2)
    + (self.index 2).index 0 * ((self.index 0).index 1 * (self.index 1).index 2)
      - ((self.index 1).index 1 * (self.index 0).index 2)

/-- The member `inverse`: `d = T(1) / determinant()`, then `*this = d * mat3(...)` with the
nine arguments of the source, in order. -/
def inverse [Zero T] [One T] [Add T] [Sub T] [Mul T] [Div T] (self : mat3_t T) : mat3_t T :=
  let d : T := 1 / self.determinant
  scalarMul d (ofScalars
    (((self.index 2).index 2 * (self.index 1).index 1)
      - ((self.index 1).index 2 * (self.index 2).index 1))
    (((self.index 1).index 2 * (self.index 2).index 0)
      - ((self.index 2).index 2 * (self.index 1).index 0))
    (((self.index 2).index 1 * (self.index 1).index 0)
      - ((self.index 1).index 1 * (self.index 2).index 0))

    (((self.index 0).index 2 * (self.index 2).index 1)
      - ((self.index 2).index 2 * (self.index 0).index 1))
    (((self.index 2).index 2 * (self.index 0).index 0)
      - ((self.index 0).index 2 * (self.index 2).index 0))
    (((self.index 0).index 1 * (self.index 2).index 0)
      - ((self.index 2).index 1 * (self.index 0).index 0))

    (((self.index 1).index 2 * (self.index 0).index 1)
      - ((self.index 0).index 2 * (self.index 1).index 1))
    (((self.index 0).index 2 * (self.index 1).index 0)
      - ((self.index 1).index 2 * (self.index 0).index 0))
    (((self.index 1).index 1 * (self.index 0).index 0)
      - ((self.index 0).index 1 * (self.index 1).index 0)))

/-- The member `transpose`. -/
def transpose (self : mat3_t T) : mat3_t T :=
  ⟨⟨(self.index 0).x, (self.index 1).x, (self.index 2).x⟩,
   ⟨(self.index 0).y, (self.index 1).y, (self.index 2).y⟩,
   ⟨(self.index 0).z, (self.index 1).z, (self.index 2).z⟩⟩

end mat3_t

/-! ## mat4_t -/

/-- The class `mat4_t<T>`: the member `vec4 columns[4]`. -/
structure mat4_t (T : Type) where
  columns0 : vec4_t T
  columns1 : vec4_t T
  columns2 : vec4_t T
  columns3 : vec4_t T
  deriving DecidableEq

namespace mat4_t

variable {T : Type}

/-- The constructor `mat4_t(const T mainDiagonalValue = T(1))`. -/
def diag [Zero T] (mainDiagonalValue : T) : mat4_t T :=
  ⟨⟨mainDiagonalValue, 0, 0, 0⟩, ⟨0, mainDiagonalValue, 0, 0⟩,
   ⟨0, 0, mainDiagonalValue, 0⟩, ⟨0, 0, 0, mainDiagonalValue⟩⟩

/-- The static member `mat4_t<T>::identity = mat4_t<T>(T(1))`. -/
def identity [Zero T] [One T] : mat4_t T := diag 1

/-- The constructor from sixteen scalars `a .. p`, four per column:
`mat4(vec4(a, b, c, d), vec4(e, f, g, h), vec4(i, j, k, l), vec4(m, n, o, p))`. -/
def ofScalars (a b c d e f g h i j k l m n o p : T) : mat4_t T :=
  ⟨⟨a, b, c, d⟩, ⟨e, f, g, h⟩, ⟨i, j, k, l⟩, ⟨m, n, o, p⟩⟩

/-- The read through `operator[](const int index) const`: the column in slot `index`. -/
def index (m : mat4_t T) : Fin 4 → vec4_t T
  | 0 => m.columns0
  | 1 => m.columns1
  | 2 => m.columns2
  | 3 => m.columns3

/-- The write `m[index] = v` through the reference returned by `operator[]`. -/
def setIndex (m : mat4_t T) (i : Fin 4) (v : vec4_t T) : mat4_t T :=
  match i with
  | 0 => { m with columns0 := v }
  | 1 => { m with columns1 := v }
  | 2 => { m with columns2 := v }
  | 3 => { m with columns3 := v }

/-- The flat view `reinterpret_cast<T*>(this)` read at slot `i`: the columns are stored
one after the other without padding, so slot `i` is component `i % 4` of column `i / 4`. -/
def flat (m : mat4_t T) (i : Fin 16) : T :=
  (m.index ⟨i.val / 4, by omega⟩).index ⟨i.val % 4, by omega⟩

/-- The write `m[i] = v` through the flat view `reinterpret_cast<T*>(this)`. -/
def setFlat (m : mat4_t T) (i : Fin 16) (v : T) : mat4_t T :=
  m.setIndex ⟨i.val / 4, by omega⟩
    ((m.index ⟨i.val / 4, by omega⟩).setIndex ⟨i.val % 4, by omega⟩ v)

/-- The member `col`. -/
def col (m : mat4_t T) (i : Fin 4) : vec4_t T := m.index i

/-- The member `row`. -/
def row (m : mat4_t T) (i : Fin 4) : vec4_t T :=
  ⟨(m.index 0).index i, (m.index 1).index i, (m.index 2).index i, (m.index 3).index i⟩

/-- The getter `value(row, column)`: `(*this)[column][row]`. -/
def value (m : mat4_t T) (row column : Fin 4) : T := (m.index column).index row

/-- The setter `value(row, column, value)`: `(*this)[column][row] = value`. -/
def setValue (m : mat4_t T) (row column : Fin 4) (v : T) : mat4_t T :=
  m.setIndex column ((m.index column).setIndex row v)

/-- The member `operator*(const mat4 &rhs)`: `result` starts as the default-constructed
matrix (the identity) and the two nested loops store `row(i).dot(rhs.col(j))` at `(i, j)`. -/
def mul [Zero T] [One T] [Add T] [Mul T] (self rhs : mat4_t T) : mat4_t T :=
  ([0, 1, 2, 3] : List (Fin 4)).foldl
    (fun result i =>
      ([0, 1, 2, 3] : List (Fin 4)).foldl
        (fun result j => result.setValue i j ((self.row i).dot (rhs.col j)))
        result)
    (diag 1)

/-- The member `operator*(const vec4 &rhs)`: matrix times column vector. -/
def mulVec [Add T] [Mul T] (self : mat4_t T) (rhs : vec4_t T) : vec4_t T :=
  ⟨(rhs.x * (self.index 0).x) + (rhs.y * (self.index 1).x) + (rhs.z * (self.index 2).x)
      + (rhs.w * (self.index 3).x),
   (rhs.x * (self.index 0).y) + (rhs.y * (self.index 1).y) + (rhs.z * (self.index 2).y)
      + (rhs.w * (self.index 3).y),
   (rhs.x * (self.index 0).z) + (rhs.y * (self.index 1).z) + (rhs.z * (self.index 2).z)
      + (rhs.w * (self.index 3).z),
   (rhs.x * (self.index 0).w) + (rhs.y * (self.index 1).w) + (rhs.z * (self.index 2).w)
      + (rhs.w * (self.index 3).w)⟩

/-- The friend `operator*(const vec4 &lhs, const mat4 &rhs)`: row vector times matrix. -/
def vecMul [Add T] [Mul T] (lhs : vec4_t T) (rhs : mat4_t T) : vec4_t T :=
  ⟨lhs.dot (rhs.index 0), lhs.dot (rhs.index 1), lhs.dot (rhs.index 2), lhs.dot (rhs.index 3)⟩

/-- The member `determinant`. -/
def determinant [Add T] [Sub T] [Mul T] (self : mat4_t T) : T :=
  ((self.index 0).index 0 * (self.index 1).index 1
      - (self.index 0).index 1 * (self.index 1).index 0) *
    ((self.index 2).index 2 * (self.index 3).index 3
      - (self.index 2).index 3 * (self.index 3).index 2) -
  ((self.index 0).index 0 * (self.index 1).index 2
      - (self.index 0).index 2 * (self.index 1).index 0) *
    ((self.index 2).index 1 * (self.index 3).index 3
      - (self.index 2).index 3 * (self.index 3).index 1) +
  ((self.index 0).index 0 * (self.index 1).index 3
      - (self.index 0).index 3 * (self.index 1).index 0) *
    ((self.index 2).index 1 * (self.index 3).index 2
      - (self.index 2).index 2 * (self.index 3).index 1) +
  ((self.index 0).index 1 * (self.index 1).index 2
      - (self.index 0).index 2 * (self.index 1).index 1) *
    ((self.index 2).index 0 * (self.index 3).index 3
      - (self.index 2).index 3 * (self.index 3).index 0) -
  ((self.index 0).index 1 * (self.index 1).index 3
      - (self.index 0).index 3 * (self.index 1).index 1) *
    ((self.index 2).index 0 * (self.index 3).index 2
      - (self.index 2).index 2 * (self.index 3).index 0) +
  ((self.index 0).index 2 * (self.index 1).index 3
      - (self.index 0).index 3 * (self.index 1).index 2) *
    ((self.index 2).index 0 * (self.index 3).index 1
      - (self.index 2).index 1 * (self.index 3).index 0)

/-- The local array `T inv[4 * 4]` of `inverse`, once its sixteen slots are assigned;
`m` is the flat view of the receiver. The slots are listed in the order of the source. -/
def inverse_inv [Add T] [Sub T] [Mul T] [Neg T] (self : mat4_t T) : Fin 16 → T :=
  let m : Fin 16 → T := self.flat
  fun
  | 0 => m 5 * m 10 * m 15 -
      m 5 * m 11 * m 14 -
      m 9 * m 6 * m 15 +
      m 9 * m 7 * m 14 +
      m 13 * m 6 * m 11 -
      m 13 * m 7 * m 10
  | 4 => (-m 4) * m 10 * m 15 +
      m 4 * m 11 * m 14 +
      m 8 * m 6 * m 15 -
      m 8 * m 7 * m 14 -
      m 12 * m 6 * m 11 +
      m 12 * m 7 * m 10
  | 8 => m 4 * m 9 * m 15 -
      m 4 * m 11 * m 13 -
      m 8 * m 5 * m 15 +
      m 8 * m 7 * m 13 +
      m 12 * m 5 * m 11 -
      m 12 * m 7 * m 9
  | 12 => (-m 4) * m 9 * m 14 +
      m 4 * m 10 * m 13 +
      m 8 * m 5 * m 14 -
      m 8 * m 6 * m 13 -
      m 12 * m 5 * m 10 +
      m 12 * m 6 * m 9
  | 1 => (-m 1) * m 10 * m 15 +
      m 1 * m 11 * m 14 +
      m 9 * m 2 * m 15 -
      m 9 * m 3 * m 14 -
      m 13 * m 2 * m 11 +
      m 13 * m 3 * m 10
  | 5 => m 0 * m 10 * m 15 -
      m 0 * m 11 * m 14 -
      m 8 * m 2 * m 15 +
      m 8 * m 3 * m 14 +
      m 12 * m 2 * m 11 -
      m 12 * m 3 * m 10
  | 9 => (-m 0) * m 9 * m 15 +
      m 0 * m 11 * m 13 +
      m 8 * m 1 * m 15 -
      m 8 * m 3 * m 13 -
      m 12 * m 1 * m 11 +
      m 12 * m 3 * m 9
  | 13 => m 0 * m 9 * m 14 -
      m 0 * m 10 * m 13 -
      m 8 * m 1 * m 14 +
      m 8 * m 2 * m 13 +
      m 12 * m 1 * m 10 -
      m 12 * m 2 * m 9
  | 2 => m 1 * m 6 * m 15 -
      m 1 * m 7 * m 14 -
      m 5 * m 2 * m 15 +
      m 5 * m 3 * m 14 +
      m 13 * m 2 * m 7 -
      m 13 * m 3 * m 6
  | 6 => (-m 0) * m 6 * m 15 +
      m 0 * m 7 * m 14 +
      m 4 * m 2 * m 15 -
      m 4 * m 3 * m 14 -
      m 12 * m 2 * m 7 +
      m 12 * m 3 * m 6
  | 10 => m 0 * m 5 * m 15 -
      m 0 * m 7 * m 13 -
      m 4 * m 1 * m 15 +
      m 4 * m 3 * m 13 +
      m 12 * m 1 * m 7 -
      m 12 * m 3 * m 5
  | 14 => (-m 0) * m 5 * m 14 +
      m 0 * m 6 * m 13 +
      m 4 * m 1 * m 14 -
      m 4 * m 2 * m 13 -
      m 12 * m 1 * m 6 +
      m 12 * m 2 * m 5
  | 3 => (-m 1) * m 6 * m 11 +
      m 1 * m 7 * m 10 +
      m 5 * m 2 * m 11 -
      m 5 * m 3 * m 10 -
      m 9 * m 2 * m 7 +
      m 9 * m 3 * m 6
  | 7 => m 0 * m 6 * m 11 -
      m 0 * m 7 * m 10 -
      m 4 * m 2 * m 11 +
      m 4 * m 3 * m 10 +
      m 8 * m 2 * m 7 -
      m 8 * m 3 * m 6
  | 11 => (-m 0) * m 5 * m 11 +
      m 0 * m 7 * m 9 +
      m 4 * m 1 * m 11 -
      m 4 * m 3 * m 9 -
      m 8 * m 1 * m 7 +
      m 8 * m 3 * m 5
  | 15 => m 0 * m 5 * m 10 -
      m 0 * m 6 * m 9 -
      m 4 * m 1 * m 10 +
      m 4 * m 2 * m 9 +
      m 8 * m 1 * m 6 -
      m 8 * m 2 * m 5
  | ⟨n + 16, h⟩ => absurd h (by omega)

/-- The local `det` of `inverse` as first computed:
`m[0] * inv[0] + m[1] * inv[4] + m[2] * inv[8] + m[3] * inv[12]`. -/
def inverse_det [Add T] [Sub T] [Mul T] [Neg T] (self : mat4_t T) : T :=
  self.flat 0 * self.inverse_inv 0 + self.flat 1 * self.inverse_inv 4
    + self.flat 2 * self.inverse_inv 8 + self.flat 3 * self.inverse_inv 12

/-- The member `inverse`: if `LINALG_FEQUAL(det, 0.0)` the receiver becomes
`mat4::identity`; otherwise `det = T(1) / det` and the loop stores `inv[i] * det` in
flat slot `i` of the receiver, for `i = 0 .. 15`. -/
def inverse [LinearOrderedField T] (self : mat4_t T) : mat4_t T :=
  let inv : Fin 16 → T := self.inverse_inv
  let det : T := self.inverse_det
  if LINALG_FEQUAL det 0 then
    identity
  else
    let det : T := 1 / det
    ([0, 1, 2, 3, 4, 5, 6, 7, 8, 9, 10, 11, 12, 13, 14, 15] : List (Fin 16)).foldl
      (fun self i => self.setFlat i (inv i * det))
      self

/-- The member `transpose`. -/
def transpose (self : mat4_t T) : mat4_t T :=
  ⟨⟨(self.index 0).x, (self.index 1).x, (self.index 2).x, (self.index 3).x⟩,
   ⟨(self.index 0).y, (self.index 1).y, (self.index 2).y, (self.index 3).y⟩,
   ⟨(self.index 0).z, (self.index 1).z, (self.index 2).z, (self.index 3).z⟩,
   ⟨(self.index 0).w, (self.index 1).w, (self.index 2).w, (self.index 3).w⟩⟩

end mat4_t

/-! ## The closed form the specification names for the 3x3 determinant -/

/-- The cofactor expansion along the first row, as the specification words it: with
`A(r,c) = value(r,c)`,
`A00*(A11*A22 - A12*A21) - A01*(A10*A22 - A12*A20) + A02*(A10*A21 - A11*A20)`.
This follows the specification, not the source; `mat3_t.determinant` is the source. -/
def mat3_t.cofactorExpansion {T : Type} [Add T] [Sub T] [Mul T] (M : mat3_t T) : T :=
  M.value 0 0 * (M.value 1 1 * M.value 2 2 - M.value 1 2 * M.value 2 1)
    - M.value 0 1 * (M.value 1 0 * M.value 2 2 - M.value 1 2 * M.value 2 0)
    + M.value 0 2 * (M.value 1 0 * M.value 2 1 - M.value 1 1 * M.value 2 0)

/-! ## Lengths, normalisation and classification of floating vectors

`length` calls `sqrt` of `<math.h>`, and `normalize`, `isNullVector` and `isUnitVector` are
the explicit specialisations for `float` and `double` (the two are the same text up to the
macro name, and `LINALG_DEQUAL` is `LINALG_FEQUAL`). The square root is a parameter `sqrt`
of the model; the scalars are an exact ordered field. -/

/-- What the theorems ask of the `sqrt` of `<math.h>`, read over exact scalars: on
non-negative arguments it is the non-negative square root. -/
def IsSqrt {T : Type} [LinearOrderedField T] (sqrt : T → T) : Prop :=
  ∀ x : T, 0 ≤ x → 0 ≤ sqrt x ∧ sqrt x * sqrt x = x

namespace vec2_t

variable {T : Type}

/-- The member `lengthSquared`. -/
def lengthSquared [Add T] [Mul T] (self : vec2_t T) : T := self.x * self.x + self.y * self.y

/-- The member `length`: `sqrt(this->lengthSquared())`. -/
def length [Add T] [Mul T] (sqrt : T → T) (self : vec2_t T) : T := sqrt self.lengthSquared

/-- The specialisations `fvec2::normalize` and `dvec2::normalize`; the parameter `to` is
spelled `to_`. -/
def normalize [LinearOrderedField T] (sqrt : T → T) (self : vec2_t T) (to_ : T) : vec2_t T :=
  let length : T := self.length sqrt
  if !LINALG_FEQUAL length 0 && !LINALG_FEQUAL length to_ then
    let length : T := to_ / length
    self.mulScalar length
  else
    self

/-- The specialisations `fvec2::isNullVector` and `dvec2::isNullVector`. -/
def isNullVector [LinearOrderedField T] (self : vec2_t T) : Bool :=
  LINALG_FEQUAL self.x 0 && LINALG_FEQUAL self.y 0

/-- The specialisations `fvec2::isUnitVector` and `dvec2::isUnitVector`. -/
def isUnitVector [LinearOrderedField T] (self : vec2_t T) : Bool :=
  LINALG_FEQUAL self.lengthSquared 1

end vec2_t

namespace vec3_t

variable {T : Type}

/-- The friend `operator-(const vec3 &lhs, const vec3 &rhs)`. -/
def sub [Sub T] (lhs rhs : vec3_t T) : vec3_t T :=
  ⟨lhs.x - rhs.x, lhs.y - rhs.y, lhs.z - rhs.z⟩

/-- The member `cross`. -/
def cross [Sub T] [Mul T] (self rhs : vec3_t T) : vec3_t T :=
  ⟨(self.y * rhs.z) - (self.z * rhs.y),
   (self.z * rhs.x) - (self.x * rhs.z),
   (self.x * rhs.y) - (self.y * rhs.x)⟩

/-- The member `lengthSquared`. -/
def lengthSquared [Add T] [Mul T] (self : vec3_t T) : T :=
  self.x * self.x + self.y * self.y + self.z * self.z

/-- The member `length`: `sqrt(this->lengthSquared())`. -/
def length [Add T] [Mul T] (sqrt : T → T) (self : vec3_t T) : T := sqrt self.lengthSquared

/-- The specialisations `fvec3::normalize` and `dvec3::normalize`; the parameter `to` is
spelled `to_`. -/
def normalize [LinearOrderedField T] (sqrt : T → T) (self : vec3_t T) (to_ : T) : vec3_t T :=
  let length : T := self.length sqrt
  if !LINALG_FEQUAL length 0 && !LINALG_FEQUAL length to_ then
    let length : T := to_ / length
    self.mulScalar length
  else
    self

/-- The specialisations `fvec3::isNullVector` and `dvec3::isNullVector`. -/
def isNullVector [LinearOrderedField T] (self : vec3_t T) : Bool :=
  LINALG_FEQUAL self.x 0 && LINALG_FEQUAL self.y 0 && LINALG_FEQUAL self.z 0

/-- The specialisations `fvec3::isUnitVector` and `dvec3::isUnitVector`. -/
def isUnitVector [LinearOrderedField T] (self : vec3_t T) : Bool :=
  LINALG_FEQUAL self.lengthSquared 1

end vec3_t

namespace vec4_t

variable {T : Type}

/-- The member `lengthSquared`. -/
def lengthSquared [Add T] [Mul T] (self : vec4_t T) : T :=
  self.x * self.x + self.y * self.y + self.z * self.z + self.w * self.w

/-- The member `length`: `sqrt(this->lengthSquared())`. -/
def length [Add T] [Mul T] (sqrt : T → T) (self : vec4_t T) : T := sqrt self.lengthSquared

/-- The specialisations `fvec4::normalize` and `dvec4::normalize`; the parameter `to` is
spelled `to_`. -/
def normalize [LinearOrderedField T] (sqrt : T → T) (self : vec4_t T) (to_ : T) : vec4_t T :=
  let length : T := self.length sqrt
  if !LINALG_FEQUAL length 0 && !LINALG_FEQUAL length to_ then
    let length : T := to_ / length
    self.mulScalar length
  else
    self

/-- The specialisations `fvec4::isNullVector` and `dvec4::isNullVector`. -/
def isNullVector [LinearOrderedField T] (self : vec4_t T) : Bool :=
  LINALG_FEQUAL self.x 0 && LINALG_FEQUAL self.y 0 && LINALG_FEQUAL self.z 0
    && LINALG_FEQUAL self.w 0

end vec4_t

/-! ## The transformation builders of mat4_t

Every builder is `return ((*this) *= mat4(...))`, and `operator*=` is
`*this = (*this) * rhs`: the new receiver is the old one times the matrix that is built.
`sin`, `cos` and `sqrt` of `<math.h>` are parameters of the model. -/

namespace mat4_t

variable {T : Type}

/-- The member `translate(const vec3 &translation)`. -/
def translate [Zero T] [One T] [Add T] [Mul T] (self : mat4_t T) (translation : vec3_t T) :
    mat4_t T :=
  self.mul
    ⟨⟨1, 0, 0, 0⟩,
     ⟨0, 1, 0, 0⟩,
     ⟨0, 0, 1, 0⟩,
     ⟨translation.x, translation.y, translation.z, 1⟩⟩

/-- The member `scale(const vec3 &scaling)`. -/
def scale [Zero T] [One T] [Add T] [Mul T] (self : mat4_t T) (scaling : vec3_t T) :
    mat4_t T :=
  self.mul
    ⟨⟨scaling.x, 0, 0, 0⟩,
     ⟨0, scaling.y, 0, 0⟩,
     ⟨0, 0, scaling.z, 0⟩,
     ⟨0, 0, 0, 1⟩⟩

/-- The member `rotate(const T radians, const vec3 &axis)`. The statement
`axisNormalized.normalize();` calls a `const` member that returns the normalised vector by
value; the returned vector is not assigned, so `axisNormalized` stays `axis`. -/
def rotate [LinearOrderedField T] (sqrt sin cos : T → T) (self : mat4_t T) (radians : T)
    (axis : vec3_t T) : mat4_t T :=
  let axisNormalized : vec3_t T := axis
  let _ : vec3_t T :=
    if !axisNormalized.isUnitVector then axisNormalized.normalize sqrt 1 else axisNormalized
  let s : T := sin radians
  let c : T := cos radians
  let x : T := axisNormalized.x
  let y : T := axisNormalized.y
  let z : T := axisNormalized.z
  self.mul (ofScalars
    (x * x * (1 - c) + c)
    (x * y * (1 - c) - z * s)
    (x * z * (1 - c) + y * s)
    0

    (y * x * (1 - c) + z * s)
    (y * y * (1 - c) + c)
    (y * z * (1 - c) - x * s)
    0

    (x * z * (1 - c) - y * s)
    (y * z * (1 - c) + x * s)
    (z * z * (1 - c) + c)
    0

    0 0 0 1)

/-- The member `rotateX`. -/
def rotateX [Zero T] [One T] [Add T] [Mul T] [Neg T] (sin cos : T → T) (self : mat4_t T)
    (radians : T) : mat4_t T :=
  let s : T := sin radians
  let c : T := cos radians
  self.mul
    ⟨⟨1, 0, 0, 0⟩,
     ⟨0, c, -s, 0⟩,
     ⟨0, s, c, 0⟩,
     ⟨0, 0, 0, 1⟩⟩

/-- The member `rotateY`. -/
def rotateY [Zero T] [One T] [Add T] [Mul T] [Neg T] (sin cos : T → T) (self : mat4_t T)
    (radians : T) : mat4_t T :=
  let s : T := sin radians
  let c : T := cos radians
  self.mul
    ⟨⟨c, 0, s, 0⟩,
     ⟨0, 1, 0, 0⟩,
     ⟨-s, 0, c, 0⟩,
     ⟨0, 0, 0, 1⟩⟩

/-- The member `rotateZ`. -/
def rotateZ [Zero T] [One T] [Add T] [Mul T] [Neg T] (sin cos : T → T) (self : mat4_t T)
    (radians : T) : mat4_t T :=
  let s : T := sin radians
  let c : T := cos radians
  self.mul
    ⟨⟨c, -s, 0, 0⟩,
     ⟨s, c, 0, 0⟩,
     ⟨0, 0, 1, 0⟩,
     ⟨0, 0, 0, 1⟩⟩

/-- The member `orthographic`; `T(2)` and `T(-2)` are the scalars `2` and `-2`. -/
def orthographic [Field T] (self : mat4_t T) (left right bottom top zNear zFar : T) :
    mat4_t T :=
  self.mul
    ⟨⟨(2 / (right - left)), 0, 0, 0⟩,
     ⟨0, (2 / (top - bottom)), 0, 0⟩,
     ⟨0, 0, ((-2) / (zFar - zNear)), 0⟩,
     ⟨-((right + left) / (right - left)), -((top + bottom) / (top - bottom)),
      -((zFar + zNear) / (zFar - zNear)), 1⟩⟩

/-- The member `frustum`: `(*this).orthographic(left, right, bottom, top, zNear, zFar)`. -/
def frustum [Field T] (self : mat4_t T) (left right bottom top zNear zFar : T) : mat4_t T :=
  self.orthographic left right bottom top zNear zFar

/-- The member `viewport`; `T(0.5)` is the scalar one half, written `1 / 2`. -/
def viewport [Field T] (self : mat4_t T) (x y width height : T) : mat4_t T :=
  let half_width : T := width * (1 / 2)
  let half_height : T := height * (1 / 2)
  let zNear : T := 0
  let zFar : T := 1
  self.mul (ofScalars
    half_width 0 0 0
    0 half_height 0 0
    0 0 ((zFar - zNear) * (1 / 2)) 0
    (x + half_width) (y + half_height) ((zNear + zFar) * (1 / 2)) 1)

/-- The local `z_axis` of `lookAt`: `(eye - at).normalize()`. -/
def lookAt_z_axis [LinearOrderedField T] (sqrt : T → T) (eye at_ : vec3_t T) : vec3_t T :=
  (eye.sub at_).normalize sqrt 1

/-- The local `x_axis` of `lookAt`: `up.cross(z_axis).normalize()`. -/
def lookAt_x_axis [LinearOrderedField T] (sqrt : T → T) (eye at_ up : vec3_t T) : vec3_t T :=
  (up.cross (lookAt_z_axis sqrt eye at_)).normalize sqrt 1

/-- The local `y_axis` of `lookAt`: `z_axis.cross(x_axis)`. -/
def lookAt_y_axis [LinearOrderedField T] (sqrt : T → T) (eye at_ up : vec3_t T) : vec3_t T :=
  (lookAt_z_axis sqrt eye at_).cross (lookAt_x_axis sqrt eye at_ up)

/-- The member `lookAt(eye, at, up)`; the parameter `at` is spelled `at_`. -/
def lookAt [LinearOrderedField T] (sqrt : T → T) (self : mat4_t T) (eye at_ up : vec3_t T) :
    mat4_t T :=
  let z_axis : vec3_t T := lookAt_z_axis sqrt eye at_
  let x_axis : vec3_t T := lookAt_x_axis sqrt eye at_ up
  let y_axis : vec3_t T := lookAt_y_axis sqrt eye at_ up
  self.mul (ofScalars
    x_axis.x y_axis.x z_axis.x 0
    x_axis.y y_axis.y z_axis.y 0
    x_axis.z y_axis.z z_axis.z 0
    (-(x_axis.dot eye)) (-(y_axis.dot eye)) (-(z_axis.dot eye)) 1)

/-- The member `getTranslation`. -/
def getTranslation (self : mat4_t T) : vec3_t T :=
  let translation : vec4_t T := self.index 3
  ⟨translation.x, translation.y, translation.z⟩

end mat4_t

/-! ## The rotation formula the specification names -/

/-- Rodrigues' rotation of `v` about the axis `k` by the angle whose sine and cosine are `s`
and `c`, as the specification words it: `v·cosθ + (k × v)·sinθ + k·(k·v)·(1 - cosθ)`.
This follows the specification, not the source; `mat4_t.rotate` is the source. -/
def rodriguesRotation {T : Type} [Add T] [Sub T] [Mul T] [One T] (s c : T) (k v : vec3_t T) :
    vec3_t T :=
  ⟨v.x * c + (k.cross v).x * s + k.x * (k.dot v) * (1 - c),
   v.y * c + (k.cross v).y * s + k.y * (k.dot v) * (1 - c),
   v.z * c + (k.cross v).z * s + k.z * (k.dot v) * (1 - c)⟩

/-! ## Construction, comparison and component-wise operations of the vectors

`operator==` has a generic definition (exact comparison of the components) and explicit
specialisations for `float` and `double` (`LINALG_FEQUAL` / `LINALG_DEQUAL` on the
components); the two are `eq` and `eqFloat`. A raw array argument (`const T2 *`) is a
function from the offset to the scalar stored there. -/

namespace vec2_t

variable {T : Type}

/-- The default constructor `vec2_t(void)`: every component is `T(0)`. -/
def new [Zero T] : vec2_t T := ⟨0, 0⟩

/-- The static member `vec2_t<T>::zero`. -/
def zero [Zero T] : vec2_t T := ⟨0, 0⟩

/-- The constructor `vec2_t(const T2 *xy)`. -/
def ofPointer (xy : Nat → T) : vec2_t T := ⟨xy 0, xy 1⟩

/-- The read `v[index]` with an `int` index: outside `0..1` the source reads past the
object, which is undefined; the model then has no value. -/
def indexInt (v : vec2_t T) (index : Nat) : Option T :=
  if h : index < 2 then some (v.index ⟨index, h⟩) else none

/-- The unary `operator-`. -/
def neg [Neg T] (self : vec2_t T) : vec2_t T := ⟨-self.x, -self.y⟩

/-- The friend `operator+(const vec2 &lhs, const vec2 &rhs)`. -/
def add [Add T] (lhs rhs : vec2_t T) : vec2_t T :=
  ⟨(lhs.x + rhs.x), (lhs.y + rhs.y)⟩

/-- The specialisations `fvec2::operator==` and `dvec2::operator==`. -/
def eqFloat [LinearOrderedField T] (self rhs : vec2_t T) : Bool :=
  LINALG_FEQUAL self.x rhs.x && LINALG_FEQUAL self.y rhs.y

/-- The member `max`. -/
def max [LinearOrder T] (self rhs : vec2_t T) : vec2_t T :=
  ⟨(if self.x > rhs.x then self.x else rhs.x),
   (if self.y > rhs.y then self.y else rhs.y)⟩

/-- The member `min`. -/
def min [LinearOrder T] (self rhs : vec2_t T) : vec2_t T :=
  ⟨(if self.x < rhs.x then self.x else rhs.x),
   (if self.y < rhs.y then self.y else rhs.y)⟩

/-- The member `clamp(min, max)`: `this->min(max).max(min)`. -/
def clamp [LinearOrder T] (self min max : vec2_t T) : vec2_t T :=
  (self.min max).max min

end vec2_t

namespace vec3_t

variable {T : Type}

/-- The default constructor `vec3_t(void)`: every component is `T(0)`. -/
def new [Zero T] : vec3_t T := ⟨0, 0, 0⟩

/-- The static member `vec3_t<T>::zero`. -/
def zero [Zero T] : vec3_t T := ⟨0, 0, 0⟩

/-- The constructor `vec3_t(const T2 *xyz)`. -/
def ofPointer (xyz : Nat → T) : vec3_t T := ⟨xyz 0, xyz 1, xyz 2⟩

/-- The read `v[index]` with an `int` index: outside `0..2` the source reads past the
object, which is undefined; the model then has no value. -/
def indexInt (v : vec3_t T) (index : Nat) : Option T :=
  if h : index < 3 then some (v.index ⟨index, h⟩) else none

/-- The unary `operator-`. -/
def neg [Neg T] (self : vec3_t T) : vec3_t T := ⟨-self.x, -self.y, -self.z⟩

/-- The friend `operator+(const vec3 &lhs, const vec3 &rhs)`. -/
def add [Add T] (lhs rhs : vec3_t T) : vec3_t T :=
  ⟨(lhs.x + rhs.x), (lhs.y + rhs.y), (lhs.z + rhs.z)⟩

/-- The specialisations `fvec3::operator==` and `dvec3::operator==`. -/
def eqFloat [LinearOrderedField T] (self rhs : vec3_t T) : Bool :=
  LINALG_FEQUAL self.x rhs.x && LINALG_FEQUAL self.y rhs.y && LINALG_FEQUAL self.z rhs.z

/-- The member `max`. -/
def max [LinearOrder T] (self rhs : vec3_t T) : vec3_t T :=
  ⟨(if self.x > rhs.x then self.x else rhs.x),
   (if self.y > rhs.y then self.y else rhs.y),
   (if self.z > rhs.z then self.z else rhs.z)⟩

/-- The member `min`. -/
def min [LinearOrder T] (self rhs : vec3_t T) : vec3_t T :=
  ⟨(if self.x < rhs.x then self.x else rhs.x),
   (if self.y < rhs.y then self.y else rhs.y),
   (if self.z < rhs.z then self.z else rhs.z)⟩

/-- The member `clamp(min, max)`: `this->min(max).max(min)`. -/
def clamp [LinearOrder T] (self min max : vec3_t T) : vec3_t T :=
  (self.min max).max min

/-- The generic `isParallelTo`: `this->dot(rhs) == 1`. -/
def isParallelTo [Add T] [Mul T] [One T] [DecidableEq T] (self rhs : vec3_t T) : Bool :=
  decide (self.dot rhs = 1)

/-- The specialisations `fvec3::isParallelTo` and `dvec3::isParallelTo`. -/
def isParallelToFloat [LinearOrderedField T] (self rhs : vec3_t T) : Bool :=
  let dot : T := self.dot rhs
  LINALG_FEQUAL dot 1

/-- The macro `LINALG_SWIZZLE_INDEX(index, c)` of `vec3_t`: the value it assigns to `index`
(every branch assigns). The first test names `'X'` twice, as in the source. -/
def LINALG_SWIZZLE_INDEX (c : Char) : Nat :=
  if (c == 'X') || (c == 'X') || (c == 'r') || (c == 'R') || (c == 's') || (c == 'S') then 0
  else if (c == 'y') || (c == 'Y') || (c == 'g') || (c == 'G') || (c == 't') || (c == 'T') then 1
  else if (c == 'z') || (c == 'Z') || (c == 'b') || (c == 'B') || (c == 'p') || (c == 'P') then 2
  else 0

/-- The overload `vec3_t::swizzle(const char x, const char y)`. -/
def swizzle2 (self : vec3_t T) (x y : Char) : Option (vec2_t T) := do
  let x_index : Nat := LINALG_SWIZZLE_INDEX x
  let y_index : Nat := LINALG_SWIZZLE_INDEX y
  let a ← self.indexInt x_index
  let b ← self.indexInt y_index
  pure ⟨a, b⟩

/-- The overload `vec3_t::swizzle(const char x, const char y, const char z)`. -/
def swizzle3 (self : vec3_t T) (x y z : Char) : Option (vec3_t T) := do
  let x_index : Nat := LINALG_SWIZZLE_INDEX x
  let y_index : Nat := LINALG_SWIZZLE_INDEX y
  let z_index : Nat := LINALG_SWIZZLE_INDEX z
  let a ← self.indexInt x_index
  let b ← self.indexInt y_index
  let c ← self.indexInt z_index
  pure ⟨a, b, c⟩

end vec3_t

namespace vec4_t

variable {T : Type}

/-- The default constructor `vec4_t(void)`: every component is `T(0)`. -/
def new [Zero T] : vec4_t T := ⟨0, 0, 0, 0⟩

/-- The static member `vec4_t<T>::zero`. -/
def zero [Zero T] : vec4_t T := ⟨0, 0, 0, 0⟩

/-- The constructor `vec4_t(const T2 *xyzw)`, with the offsets of the source: all four
components are initialised from `xyzw[0]`. -/
def ofPointer (xyzw : Nat → T) : vec4_t T := ⟨xyzw 0, xyzw 0, xyzw 0, xyzw 0⟩

/-- The constructor `vec4_t(const vec3_t<T2> &xyz, const T3 &w = T3(0))`. -/
def ofVec3 (xyz : vec3_t T) (w : T) : vec4_t T := ⟨xyz.x, xyz.y, xyz.z, w⟩

/-- The read `v[index]` with an `int` index: outside `0..3` the source reads past the
object, which is undefined; the model then has no value. -/
def indexInt (v : vec4_t T) (index : Nat) : Option T :=
  if h : index < 4 then some (v.index ⟨index, h⟩) else none

/-- The unary `operator-`. -/
def neg [Neg T] (self : vec4_t T) : vec4_t T := ⟨-self.x, -self.y, -self.z, -self.w⟩

/-- The friend `operator+(const vec4 &lhs, const vec4 &rhs)`. -/
def add [Add T] (lhs rhs : vec4_t T) : vec4_t T :=
  ⟨(lhs.x + rhs.x), (lhs.y + rhs.y), (lhs.z + rhs.z), (lhs.w + rhs.w)⟩

/-- The specialisations `fvec4::operator==` and `dvec4::operator==`. -/
def eqFloat [LinearOrderedField T] (self rhs : vec4_t T) : Bool :=
  LINALG_FEQUAL self.x rhs.x && LINALG_FEQUAL self.y rhs.y && LINALG_FEQUAL self.z rhs.z && LINALG_FEQUAL self.w rhs.w

/-- The member `max`. -/
def max [LinearOrder T] (self rhs : vec4_t T) : vec4_t T :=
  ⟨(if self.x > rhs.x then self.x else rhs.x),
   (if self.y > rhs.y then self.y else rhs.y),
   (if self.z > rhs.z then self.z else rhs.z),
   (if self.w > rhs.w then self.w else rhs.w)⟩

/-- The member `min`. -/
def min [LinearOrder T] (self rhs : vec4_t T) : vec4_t T :=
  ⟨(if self.x < rhs.x then self.x else rhs.x),
   (if self.y < rhs.y then self.y else rhs.y),
   (if self.z < rhs.z then self.z else rhs.z),
   (if self.w < rhs.w then self.w else rhs.w)⟩

/-- The member `clamp(min, max)`: `this->min(max).max(min)`. -/
def clamp [LinearOrder T] (self min max : vec4_t T) : vec4_t T :=
  (self.min max).max min

/-- The macro `LINALG_SWIZZLE_INDEX(index, c)` of `vec4_t`: the value it assigns to `index`
(every branch assigns). The first test names `'X'` twice, as in the source. -/
def LINALG_SWIZZLE_INDEX (c : Char) : Nat :=
  if (c == 'X') || (c == 'X') || (c == 'r') || (c == 'R') || (c == 's') || (c == 'S') then 0
  else if (c == 'y') || (c == 'Y') || (c == 'g') || (c == 'G') || (c == 't') || (c == 'T') then 1
  else if (c == 'z') || (c == 'Z') || (c == 'b') || (c == 'B') || (c == 'p') || (c == 'P') then 2
  else if (c == 'w') || (c == 'W') || (c == 'a') || (c == 'A') || (c == 'q') || (c == 'Q') then 3
  else 0

/-- The overload `vec4_t::swizzle(const char x, const char y)`. -/
def swizzle2 (self : vec4_t T) (x y : Char) : Option (vec2_t T) := do
  let x_index : Nat := LINALG_SWIZZLE_INDEX x
  let y_index : Nat := LINALG_SWIZZLE_INDEX y
  let a ← self.indexInt x_index
  let b ← self.indexInt y_index
  pure ⟨a, b⟩

/-- The overload `vec4_t::swizzle(const char x, const char y, const char z)`. -/
def swizzle3 (self : vec4_t T) (x y z : Char) : Option (vec3_t T) := do
  let x_index : Nat := LINALG_SWIZZLE_INDEX x
  let y_index : Nat := LINALG_SWIZZLE_INDEX y
  let z_index : Nat := LINALG_SWIZZLE_INDEX z
  let a ← self.indexInt x_index
  let b ← self.indexInt y_index
  let c ← self.indexInt z_index
  pure ⟨a, b, c⟩

/-- The overload `vec4_t::swizzle(const char x, const char y, const char z, const char w)`. -/
def swizzle4 (self : vec4_t T) (x y z w : Char) : Option (vec4_t T) := do
  let x_index : Nat := LINALG_SWIZZLE_INDEX x
  let y_index : Nat := LINALG_SWIZZLE_INDEX y
  let z_index : Nat := LINALG_SWIZZLE_INDEX z
  let w_index : Nat := LINALG_SWIZZLE_INDEX w
  let a ← self.indexInt x_index
  let b ← self.indexInt y_index
  let c ← self.indexInt z_index
  let d ← self.indexInt w_index
  pure ⟨a, b, c, d⟩

end vec4_t

/-- The channel convention as the specification words it: a selector names, without regard
to case, `x/r/s` for index 0, `y/g/t` for 1, `z/b/p` for 2, `w/a/q` for 3, and any other
character stands for index 0. This follows the specification, not the source. -/
def swizzleChannel (c : Char) : Fin 4 :=
  if c ∈ ['x', 'X', 'r', 'R', 's', 'S'] then 0
  else if c ∈ ['y', 'Y', 'g', 'G', 't', 'T'] then 1
  else if c ∈ ['z', 'Z', 'b', 'B', 'p', 'P'] then 2
  else if c ∈ ['w', 'W', 'a', 'A', 'q', 'Q'] then 3
  else 0

/-! ## Construction of the matrices from arrays and from smaller matrices

The constructors `matN_t(const T values[N * N])` write the flat view
`reinterpret_cast<T*>(this)` slot by slot, after the member `columns` has been
default-constructed. -/

namespace mat2_t

variable {T : Type}

/-- The flat view `reinterpret_cast<T*>(this)` read at slot `i`: component `i % 2` of column
`i / 2`. -/
def flat (m : mat2_t T) (i : Fin 4) : T :=
  (m.index ⟨i.val / 2, by omega⟩).index ⟨i.val % 2, by omega⟩

/-- The write `m[i] = v` through the flat view `reinterpret_cast<T*>(this)`. -/
def setFlat (m : mat2_t T) (i : Fin 4) (v : T) : mat2_t T :=
  m.setIndex ⟨i.val / 2, by omega⟩
    ((m.index ⟨i.val / 2, by omega⟩).setIndex ⟨i.val % 2, by omega⟩ v)

/-- The constructor `mat2_t(const T values[2 * 2])`. -/
def ofArray [Zero T] (values : Nat → T) : mat2_t T :=
  ([0, 1, 2, 3] : List (Fin 4)).foldl
    (fun self i => self.setFlat i (values i.val))
    ⟨vec2_t.new, vec2_t.new⟩

end mat2_t

namespace mat3_t

variable {T : Type}

/-- The flat view `reinterpret_cast<T*>(this)` read at slot `i`: component `i % 3` of column
`i / 3`. -/
def flat (m : mat3_t T) (i : Fin 9) : T :=
  (m.index ⟨i.val / 3, by omega⟩).index ⟨i.val % 3, by omega⟩

/-- The write `m[i] = v` through the flat view `reinterpret_cast<T*>(this)`. -/
def setFlat (m : mat3_t T) (i : Fin 9) (v : T) : mat3_t T :=
  m.setIndex ⟨i.val / 3, by omega⟩
    ((m.index ⟨i.val / 3, by omega⟩).setIndex ⟨i.val % 3, by omega⟩ v)

/-- The constructor `mat3_t(const T values[3 * 3])`. -/
def ofArray [Zero T] (values : Nat → T) : mat3_t T :=
  ([0, 1, 2, 3, 4, 5, 6, 7, 8] : List (Fin 9)).foldl
    (fun self i => self.setFlat i (values i.val))
    ⟨vec3_t.new, vec3_t.new, vec3_t.new⟩

end mat3_t

namespace mat4_t

variable {T : Type}

/-- The constructor `mat4_t(const T values[4 * 4])`. -/
def ofArray [Zero T] (values : Nat → T) : mat4_t T :=
  ([0, 1, 2, 3, 4, 5, 6, 7, 8, 9, 10, 11, 12, 13, 14, 15] : List (Fin 16)).foldl
    (fun self i => self.setFlat i (values i.val))
    ⟨vec4_t.new, vec4_t.new, vec4_t.new, vec4_t.new⟩

/-- The constructor `mat4_t(const mat3 &m)`. -/
def ofMat3 [Zero T] [One T] (m : mat3_t T) : mat4_t T :=
  ⟨vec4_t.ofVec3 (m.index 0) 0,
   vec4_t.ofVec3 (m.index 1) 0,
   vec4_t.ofVec3 (m.index 2) 0,
   ⟨0, 0, 0, 1⟩⟩

end mat4_t

/-! ## Projection, reflection, orthogonalisation, increments and the perspective matrix

`project` and `perpendicular` keep the length of `b` in a local `const float length`; over
exact scalars the conversion to `float` is the identity. The increment and decrement
operators change the receiver and return a vector: they are modelled by the pair of the
receiver after the call and the value returned. `tan` of `<math.h>` is a parameter, and
`perspective` yields no matrix where one of its quotients has a zero divisor. -/

/-- The macro `LINALG_PI` (`3.1415926535897932`), read as the exact decimal fraction. -/
def LINALG_PI {T : Type} [NatCast T] [Div T] : T :=
  ((31415926535897932 : Nat) : T) / ((10000000000000000 : Nat) : T)

/-- The macro `LINALG_DEG2RAD`: `(LINALG_PI / 180.0)`. -/
def LINALG_DEG2RAD {T : Type} [NatCast T] [Div T] : T := LINALG_PI / ((180 : Nat) : T)

namespace vec2_t

variable {T : Type}

/-- The friend `operator-(const vec2 &lhs, const vec2 &rhs)`. -/
def sub [Sub T] (lhs rhs : vec2_t T) : vec2_t T := ⟨lhs.x - rhs.x, lhs.y - rhs.y⟩

/-- The friend `operator*(const T &lhs, const vec2 &rhs)`: `vec2(lhs) * rhs`. -/
def scalarMul [Mul T] (lhs : T) (rhs : vec2_t T) : vec2_t T := (splat lhs).mul rhs

/-- The member `project`: the projection of `*this` onto `b`. -/
def project [Add T] [Mul T] [Div T] (sqrt : T → T) (self b : vec2_t T) : vec2_t T :=
  let length : T := b.length sqrt
  scalarMul (self.dot b / (length * length)) b

/-- The member `perpendicular`: the components of `*this` perpendicular to `b`. -/
def perpendicular [Add T] [Sub T] [Mul T] [Div T] (sqrt : T → T) (self b : vec2_t T) :
    vec2_t T :=
  let length : T := b.length sqrt
  self.sub (scalarMul (self.dot b / (length * length)) b)

/-- The member `reflect`: `T(2) * this->project(b) - (*this)`. -/
def reflect [Field T] (sqrt : T → T) (self b : vec2_t T) : vec2_t T :=
  (scalarMul 2 (self.project sqrt b)).sub self

/-- The prefix `operator++`: `++this->x; ++this->y; return (*this);`. -/
def preIncrement [Add T] [One T] (self : vec2_t T) : vec2_t T × vec2_t T :=
  let self1 : vec2_t T := { self with x := self.x + 1 }
  let self2 : vec2_t T := { self1 with y := self1.y + 1 }
  (self2, self2)

/-- The postfix `operator++(int)`: `return ++(*this);`. -/
def postIncrement [Add T] [One T] (self : vec2_t T) : vec2_t T × vec2_t T :=
  self.preIncrement

/-- The prefix `operator--`: `--this->x; --this->y; return (*this);`. -/
def preDecrement [Sub T] [One T] (self : vec2_t T) : vec2_t T × vec2_t T :=
  let self1 : vec2_t T := { self with x := self.x - 1 }
  let self2 : vec2_t T := { self1 with y := self1.y - 1 }
  (self2, self2)

/-- The postfix `operator--(int)`: `return --(*this);`. -/
def postDecrement [Sub T] [One T] (self : vec2_t T) : vec2_t T × vec2_t T :=
  self.preDecrement

/-- The macro `LINALG_SWIZZLE_INDEX(index, c)` of `vec2_t`: the value it assigns to `index`
(every branch assigns). The first test names `'X'` twice, as in the source. -/
def LINALG_SWIZZLE_INDEX (c : Char) : Nat :=
  if (c == 'X') || (c == 'X') || (c == 'r') || (c == 'R') || (c == 's') || (c == 'S') then 0
  else if (c == 'y') || (c == 'Y') || (c == 'g') || (c == 'G') || (c == 't') || (c == 'T') then 1
  else 0

/-- The member `vec2_t::swizzle(const char x, const char y)`. -/
def swizzle (self : vec2_t T) (x y : Char) : Option (vec2_t T) := do
  let x_index : Nat := LINALG_SWIZZLE_INDEX x
  let y_index : Nat := LINALG_SWIZZLE_INDEX y
  let a ← self.indexInt x_index
  let b ← self.indexInt y_index
  pure ⟨a, b⟩

end vec2_t

namespace vec3_t

variable {T : Type}

/-- The friend `operator*(const T &lhs, const vec3 &rhs)`: `vec3(lhs) * rhs`. -/
def scalarMul [Mul T] (lhs : T) (rhs : vec3_t T) : vec3_t T := (splat lhs).mul rhs

/-- The member `project`: the projection of `*this` onto `b`. -/
def project [Add T] [Mul T] [Div T] (sqrt : T → T) (self b : vec3_t T) : vec3_t T :=
  let length : T := b.length sqrt
  scalarMul (self.dot b / (length * length)) b

/-- The member `perpendicular`: the components of `*this` perpendicular to `b`. -/
def perpendicular [Add T] [Sub T] [Mul T] [Div T] (sqrt : T → T) (self b : vec3_t T) :
    vec3_t T :=
  let length : T := b.length sqrt
  self.sub (scalarMul (self.dot b / (length * length)) b)

/-- The member `reflect`: `T(2) * this->project(b) - (*this)`. -/
def reflect [Field T] (sqrt : T → T) (self b : vec3_t T) : vec3_t T :=
  (scalarMul 2 (self.project sqrt b)).sub self

/-- The static `orthogonalize(const vec3 &a, vec3 &b, vec3 &c)`. `a` is a reference to
`const` and is not assigned; the result is the pair of `b` and `c` after the call. -/
def orthogonalize [LinearOrderedField T] (sqrt : T → T) (a b c : vec3_t T) :
    vec3_t T × vec3_t T :=
  let b : vec3_t T := b.sub (b.project sqrt a)
  let b : vec3_t T := b.normalize sqrt 1
  let c : vec3_t T := (c.sub (c.project sqrt a)).sub (c.project sqrt b)
  let c : vec3_t T := c.normalize sqrt 1
  (b, c)

/-- The prefix `operator++`: `++this->x; ++this->y; ++this->z; return (*this);`. -/
def preIncrement [Add T] [One T] (self : vec3_t T) : vec3_t T × vec3_t T :=
  let self1 : vec3_t T := { self with x := self.x + 1 }
  let self2 : vec3_t T := { self1 with y := self1.y + 1 }
  let self3 : vec3_t T := { self2 with z := self2.z + 1 }
  (self3, self3)

/-- The postfix `operator++(int)`: `return ++(*this);`. -/
def postIncrement [Add T] [One T] (self : vec3_t T) : vec3_t T × vec3_t T :=
  self.preIncrement

/-- The prefix `operator--`: `--this->x; --this->y; --this->z; return (*this);`. -/
def preDecrement [Sub T] [One T] (self : vec3_t T) : vec3_t T × vec3_t T :=
  let self1 : vec3_t T := { self with x := self.x - 1 }
  let self2 : vec3_t T := { self1 with y := self1.y - 1 }
  let self3 : vec3_t T := { self2 with z := self2.z - 1 }
  (self3, self3)

/-- The postfix `operator--(int)`: `return --(*this);`. -/
def postDecrement [Sub T] [One T] (self : vec3_t T) : vec3_t T × vec3_t T :=
  self.preDecrement

end vec3_t

namespace vec4_t

variable {T : Type}

/-- The prefix `operator++`: increments `x`, `y`, `z`, `w` and returns `*this`. -/
def preIncrement [Add T] [One T] (self : vec4_t T) : vec4_t T × vec4_t T :=
  let self1 : vec4_t T := { self with x := self.x + 1 }
  let self2 : vec4_t T := { self1 with y := self1.y + 1 }
  let self3 : vec4_t T := { self2 with z := self2.z + 1 }
  let self4 : vec4_t T := { self3 with w := self3.w + 1 }
  (self4, self4)

/-- The postfix `operator++(int)`: `return ++(*this);`. -/
def postIncrement [Add T] [One T] (self : vec4_t T) : vec4_t T × vec4_t T :=
  self.preIncrement

/-- The prefix `operator--`: decrements `x`, `y`, `z`, `w` and returns `*this`. -/
def preDecrement [Sub T] [One T] (self : vec4_t T) : vec4_t T × vec4_t T :=
  let self1 : vec4_t T := { self with x := self.x - 1 }
  let self2 : vec4_t T := { self1 with y := self1.y - 1 }
  let self3 : vec4_t T := { self2 with z := self2.z - 1 }
  let self4 : vec4_t T := { self3 with w := self3.w - 1 }
  (self4, self4)

/-- The postfix `operator--(int)`: `return --(*this);`. -/
def postDecrement [Sub T] [One T] (self : vec4_t T) : vec4_t T × vec4_t T :=
  self.preDecrement

end vec4_t

namespace mat4_t

variable {T : Type}

/-- The member `perspective(fov, aspect, zNear, zFar)`; `T(0.5)` is written `1 / 2`.
The four quotients `sx`, `sy`, `sz`, `pz` divide by `range * aspect + range * aspect`,
`range` and `zFar - zNear`. Where one of these divisors is 0 the source computes an infinity
or a NaN, which propagates through `operator*=`; the exact scalars have no such value, and
the model returns `none` there. -/
def perspective [LinearOrderedField T] (tan : T → T) (self : mat4_t T)
    (fov aspect zNear zFar : T) : Option (mat4_t T) :=
  let fovRads : T := fov * LINALG_DEG2RAD
  let range : T := tan (fovRads * (1 / 2)) * zNear
  if range * aspect + range * aspect = 0 ∨ range = 0 ∨ zFar - zNear = 0 then
    none
  else
    let sx : T := (zNear * 2) / (range * aspect + range * aspect)
    let sy : T := zNear / range
    let sz : T := -(zFar + zNear) / (zFar - zNear)
    let pz : T := -(zFar * zNear * 2) / (zFar - zNear)
    some (self.mul
      ⟨⟨sx, 0, 0, 0⟩,
       ⟨0, sy, 0, 0⟩,
       ⟨0, 0, sz, -1⟩,
       ⟨0, 0, pz, 0⟩⟩)

end mat4_t

/-! ## The object representation behind `operator[]`

`operator[]` is `(reinterpret_cast<T*>(this))[index]`: pointer arithmetic on `T*` moves
`index * sizeof(T)` bytes from the start of the object, and the access is to the scalar that
starts there. Where the members start is fixed by two facts: the language allocates the
members `x`, `y`, `z`, `w` at increasing addresses in declaration order, without overlap,
and the source asserts `STATIC_ASSERT(sizeof(vecN_t<T>) == (sizeof(T) * N))` under
`#pragma pack(push, 1)`. A layout records `sizeof(T)` and the byte offset of every member;
`WellFormed` states the two facts. -/

/-- The size of the scalar and the byte offsets of the members of `vec2_t<T>`. -/
structure vec2_layout where
  sizeofT : Nat
  offset_x : Nat
  offset_y : Nat

/-- The size of the scalar and the byte offsets of the members of `vec3_t<T>`. -/
structure vec3_layout where
  sizeofT : Nat
  offset_x : Nat
  offset_y : Nat
  offset_z : Nat

/-- The size of the scalar and the byte offsets of the members of `vec4_t<T>`. -/
structure vec4_layout where
  sizeofT : Nat
  offset_x : Nat
  offset_y : Nat
  offset_z : Nat
  offset_w : Nat

/-- A scalar has a size; `y` starts after the end of `x`; and `y` ends inside the
`sizeof(T) * 2` bytes of the object. -/
def vec2_layout.WellFormed (L : vec2_layout) : Prop :=
  0 < L.sizeofT ∧ L.offset_x + L.sizeofT ≤ L.offset_y ∧
    L.offset_y + L.sizeofT ≤ L.sizeofT * 2

instance vec2_layout.decidableWellFormed (L : vec2_layout) : Decidable L.WellFormed := by
  unfold vec2_layout.WellFormed
  exact inferInstance

/-- A scalar has a size; each member starts after the end of the one declared before it;
and `z` ends inside the `sizeof(T) * 3` bytes of the object. -/
def vec3_layout.WellFormed (L : vec3_layout) : Prop :=
  0 < L.sizeofT ∧ L.offset_x + L.sizeofT ≤ L.offset_y ∧
    L.offset_y + L.sizeofT ≤ L.offset_z ∧ L.offset_z + L.sizeofT ≤ L.sizeofT * 3

instance vec3_layout.decidableWellFormed (L : vec3_layout) : Decidable L.WellFormed := by
  unfold vec3_layout.WellFormed
  exact inferInstance

/-- A scalar has a size; each member starts after the end of the one declared before it;
and `w` ends inside the `sizeof(T) * 4` bytes of the object. -/
def vec4_layout.WellFormed (L : vec4_layout) : Prop :=
  0 < L.sizeofT ∧ L.offset_x + L.sizeofT ≤ L.offset_y ∧
    L.offset_y + L.sizeofT ≤ L.offset_z ∧ L.offset_z + L.sizeofT ≤ L.offset_w ∧
    L.offset_w + L.sizeofT ≤ L.sizeofT * 4

instance vec4_layout.decidableWellFormed (L : vec4_layout) : Decidable L.WellFormed := by
  unfold vec4_layout.WellFormed
  exact inferInstance

namespace vec2_t

variable {T : Type}

/-- The scalar that starts `byteOffset` bytes into the object: the member with that offset;
`none` when no member starts there (the access has no defined value). -/
def readAt (L : vec2_layout) (v : vec2_t T) (byteOffset : Nat) : Option T :=
  if byteOffset = L.offset_x then some v.x
  else if byteOffset = L.offset_y then some v.y
  else none

/-- The object after storing `s` in the scalar that starts `byteOffset` bytes into it. -/
def writeAt (L : vec2_layout) (v : vec2_t T) (byteOffset : Nat) (s : T) :
    Option (vec2_t T) :=
  if byteOffset = L.offset_x then some { v with x := s }
  else if byteOffset = L.offset_y then some { v with y := s }
  else none

/-- The read `(reinterpret_cast<T*>(this))[index]` of `operator[]`. -/
def castIndex (L : vec2_layout) (v : vec2_t T) (index : Nat) : Option T :=
  v.readAt L (index * L.sizeofT)

/-- The write `v[index] = s` through the reference `(reinterpret_cast<T*>(this))[index]`. -/
def castSetIndex (L : vec2_layout) (v : vec2_t T) (index : Nat) (s : T) :
    Option (vec2_t T) :=
  v.writeAt L (index * L.sizeofT) s

end vec2_t

namespace vec3_t

variable {T : Type}

/-- The scalar that starts `byteOffset` bytes into the object: the member with that offset;
`none` when no member starts there (the access has no defined value). -/
def readAt (L : vec3_layout) (v : vec3_t T) (byteOffset : Nat) : Option T :=
  if byteOffset = L.offset_x then some v.x
  else if byteOffset = L.offset_y then some v.y
  else if byteOffset = L.offset_z then some v.z
  else none

/-- The object after storing `s` in the scalar that starts `byteOffset` bytes into it. -/
def writeAt (L : vec3_layout) (v : vec3_t T) (byteOffset : Nat) (s : T) :
    Option (vec3_t T) :=
  if byteOffset = L.offset_x then some { v with x := s }
  else if byteOffset = L.offset_y then some { v with y := s }
  else if byteOffset = L.offset_z then some { v with z := s }
  else none

/-- The read `(reinterpret_cast<T*>(this))[index]` of `operator[]`. -/
def castIndex (L : vec3_layout) (v : vec3_t T) (index : Nat) : Option T :=
  v.readAt L (index * L.sizeofT)

/-- The write `v[index] = s` through the reference `(reinterpret_cast<T*>(this))[index]`. -/
def castSetIndex (L : vec3_layout) (v : vec3_t T) (index : Nat) (s : T) :
    Option (vec3_t T) :=
  v.writeAt L (index * L.sizeofT) s

end vec3_t

namespace vec4_t

variable {T : Type}

/-- The scalar that starts `byteOffset` bytes into the object: the member with that offset;
`none` when no member starts there (the access has no defined value). -/
def readAt (L : vec4_layout) (v : vec4_t T) (byteOffset : Nat) : Option T :=
  if byteOffset = L.offset_x then some v.x
  else if byteOffset = L.offset_y then some v.y
  else if byteOffset = L.offset_z then some v.z
  else if byteOffset = L.offset_w then some v.w
  else none

/-- The object after storing `s` in the scalar that starts `byteOffset` bytes into it. -/
def writeAt (L : vec4_layout) (v : vec4_t T) (byteOffset : Nat) (s : T) :
    Option (vec4_t T) :=
  if byteOffset = L.offset_x then some { v with x := s }
  else if byteOffset = L.offset_y then some { v with y := s }
  else if byteOffset = L.offset_z then some { v with z := s }
  else if byteOffset = L.offset_w then some { v with w := s }
  else none

/-- The read `(reinterpret_cast<T*>(this))[index]` of `operator[]`. -/
def castIndex (L : vec4_layout) (v : vec4_t T) (index : Nat) : Option T :=
  v.readAt L (index * L.sizeofT)

/-- The write `v[index] = s` through the reference `(reinterpret_cast<T*>(this))[index]`. -/
def castSetIndex (L : vec4_layout) (v : vec4_t T) (index : Nat) (s : T) :
    Option (vec4_t T) :=
  v.writeAt L (index * L.sizeofT) s

end vec4_t

/-! ## Auxiliary facts -/

theorem LINALG_EPSILON_pos {T : Type} [LinearOrderedField T] : (0 : T) < LINALG_EPSILON := by
  unfold LINALG_EPSILON
  positivity

theorem LINALG_FEQUAL_zero_iff {T : Type} [LinearOrderedField T] (x : T) :
    LINALG_FEQUAL x 0 = true ↔ |x| < LINALG_EPSILON := by
  simp [LINALG_FEQUAL, abs_lt]

theorem LINALG_FEQUAL_self {T : Type} [LinearOrderedField T] (x : T) :
    LINALG_FEQUAL x x = true := by
  have h := LINALG_EPSILON_pos (T := T)
  simp [LINALG_FEQUAL, h]

theorem ne_zero_of_not_abs_lt_epsilon {T : Type} [LinearOrderedField T] {x : T}
    (h : ¬ |x| < LINALG_EPSILON) : x ≠ 0 := by
  intro h0
  apply h
  rw [h0, abs_zero]
  exact LINALG_EPSILON_pos

/-- The two loops of `mat2_t::operator*` overwrite all four entries of `result`. -/
theorem mat2_mul_eq {T : Type} [Zero T] [One T] [Add T] [Mul T] (A B : mat2_t T) :
    A.mul B =
      ⟨⟨(A.row 0).dot (B.col 0), (A.row 1).dot (B.col 0)⟩,
       ⟨(A.row 0).dot (B.col 1), (A.row 1).dot (B.col 1)⟩⟩ := rfl

/-- The two loops of `mat3_t::operator*` overwrite all nine entries of `result`. -/
theorem mat3_mul_eq {T : Type} [Zero T] [One T] [Add T] [Mul T] (A B : mat3_t T) :
    A.mul B =
      ⟨⟨(A.row 0).dot (B.col 0), (A.row 1).dot (B.col 0), (A.row 2).dot (B.col 0)⟩,
       ⟨(A.row 0).dot (B.col 1), (A.row 1).dot (B.col 1), (A.row 2).dot (B.col 1)⟩,
       ⟨(A.row 0).dot (B.col 2), (A.row 1).dot (B.col 2), (A.row 2).dot (B.col 2)⟩⟩ := rfl

/-- The two loops of `mat4_t::operator*` overwrite all sixteen entries of `result`. -/
theorem mat4_mul_eq {T : Type} [Zero T] [One T] [Add T] [Mul T] (A B : mat4_t T) :
    A.mul B =
      ⟨⟨(A.row 0).dot (B.col 0), (A.row 1).dot (B.col 0), (A.row 2).dot (B.col 0),
          (A.row 3).dot (B.col 0)⟩,
       ⟨(A.row 0).dot (B.col 1), (A.row 1).dot (B.col 1), (A.row 2).dot (B.col 1),
          (A.row 3).dot (B.col 1)⟩,
       ⟨(A.row 0).dot (B.col 2), (A.row 1).dot (B.col 2), (A.row 2).dot (B.col 2),
          (A.row 3).dot (B.col 2)⟩,
       ⟨(A.row 0).dot (B.col 3), (A.row 1).dot (B.col 3), (A.row 2).dot (B.col 3),
          (A.row 3).dot (B.col 3)⟩⟩ := rfl

/-- The scaling branch of `mat4_t::inverse`: the loop stores `inv[i] * (1 / det)` in every
flat slot. -/
theorem mat4_inverse_of_not_fequal {T : Type} [LinearOrderedField T] (M : mat4_t T)
    (h : LINALG_FEQUAL M.inverse_det 0 = false) :
    M.inverse =
      ⟨⟨M.inverse_inv 0 * (1 / M.inverse_det), M.inverse_inv 1 * (1 / M.inverse_det),
          M.inverse_inv 2 * (1 / M.inverse_det), M.inverse_inv 3 * (1 / M.inverse_det)⟩,
       ⟨M.inverse_inv 4 * (1 / M.inverse_det), M.inverse_inv 5 * (1 / M.inverse_det),
          M.inverse_inv 6 * (1 / M.inverse_det), M.inverse_inv 7 * (1 / M.inverse_det)⟩,
       ⟨M.inverse_inv 8 * (1 / M.inverse_det), M.inverse_inv 9 * (1 / M.inverse_det),
          M.inverse_inv 10 * (1 / M.inverse_det), M.inverse_inv 11 * (1 / M.inverse_det)⟩,
       ⟨M.inverse_inv 12 * (1 / M.inverse_det), M.inverse_inv 13 * (1 / M.inverse_det),
          M.inverse_inv 14 * (1 / M.inverse_det), M.inverse_inv 15 * (1 / M.inverse_det)⟩⟩ := by
  unfold mat4_t.inverse
  simp only [h]
  rfl

/-- The `det` that `inverse` computes from the first adjugate column is `determinant()`. -/
theorem mat4_inverse_det_eq_determinant {T : Type} [CommRing T] (M : mat4_t T) :
    M.inverse_det = M.determinant := by
  obtain ⟨⟨a0, a1, a2, a3⟩, ⟨b0, b1, b2, b3⟩, ⟨c0, c1, c2, c3⟩, ⟨d0, d1, d2, d3⟩⟩ := M
  simp only [mat4_t.inverse_det, mat4_t.inverse_inv, mat4_t.determinant, mat4_t.flat,
    mat4_t.index, vec4_t.index]
  ring

/-- The product of a 4x4 matrix with its `inverse()` when the internal `det` is not within
epsilon of 0. -/
theorem mat4_mul_inverse_aux {T : Type} [LinearOrderedField T] (M : mat4_t T)
    (h : ¬ |M.inverse_det| < LINALG_EPSILON) : M.mul M.inverse = mat4_t.identity := by
  have hne : M.inverse_det ≠ 0 := ne_zero_of_not_abs_lt_epsilon h
  have hf : LINALG_FEQUAL M.inverse_det 0 = false := by
    rw [← Bool.not_eq_true, LINALG_FEQUAL_zero_iff]
    exact h
  have hd : M.inverse_det * (1 / M.inverse_det) = 1 := mul_one_div_cancel hne
  rw [mat4_inverse_of_not_fequal M hf, mat4_mul_eq]
  generalize 1 / M.inverse_det = d at hd ⊢
  obtain ⟨⟨a0, a1, a2, a3⟩, ⟨b0, b1, b2, b3⟩, ⟨c0, c1, c2, c3⟩, ⟨d0, d1, d2, d3⟩⟩ := M
  simp only [mat4_t.inverse_det, mat4_t.inverse_inv, mat4_t.flat,
    mat4_t.index, vec4_t.index, mat4_t.row, mat4_t.col, vec4_t.dot, mat4_t.identity,
    mat4_t.diag, mat4_t.mk.injEq, vec4_t.mk.injEq] at hd ⊢
  refine ⟨⟨?_, ?_, ?_, ?_⟩, ⟨?_, ?_, ?_, ?_⟩, ⟨?_, ?_, ?_, ?_⟩, ⟨?_, ?_, ?_, ?_⟩⟩ <;>
    first
    | ring1
    | linear_combination hd

/-- The product of a 2x2 matrix with its `inverse()` when the determinant is not 0. -/
theorem mat2_mul_inverse_aux {T : Type} [Field T] (M : mat2_t T)
    (h : M.determinant ≠ 0) : M.mul M.inverse = mat2_t.identity := by
  have hd : M.determinant * (1 / M.determinant) = 1 := mul_one_div_cancel h
  rw [mat2_mul_eq]
  unfold mat2_t.inverse
  simp only []
  generalize 1 / M.determinant = d at hd ⊢
  obtain ⟨⟨a0, a1⟩, ⟨b0, b1⟩⟩ := M
  simp only [mat2_t.determinant, mat2_t.scalarMul, mat2_t.mulScalar, mat2_t.ofScalars,
    mat2_t.setIndex, vec2_t.mulScalar, vec2_t.mul, vec2_t.splat, List.foldl,
    mat2_t.index, vec2_t.index, mat2_t.row, mat2_t.col, vec2_t.dot, mat2_t.identity,
    mat2_t.diag, mat2_t.mk.injEq, vec2_t.mk.injEq] at hd ⊢
  refine ⟨⟨?_, ?_⟩, ⟨?_, ?_⟩⟩ <;>
    first
    | ring1
    | linear_combination hd

/-- The closed form the specification names is the mathematical determinant. -/
theorem mat3_cofactorExpansion_eq_det {T : Type} [CommRing T] (M : mat3_t T) :
    M.cofactorExpansion = Matrix.det (Matrix.of fun r c : Fin 3 => M.value r c) := by
  rw [Matrix.det_fin_three]
  simp only [mat3_t.cofactorExpansion, Matrix.of_apply]
  ring

/-! ## Inverses -/

/-- C1: for every 4x4 matrix `M` over an exact ordered field whose determinant is not within
`LINALG_EPSILON` of 0, `M * inverse(M)` is the identity matrix; in particular every entry of
the product compares equal to the identity's entry under `LINALG_FEQUAL`. -/
theorem mat4_mul_inverse_eq_identity {T : Type} [LinearOrderedField T] (M : mat4_t T)
    (h : ¬ |M.determinant| < LINALG_EPSILON) :
    M.mul M.inverse = mat4_t.identity ∧
    ∀ r c : Fin 4,
      LINALG_FEQUAL ((M.mul M.inverse).value r c)
        ((mat4_t.identity : mat4_t T).value r c) = true := by
  rw [← mat4_inverse_det_eq_determinant] at h
  have hmul := mat4_mul_inverse_aux M h
  refine ⟨hmul, ?_⟩
  intro r c
  rw [hmul]
  exact LINALG_FEQUAL_self _

/-- C1 at the matrix with columns `(1,2,0,1)`, `(0,1,3,0)`, `(2,0,1,1)`, `(1,1,0,2)` over the
rationals, whose determinant is 16. -/
theorem mat4_mul_inverse_eq_identity_witness :
    ¬ |(mat4_t.ofScalars (1 : ℚ) 2 0 1 0 1 3 0 2 0 1 1 1 1 0 2).determinant|
        < LINALG_EPSILON ∧
    (mat4_t.ofScalars (1 : ℚ) 2 0 1 0 1 3 0 2 0 1 1 1 1 0 2).mul
        (mat4_t.ofScalars (1 : ℚ) 2 0 1 0 1 3 0 2 0 1 1 1 1 0 2).inverse
      = mat4_t.identity :=
  ⟨by norm_num [mat4_t.determinant, mat4_t.ofScalars, mat4_t.index, vec4_t.index,
        LINALG_EPSILON],
   (mat4_mul_inverse_eq_identity (mat4_t.ofScalars (1 : ℚ) 2 0 1 0 1 3 0 2 0 1 1 1 1 0 2)
      (by norm_num [mat4_t.determinant, mat4_t.ofScalars, mat4_t.index, vec4_t.index,
        LINALG_EPSILON])).1⟩

/-- C4: for every 2x2 matrix `M` over an exact ordered field whose determinant is not within
`LINALG_EPSILON` of 0, `M * inverse(M)` is the identity matrix; in particular every entry of
the product compares equal to the identity's entry under `LINALG_FEQUAL`. -/
theorem mat2_mul_inverse_eq_identity {T : Type} [LinearOrderedField T] (M : mat2_t T)
    (h : ¬ |M.determinant| < LINALG_EPSILON) :
    M.mul M.inverse = mat2_t.identity ∧
    ∀ r c : Fin 2,
      LINALG_FEQUAL ((M.mul M.inverse).value r c)
        ((mat2_t.identity : mat2_t T).value r c) = true := by
  have hmul := mat2_mul_inverse_aux M (ne_zero_of_not_abs_lt_epsilon h)
  refine ⟨hmul, ?_⟩
  intro r c
  rw [hmul]
  exact LINALG_FEQUAL_self _

/-- C4 at `Matrix2(1,2,3,4)` over the rationals, whose determinant is -2. -/
theorem mat2_mul_inverse_eq_identity_witness :
    ¬ |(mat2_t.ofScalars (1 : ℚ) 2 3 4).determinant| < LINALG_EPSILON ∧
    (mat2_t.ofScalars (1 : ℚ) 2 3 4).inverse = mat2_t.ofScalars (-2) 1 (3 / 2) (-1 / 2) ∧
    (mat2_t.ofScalars (1 : ℚ) 2 3 4).mul (mat2_t.ofScalars (1 : ℚ) 2 3 4).inverse
      = mat2_t.identity :=
  ⟨by norm_num [mat2_t.determinant, mat2_t.ofScalars, mat2_t.index, vec2_t.index,
        LINALG_EPSILON],
   by norm_num [mat2_t.inverse, mat2_t.determinant, mat2_t.ofScalars, mat2_t.index,
        vec2_t.index, mat2_t.scalarMul, mat2_t.mulScalar, mat2_t.setIndex, mat2_t.diag,
        vec2_t.mulScalar, vec2_t.mul, vec2_t.splat],
   (mat2_mul_inverse_eq_identity (mat2_t.ofScalars (1 : ℚ) 2 3 4)
      (by norm_num [mat2_t.determinant, mat2_t.ofScalars, mat2_t.index, vec2_t.index,
        LINALG_EPSILON])).1⟩

/-- C3, evaluated on the code at two 3x3 matrices over the rationals whose determinant is
far from 0. For `mat3(1,0,0, 1,1,0, 0,0,1)` (`determinant()` and the cofactor expansion are
both 1) `inverse()` yields the transpose of the inverse, so the `(0,0)` entry of
`M * inverse(M)` is 0 and it does not compare equal to 1. For the symmetric
`mat3(2,0,0, 0,1,1, 0,1,3)` `determinant()` is 5 where the cofactor expansion is 4, and
`M * inverse(M)` is `4/5` times the identity. -/
theorem mat3_mul_inverse_at_failing_inputs :
    (mat3_t.ofScalars (1 : ℚ) 0 0 1 1 0 0 0 1).determinant = 1 ∧
    (mat3_t.ofScalars (1 : ℚ) 0 0 1 1 0 0 0 1).cofactorExpansion = 1 ∧
    (mat3_t.ofScalars (1 : ℚ) 0 0 1 1 0 0 0 1).inverse
      = mat3_t.ofScalars 1 (-1) 0 0 1 0 0 0 1 ∧
    (mat3_t.ofScalars (1 : ℚ) 0 0 1 1 0 0 0 1).mul
        (mat3_t.ofScalars (1 : ℚ) 0 0 1 1 0 0 0 1).inverse
      = mat3_t.ofScalars 0 (-1) 0 1 1 0 0 0 1 ∧
    LINALG_FEQUAL
      (((mat3_t.ofScalars (1 : ℚ) 0 0 1 1 0 0 0 1).mul
        (mat3_t.ofScalars (1 : ℚ) 0 0 1 1 0 0 0 1).inverse).value 0 0)
      ((mat3_t.identity : mat3_t ℚ).value 0 0) = false ∧
    (mat3_t.ofScalars (2 : ℚ) 0 0 0 1 1 0 1 3).determinant = 5 ∧
    (mat3_t.ofScalars (2 : ℚ) 0 0 0 1 1 0 1 3).cofactorExpansion = 4 ∧
    (mat3_t.ofScalars (2 : ℚ) 0 0 0 1 1 0 1 3).mul
        (mat3_t.ofScalars (2 : ℚ) 0 0 0 1 1 0 1 3).inverse
      = mat3_t.diag (4 / 5) := by
  refine ⟨?_, ?_, ?_, ?_, ?_, ?_, ?_, ?_⟩ <;>
    norm_num [mat3_mul_eq, mat3_t.inverse, mat3_t.determinant, mat3_t.cofactorExpansion,
      mat3_t.ofScalars, mat3_t.index, vec3_t.index, mat3_t.scalarMul, mat3_t.mulScalar,
      mat3_t.setIndex, mat3_t.diag, mat3_t.identity, mat3_t.value, mat3_t.row, mat3_t.col,
      vec3_t.dot, vec3_t.mulScalar, vec3_t.mul, vec3_t.splat, LINALG_FEQUAL, LINALG_EPSILON]

/-! ## Determinants -/

/-- C5, evaluated on the code at `mat3(2,0,0, 0,1,1, 0,1,3)` over the integers:
`determinant()` returns 5, while the cofactor expansion of the claim (the mathematical
determinant) is 4. -/
theorem mat3_determinant_at_failing_input :
    (mat3_t.ofScalars (2 : ℤ) 0 0 0 1 1 0 1 3).determinant = 5 ∧
    (mat3_t.ofScalars (2 : ℤ) 0 0 0 1 1 0 1 3).cofactorExpansion = 4 ∧
    Matrix.det (Matrix.of fun r c : Fin 3 =>
      (mat3_t.ofScalars (2 : ℤ) 0 0 0 1 1 0 1 3).value r c) = 4 := by
  refine ⟨by decide, by decide, ?_⟩
  rw [← mat3_cofactorExpansion_eq_det]
  decide

/-- C6: for every 4x4 matrix `M` over a commutative ring, `determinant()` is the
mathematical determinant of the square array `value(r,c)`. -/
theorem mat4_determinant_eq_det {T : Type} [CommRing T] (M : mat4_t T) :
    M.determinant = Matrix.det (Matrix.of fun r c : Fin 4 => M.value r c) := by
  obtain ⟨⟨a0, a1, a2, a3⟩, ⟨b0, b1, b2, b3⟩, ⟨c0, c1, c2, c3⟩, ⟨d0, d1, d2, d3⟩⟩ := M
  have h3 : Fin.succ (2 : Fin 3) = (3 : Fin 4) := rfl
  have h2 : Fin.castSucc (2 : Fin 3) = (2 : Fin 4) := rfl
  rw [Matrix.det_succ_row_zero]
  simp [Fin.sum_univ_succ, Matrix.det_fin_three, Fin.succAbove, mat4_t.determinant,
    mat4_t.value, mat4_t.index, vec4_t.index, h3, h2]
  ring

/-- C7: for all scalars `a b c d`, `Matrix2(a,b,c,d)` has the columns `(a,b)` and `(c,d)`
and its `determinant()` is `a*d - c*b`; `Matrix2(1,2,3,4).determinant()` is `-2`. -/
theorem mat2_ofScalars_determinant {T : Type} [Ring T] :
    (∀ a b c d : T,
      (mat2_t.ofScalars a b c d).index 0 = ⟨a, b⟩ ∧
      (mat2_t.ofScalars a b c d).index 1 = ⟨c, d⟩ ∧
      (mat2_t.ofScalars a b c d).determinant = a * d - c * b) ∧
    (mat2_t.ofScalars (1 : T) 2 3 4).determinant = -2 ∧
    (mat2_t.ofScalars (1 : ℤ) 2 3 4).determinant = -2 := by
  refine ⟨fun a b c d => ⟨rfl, rfl, rfl⟩, ?_, by decide⟩
  simp only [mat2_t.determinant, mat2_t.ofScalars, mat2_t.index, vec2_t.index]
  norm_num

/-! ## Products and transposes -/

/-- C8: for `N` in 2, 3, 4 and all `N`x`N` matrices `A` and `B`, every entry of the product is
`(A*B).value(i,j) = dot(A.row(i), B.col(j))`, which is the sum over `k` of
`A.value(i,k) * B.value(k,j)`; no entry keeps the value of the identity matrix `result` was
initialised with. -/
theorem mat_mul_value_eq_row_dot_col {T : Type} [Semiring T] :
    (∀ (A B : mat2_t T) (i j : Fin 2),
      (A.mul B).value i j = (A.row i).dot (B.col j) ∧
      (A.row i).dot (B.col j) = ∑ k : Fin 2, A.value i k * B.value k j) ∧
    (∀ (A B : mat3_t T) (i j : Fin 3),
      (A.mul B).value i j = (A.row i).dot (B.col j) ∧
      (A.row i).dot (B.col j) = ∑ k : Fin 3, A.value i k * B.value k j) ∧
    (∀ (A B : mat4_t T) (i j : Fin 4),
      (A.mul B).value i j = (A.row i).dot (B.col j) ∧
      (A.row i).dot (B.col j) = ∑ k : Fin 4, A.value i k * B.value k j) := by
  refine ⟨?_, ?_, ?_⟩
  · intro A B i j
    rw [mat2_mul_eq]
    fin_cases i <;> fin_cases j <;>
      simp [Fin.sum_univ_two, mat2_t.value, mat2_t.index, vec2_t.index, mat2_t.row,
        mat2_t.col, vec2_t.dot]
  · intro A B i j
    rw [mat3_mul_eq]
    fin_cases i <;> fin_cases j <;>
      simp [Fin.sum_univ_three, mat3_t.value, mat3_t.index, vec3_t.index, mat3_t.row,
        mat3_t.col, vec3_t.dot]
  · intro A B i j
    rw [mat4_mul_eq]
    fin_cases i <;> fin_cases j <;>
      simp [Fin.sum_univ_four, mat4_t.value, mat4_t.index, vec4_t.index, mat4_t.row,
        mat4_t.col, vec4_t.dot]

/-- C9: for `N` in 2, 3, 4, every `N`x`N` matrix `M` and vector `v` over a commutative ring:
`(M*v)[r]` is the sum over `c` of `M.value(r,c) * v[c]`, `(v*M)[c]` is the sum over `r` of
`v[r] * M.value(r,c)`, and `v*M = transpose(M)*v`; hence `M*v = v*M` whenever `M` is
symmetric, while (the ring having `0 ≠ 1`) some non-symmetric `M` and some `v` have
`M*v ≠ v*M`. -/
theorem mat_mulVec_vecMul {T : Type} [CommRing T] [Nontrivial T] :
    ((∀ (M : mat2_t T) (v : vec2_t T),
        (∀ r : Fin 2, (M.mulVec v).index r = ∑ c : Fin 2, M.value r c * v.index c) ∧
        (∀ c : Fin 2, (mat2_t.vecMul v M).index c = ∑ r : Fin 2, v.index r * M.value r c) ∧
        mat2_t.vecMul v M = M.transpose.mulVec v ∧
        ((∀ r c : Fin 2, M.value r c = M.value c r) → M.mulVec v = mat2_t.vecMul v M)) ∧
      ∃ (M : mat2_t T) (v : vec2_t T),
        (∃ r c : Fin 2, M.value r c ≠ M.value c r) ∧ M.mulVec v ≠ mat2_t.vecMul v M) ∧
    ((∀ (M : mat3_t T) (v : vec3_t T),
        (∀ r : Fin 3, (M.mulVec v).index r = ∑ c : Fin 3, M.value r c * v.index c) ∧
        (∀ c : Fin 3, (mat3_t.vecMul v M).index c = ∑ r : Fin 3, v.index r * M.value r c) ∧
        mat3_t.vecMul v M = M.transpose.mulVec v ∧
        ((∀ r c : Fin 3, M.value r c = M.value c r) → M.mulVec v = mat3_t.vecMul v M)) ∧
      ∃ (M : mat3_t T) (v : vec3_t T),
        (∃ r c : Fin 3, M.value r c ≠ M.value c r) ∧ M.mulVec v ≠ mat3_t.vecMul v M) ∧
    ((∀ (M : mat4_t T) (v : vec4_t T),
        (∀ r : Fin 4, (M.mulVec v).index r = ∑ c : Fin 4, M.value r c * v.index c) ∧
        (∀ c : Fin 4, (mat4_t.vecMul v M).index c = ∑ r : Fin 4, v.index r * M.value r c) ∧
        mat4_t.vecMul v M = M.transpose.mulVec v ∧
        ((∀ r c : Fin 4, M.value r c = M.value c r) → M.mulVec v = mat4_t.vecMul v M)) ∧
      ∃ (M : mat4_t T) (v : vec4_t T),
        (∃ r c : Fin 4, M.value r c ≠ M.value c r) ∧ M.mulVec v ≠ mat4_t.vecMul v M) := by
  refine ⟨⟨?_, ?_⟩, ⟨?_, ?_⟩, ⟨?_, ?_⟩⟩
  · intro M v
    refine ⟨?_, ?_, rfl, ?_⟩
    · intro r
      fin_cases r <;>
        simp [Fin.sum_univ_two, mat2_t.mulVec, mat2_t.value, mat2_t.index, vec2_t.index,
          mul_comm]
    · intro c
      fin_cases c <;>
        simp [Fin.sum_univ_two, mat2_t.vecMul, mat2_t.value, mat2_t.index, vec2_t.index,
          vec2_t.dot]
    · intro hs
      have h01 := hs 0 1
      simp only [mat2_t.value, mat2_t.index, vec2_t.index] at h01
      simp only [mat2_t.mulVec, mat2_t.vecMul, mat2_t.index, vec2_t.dot, vec2_t.mk.injEq]
      refine ⟨?_, ?_⟩
      · rw [h01]
      · rw [h01]
  · refine ⟨mat2_t.ofScalars 0 0 1 0, ⟨0, 1⟩, ⟨0, 1, ?_⟩, ?_⟩
    · simp [mat2_t.ofScalars, mat2_t.value, mat2_t.index, vec2_t.index]
    · simp [mat2_t.ofScalars, mat2_t.mulVec, mat2_t.vecMul, mat2_t.index, vec2_t.dot]
  · intro M v
    refine ⟨?_, ?_, rfl, ?_⟩
    · intro r
      fin_cases r <;>
        simp [Fin.sum_univ_three, mat3_t.mulVec, mat3_t.value, mat3_t.index, vec3_t.index,
          mul_comm]
    · intro c
      fin_cases c <;>
        simp [Fin.sum_univ_three, mat3_t.vecMul, mat3_t.value, mat3_t.index, vec3_t.index,
          vec3_t.dot]
    · intro hs
      have h01 := hs 0 1
      have h02 := hs 0 2
      have h12 := hs 1 2
      simp only [mat3_t.value, mat3_t.index, vec3_t.index] at h01 h02 h12
      simp only [mat3_t.mulVec, mat3_t.vecMul, mat3_t.index, vec3_t.dot, vec3_t.mk.injEq]
      refine ⟨?_, ?_, ?_⟩
      · rw [h01, h02]
      · rw [h01, h12]
      · rw [h02, h12]
  · refine ⟨mat3_t.ofScalars 0 0 0 1 0 0 0 0 0, ⟨0, 1, 0⟩, ⟨0, 1, ?_⟩, ?_⟩
    · simp [mat3_t.ofScalars, mat3_t.value, mat3_t.index, vec3_t.index]
    · simp [mat3_t.ofScalars, mat3_t.mulVec, mat3_t.vecMul, mat3_t.index, vec3_t.dot]
  · intro M v
    refine ⟨?_, ?_, rfl, ?_⟩
    · intro r
      fin_cases r <;>
        simp [Fin.sum_univ_four, mat4_t.mulVec, mat4_t.value, mat4_t.index, vec4_t.index,
          mul_comm]
    · intro c
      fin_cases c <;>
        simp [Fin.sum_univ_four, mat4_t.vecMul, mat4_t.value, mat4_t.index, vec4_t.index,
          vec4_t.dot]
    · intro hs
      have h01 := hs 0 1
      have h02 := hs 0 2
      have h03 := hs 0 3
      have h12 := hs 1 2
      have h13 := hs 1 3
      have h23 := hs 2 3
      simp only [mat4_t.value, mat4_t.index, vec4_t.index] at h01 h02 h03 h12 h13 h23
      simp only [mat4_t.mulVec, mat4_t.vecMul, mat4_t.index, vec4_t.dot, vec4_t.mk.injEq]
      refine ⟨?_, ?_, ?_, ?_⟩
      · rw [h01, h02, h03]
      · rw [h01, h12, h13]
      · rw [h02, h12, h23]
      · rw [h03, h13, h23]
  · refine ⟨mat4_t.ofScalars 0 0 0 0 1 0 0 0 0 0 0 0 0 0 0 0, ⟨0, 1, 0, 0⟩, ⟨0, 1, ?_⟩, ?_⟩
    · simp [mat4_t.ofScalars, mat4_t.value, mat4_t.index, vec4_t.index]
    · simp [mat4_t.ofScalars, mat4_t.mulVec, mat4_t.vecMul, mat4_t.index, vec4_t.dot]

/-- C9 at the symmetric `Matrix2(1,2,2,5)` and `v = (3,4)` over the integers: the symmetry
hypothesis holds and `M*v = v*M`. -/
theorem mat_mulVec_vecMul_witness :
    (∀ r c : Fin 2,
      (mat2_t.ofScalars (1 : ℤ) 2 2 5).value r c = (mat2_t.ofScalars (1 : ℤ) 2 2 5).value c r) ∧
    (mat2_t.ofScalars (1 : ℤ) 2 2 5).mulVec ⟨3, 4⟩
      = mat2_t.vecMul ⟨3, 4⟩ (mat2_t.ofScalars (1 : ℤ) 2 2 5) :=
  ⟨by decide,
   ((mat_mulVec_vecMul (T := ℤ)).1.1 (mat2_t.ofScalars (1 : ℤ) 2 2 5) ⟨3, 4⟩).2.2.2
      (by decide)⟩

/-- C10: for `N` in 2, 3, 4 and every `N`x`N` matrix `M`, `transpose(transpose(M))` is `M`
and `transpose(M).value(r,c) = M.value(c,r)`. -/
theorem mat_transpose_transpose {T : Type} :
    (∀ M : mat2_t T, M.transpose.transpose = M ∧
      ∀ r c : Fin 2, M.transpose.value r c = M.value c r) ∧
    (∀ M : mat3_t T, M.transpose.transpose = M ∧
      ∀ r c : Fin 3, M.transpose.value r c = M.value c r) ∧
    (∀ M : mat4_t T, M.transpose.transpose = M ∧
      ∀ r c : Fin 4, M.transpose.value r c = M.value c r) := by
  refine ⟨?_, ?_, ?_⟩
  · intro M
    refine ⟨rfl, ?_⟩
    intro r c
    fin_cases r <;> fin_cases c <;> rfl
  · intro M
    refine ⟨rfl, ?_⟩
    intro r c
    fin_cases r <;> fin_cases c <;> rfl
  · intro M
    refine ⟨rfl, ?_⟩
    intro r c
    fin_cases r <;> fin_cases c <;> rfl

/-! ## Transformation builders -/

/-- Multiplying by the identity on the left changes nothing. -/
theorem mat4_mul_identity_left {T : Type} [Semiring T] (M : mat4_t T) :
    (mat4_t.identity : mat4_t T).mul M = M := by
  obtain ⟨⟨a0, a1, a2, a3⟩, ⟨b0, b1, b2, b3⟩, ⟨c0, c1, c2, c3⟩, ⟨d0, d1, d2, d3⟩⟩ := M
  rw [mat4_mul_eq]
  simp [mat4_t.identity, mat4_t.diag, mat4_t.row, mat4_t.col, mat4_t.index, vec4_t.index,
    vec4_t.dot]

/-- C11: the builders post-multiply and compose left to right. With `T(a)` the matrix
`translate(a)` builds from the identity and `S(s)` the matrix `scale(s)` builds from the
identity: `M.translate(a) = M * T(a)`, `M.scale(s) = M * S(s)`,
`M.translate(a).scale(s) = (M * T(a)) * S(s)`; `T(a)` sends `(p,1)` to `(p + a, 1)` and
`S(s)` sends it to `(s∘p, 1)`; and `(M.translate(a).scale(s)) * (p,1) = M * (a + s∘p, 1)`:
the builder invoked last acts on the point first. -/
theorem mat4_translate_scale_compose {T : Type} [CommRing T] (M : mat4_t T)
    (a s p : vec3_t T) :
    M.translate a = M.mul ((mat4_t.identity : mat4_t T).translate a) ∧
    M.scale s = M.mul ((mat4_t.identity : mat4_t T).scale s) ∧
    (M.translate a).scale s
      = (M.mul ((mat4_t.identity : mat4_t T).translate a)).mul
          ((mat4_t.identity : mat4_t T).scale s) ∧
    ((mat4_t.identity : mat4_t T).translate a).mulVec ⟨p.x, p.y, p.z, 1⟩
      = ⟨p.x + a.x, p.y + a.y, p.z + a.z, 1⟩ ∧
    ((mat4_t.identity : mat4_t T).scale s).mulVec ⟨p.x, p.y, p.z, 1⟩
      = ⟨s.x * p.x, s.y * p.y, s.z * p.z, 1⟩ ∧
    ((M.translate a).scale s).mulVec ⟨p.x, p.y, p.z, 1⟩
      = M.mulVec ⟨a.x + s.x * p.x, a.y + s.y * p.y, a.z + s.z * p.z, 1⟩ := by
  have hT : M.translate a = M.mul ((mat4_t.identity : mat4_t T).translate a) := by
    simp only [mat4_t.translate, mat4_mul_identity_left]
  have hS : ∀ N : mat4_t T, N.scale s = N.mul ((mat4_t.identity : mat4_t T).scale s) := by
    intro N
    simp only [mat4_t.scale, mat4_mul_identity_left]
  refine ⟨hT, hS M, ?_, ?_, ?_, ?_⟩
  · rw [hS, hT]
  · simp [mat4_t.translate, mat4_mul_identity_left, mat4_t.mulVec, mat4_t.index]
  · simp [mat4_t.scale, mat4_mul_identity_left, mat4_t.mulVec, mat4_t.index, mul_comm]
  · obtain ⟨⟨a0, a1, a2, a3⟩, ⟨b0, b1, b2, b3⟩, ⟨c0, c1, c2, c3⟩, ⟨d0, d1, d2, d3⟩⟩ := M
    simp only [mat4_t.translate, mat4_t.scale, mat4_mul_eq, mat4_t.mulVec, mat4_t.row,
      mat4_t.col, mat4_t.index, vec4_t.index, vec4_t.dot, vec4_t.mk.injEq]
    refine ⟨?_, ?_, ?_, ?_⟩ <;> ring

/-- C12: for every 3-vector `v`, `Matrix4.identity().translate(v).getTranslation()` is `v`,
in particular for `v = (5,0,0)`; and for every 4x4 matrix `M`,
`M.translate(v).getTranslation()` is the first three components of
`M * (v.x, v.y, v.z, 1)`. -/
theorem mat4_translate_getTranslation {T : Type} [CommRing T] :
    (∀ v : vec3_t T, ((mat4_t.identity : mat4_t T).translate v).getTranslation = v) ∧
    ((mat4_t.identity : mat4_t T).translate ⟨5, 0, 0⟩).getTranslation = ⟨5, 0, 0⟩ ∧
    (∀ (M : mat4_t T) (v : vec3_t T),
      (M.translate v).getTranslation
        = ⟨(M.mulVec ⟨v.x, v.y, v.z, 1⟩).x, (M.mulVec ⟨v.x, v.y, v.z, 1⟩).y,
           (M.mulVec ⟨v.x, v.y, v.z, 1⟩).z⟩) := by
  have h : ∀ v : vec3_t T, ((mat4_t.identity : mat4_t T).translate v).getTranslation = v := by
    intro v
    simp [mat4_t.translate, mat4_mul_identity_left, mat4_t.getTranslation, mat4_t.index]
  refine ⟨h, h _, ?_⟩
  intro M v
  obtain ⟨⟨a0, a1, a2, a3⟩, ⟨b0, b1, b2, b3⟩, ⟨c0, c1, c2, c3⟩, ⟨d0, d1, d2, d3⟩⟩ := M
  simp only [mat4_t.translate, mat4_mul_eq, mat4_t.getTranslation, mat4_t.mulVec, mat4_t.row,
    mat4_t.col, mat4_t.index, vec4_t.index, vec4_t.dot, vec3_t.mk.injEq]
  refine ⟨?_, ?_, ?_⟩ <;> ring

/-- C15: for every 4x4 matrix `M` and angle `θ`, `M.rotateX(θ) = M.rotate(θ, (1,0,0))`,
`M.rotateY(θ) = M.rotate(θ, (0,1,0))` and `M.rotateZ(θ) = M.rotate(θ, (0,0,1))`. -/
theorem mat4_rotateXYZ_eq_rotate {T : Type} [LinearOrderedField T] (sqrt sin cos : T → T)
    (M : mat4_t T) (radians : T) :
    M.rotateX sin cos radians = M.rotate sqrt sin cos radians ⟨1, 0, 0⟩ ∧
    M.rotateY sin cos radians = M.rotate sqrt sin cos radians ⟨0, 1, 0⟩ ∧
    M.rotateZ sin cos radians = M.rotate sqrt sin cos radians ⟨0, 0, 1⟩ := by
  refine ⟨?_, ?_, ?_⟩ <;>
    simp [mat4_t.rotateX, mat4_t.rotateY, mat4_t.rotateZ, mat4_t.rotate, mat4_t.ofScalars]

/-- C17: for all `l r b t zNear zFar` with `r ≠ l`, `t ≠ b` and `zFar ≠ zNear`, the matrix
`O = Matrix4.identity().orthographic(l,r,b,t,zNear,zFar)` sends `(l, b, -zNear, 1)` to
`(-1,-1,-1,1)` and `(r, t, -zFar, 1)` to `(1,1,1,1)`; `frustum` yields the same matrix as
`orthographic` on every receiver. -/
theorem mat4_orthographic_maps_box {T : Type} [Field T] (l r b t zNear zFar : T)
    (hrl : r ≠ l) (htb : t ≠ b) (hz : zFar ≠ zNear) :
    ((mat4_t.identity : mat4_t T).orthographic l r b t zNear zFar).mulVec ⟨l, b, -zNear, 1⟩
      = ⟨-1, -1, -1, 1⟩ ∧
    ((mat4_t.identity : mat4_t T).orthographic l r b t zNear zFar).mulVec ⟨r, t, -zFar, 1⟩
      = ⟨1, 1, 1, 1⟩ ∧
    ∀ M : mat4_t T, M.frustum l r b t zNear zFar = M.orthographic l r b t zNear zFar := by
  have h1 : r - l ≠ 0 := sub_ne_zero.mpr hrl
  have h2 : t - b ≠ 0 := sub_ne_zero.mpr htb
  have h3 : zFar - zNear ≠ 0 := sub_ne_zero.mpr hz
  refine ⟨?_, ?_, fun M => rfl⟩
  · simp only [mat4_t.orthographic, mat4_mul_identity_left, mat4_t.mulVec, mat4_t.index,
      vec4_t.mk.injEq]
    refine ⟨?_, ?_, ?_, ?_⟩ <;> field_simp <;> ring
  · simp only [mat4_t.orthographic, mat4_mul_identity_left, mat4_t.mulVec, mat4_t.index,
      vec4_t.mk.injEq]
    refine ⟨?_, ?_, ?_, ?_⟩ <;> field_simp <;> ring

/-- C17 at the box `[0,800] x [0,600] x [1,10]` over the rationals. -/
theorem mat4_orthographic_maps_box_witness :
    ((800 : ℚ) ≠ 0 ∧ (600 : ℚ) ≠ 0 ∧ (10 : ℚ) ≠ 1) ∧
    ((mat4_t.identity : mat4_t ℚ).orthographic 0 800 0 600 1 10).mulVec ⟨0, 0, -1, 1⟩
      = ⟨-1, -1, -1, 1⟩ ∧
    ((mat4_t.identity : mat4_t ℚ).orthographic 0 800 0 600 1 10).mulVec ⟨800, 600, -10, 1⟩
      = ⟨1, 1, 1, 1⟩ :=
  ⟨⟨by norm_num, by norm_num, by norm_num⟩,
   (mat4_orthographic_maps_box (0 : ℚ) 800 0 600 1 10
      (by norm_num) (by norm_num) (by norm_num)).1,
   (mat4_orthographic_maps_box (0 : ℚ) 800 0 600 1 10
      (by norm_num) (by norm_num) (by norm_num)).2.1⟩

/-- C18: over a field in which `2 ≠ 0`, for all `x y w h` the matrix
`V = Matrix4.identity().viewport(x,y,w,h)` sends `(-1,-1,-1,1)` to `(x, y, 0, 1)` and
`(1,1,1,1)` to `(x+w, y+h, 1, 1)`. -/
theorem mat4_viewport_maps_ndc {T : Type} [Field T] (h2 : (2 : T) ≠ 0) (x y w h : T) :
    ((mat4_t.identity : mat4_t T).viewport x y w h).mulVec ⟨-1, -1, -1, 1⟩ = ⟨x, y, 0, 1⟩ ∧
    ((mat4_t.identity : mat4_t T).viewport x y w h).mulVec ⟨1, 1, 1, 1⟩
      = ⟨x + w, y + h, 1, 1⟩ := by
  refine ⟨?_, ?_⟩
  · simp only [mat4_t.viewport, mat4_mul_identity_left, mat4_t.mulVec, mat4_t.index,
      mat4_t.ofScalars, vec4_t.mk.injEq]
    refine ⟨?_, ?_, ?_, ?_⟩ <;> field_simp <;> ring
  · simp only [mat4_t.viewport, mat4_mul_identity_left, mat4_t.mulVec, mat4_t.index,
      mat4_t.ofScalars, vec4_t.mk.injEq]
    refine ⟨?_, ?_, ?_, ?_⟩ <;> field_simp <;> ring

/-- C18 at the viewport `x = 10`, `y = 20`, `800 x 600` over the rationals. -/
theorem mat4_viewport_maps_ndc_witness :
    (2 : ℚ) ≠ 0 ∧
    ((mat4_t.identity : mat4_t ℚ).viewport 10 20 800 600).mulVec ⟨-1, -1, -1, 1⟩
      = ⟨10, 20, 0, 1⟩ ∧
    ((mat4_t.identity : mat4_t ℚ).viewport 10 20 800 600).mulVec ⟨1, 1, 1, 1⟩
      = ⟨10 + 800, 20 + 600, 1, 1⟩ :=
  ⟨by norm_num, mat4_viewport_maps_ndc (by norm_num) (10 : ℚ) 20 800 600⟩

/-! ## Rotations -/

/-- What `rotate` builds from the identity, applied to a direction `(v,0)`: for every axis
`k`, unit or not, it is Rodrigues' formula with the sign of the sine reversed, that is the
rotation by `-θ`. -/
theorem mat4_rotate_mulVec {T : Type} [LinearOrderedField T] (sqrt sin cos : T → T)
    (radians : T) (k v : vec3_t T) :
    ((mat4_t.identity : mat4_t T).rotate sqrt sin cos radians k).mulVec ⟨v.x, v.y, v.z, 0⟩
      = ⟨(rodriguesRotation (-sin radians) (cos radians) k v).x,
         (rodriguesRotation (-sin radians) (cos radians) k v).y,
         (rodriguesRotation (-sin radians) (cos radians) k v).z, 0⟩ := by
  simp only [mat4_t.rotate, mat4_mul_identity_left, mat4_t.mulVec, mat4_t.index,
    mat4_t.ofScalars, rodriguesRotation, vec3_t.cross, vec3_t.dot, vec4_t.mk.injEq]
  refine ⟨?_, ?_, ?_, ?_⟩ <;> ring

/-- The real square root of a square. -/
theorem real_sqrt_of_mul_self {a b : ℝ} (hb : 0 ≤ b) (h : b * b = a) : Real.sqrt a = b := by
  rw [← h]
  exact Real.sqrt_mul_self hb

/-- C13, evaluated on the code over the reals at `θ = π/2`, the unit axis `k = (0,0,1)` and
`v = (1,0,0)`: `Matrix4.identity().rotate(θ, k) * (v,0)` is `(0,-1,0,0)`, while Rodrigues'
formula of the claim gives `(0,1,0)`. -/
theorem mat4_rotate_at_failing_input :
    (⟨0, 0, 1⟩ : vec3_t ℝ).isUnitVector = true ∧
    ((mat4_t.identity : mat4_t ℝ).rotate Real.sqrt Real.sin Real.cos (Real.pi / 2)
        ⟨0, 0, 1⟩).mulVec ⟨1, 0, 0, 0⟩ = ⟨0, -1, 0, 0⟩ ∧
    rodriguesRotation (Real.sin (Real.pi / 2)) (Real.cos (Real.pi / 2))
        (⟨0, 0, 1⟩ : vec3_t ℝ) ⟨1, 0, 0⟩ = ⟨0, 1, 0⟩ := by
  refine ⟨?_, ?_, ?_⟩
  · norm_num [vec3_t.isUnitVector, vec3_t.lengthSquared, LINALG_FEQUAL, LINALG_EPSILON]
  · simp [mat4_t.rotate, mat4_mul_identity_left, mat4_t.mulVec, mat4_t.index,
      mat4_t.ofScalars]
  · simp [rodriguesRotation, vec3_t.cross, vec3_t.dot]

/-- C14, evaluated on the code over the reals at `θ = π/2` and the axis `(0,0,2)`, whose
length 2 is neither within epsilon of 0 nor unit and whose `normalize()` is `(0,0,1)`:
`Matrix4.identity().rotate(θ, (0,0,2))` has the columns `(0,-2,0,0)`, `(2,0,0,0)`,
`(0,0,4,0)`, `(0,0,0,1)`, while `Matrix4.identity().rotate(θ, (0,0,1))` has the columns
`(0,-1,0,0)`, `(1,0,0,0)`, `(0,0,1,0)`, `(0,0,0,1)`. -/
theorem mat4_rotate_axis_at_failing_input :
    (⟨0, 0, 2⟩ : vec3_t ℝ).isUnitVector = false ∧
    LINALG_FEQUAL ((⟨0, 0, 2⟩ : vec3_t ℝ).length Real.sqrt) 0 = false ∧
    (⟨0, 0, 2⟩ : vec3_t ℝ).normalize Real.sqrt 1 = ⟨0, 0, 1⟩ ∧
    (mat4_t.identity : mat4_t ℝ).rotate Real.sqrt Real.sin Real.cos (Real.pi / 2) ⟨0, 0, 2⟩
      = mat4_t.ofScalars 0 (-2) 0 0 2 0 0 0 0 0 4 0 0 0 0 1 ∧
    (mat4_t.identity : mat4_t ℝ).rotate Real.sqrt Real.sin Real.cos (Real.pi / 2) ⟨0, 0, 1⟩
      = mat4_t.ofScalars 0 (-1) 0 0 1 0 0 0 0 0 1 0 0 0 0 1 := by
  have hlen : (⟨0, 0, 2⟩ : vec3_t ℝ).length Real.sqrt = 2 :=
    real_sqrt_of_mul_self (by norm_num) (by norm_num [vec3_t.lengthSquared])
  refine ⟨?_, ?_, ?_, ?_, ?_⟩
  · norm_num [vec3_t.isUnitVector, vec3_t.lengthSquared, LINALG_FEQUAL, LINALG_EPSILON]
  · rw [hlen]
    norm_num [LINALG_FEQUAL, LINALG_EPSILON]
  · unfold vec3_t.normalize
    simp only [hlen]
    norm_num [LINALG_FEQUAL, LINALG_EPSILON, vec3_t.mulScalar, vec3_t.mul, vec3_t.splat]
  · simp [mat4_t.rotate, mat4_mul_identity_left, mat4_t.ofScalars]
    norm_num
  · simp [mat4_t.rotate, mat4_mul_identity_left, mat4_t.ofScalars]

/-! ## Square roots and lengths -/

/-- The real square root meets `IsSqrt`. -/
theorem isSqrt_real : IsSqrt Real.sqrt :=
  fun x hx => ⟨Real.sqrt_nonneg x, Real.mul_self_sqrt hx⟩

theorem sqrt_eq_of_mul_self_eq {T : Type} [LinearOrderedField T] {sqrt : T → T}
    (hsqrt : IsSqrt sqrt) {a b : T} (hb : 0 ≤ b) (h : b * b = a) : sqrt a = b := by
  have ha : 0 ≤ a := by rw [← h]; exact mul_self_nonneg b
  obtain ⟨h1, h2⟩ := hsqrt a ha
  exact (mul_self_inj h1 hb).1 (h2.trans h.symm)

theorem sqrt_mul_of_isSqrt {T : Type} [LinearOrderedField T] {sqrt : T → T}
    (hsqrt : IsSqrt sqrt) {a b : T} (ha : 0 ≤ a) (hb : 0 ≤ b) :
    sqrt (a * b) = sqrt a * sqrt b := by
  obtain ⟨ha1, ha2⟩ := hsqrt a ha
  obtain ⟨hb1, hb2⟩ := hsqrt b hb
  apply sqrt_eq_of_mul_self_eq hsqrt (mul_nonneg ha1 hb1)
  calc sqrt a * sqrt b * (sqrt a * sqrt b)
      = (sqrt a * sqrt a) * (sqrt b * sqrt b) := by ring
    _ = a * b := by rw [ha2, hb2]

theorem LINALG_FEQUAL_false_zero_ne {T : Type} [LinearOrderedField T] {x : T}
    (h : LINALG_FEQUAL x 0 = false) : x ≠ 0 := by
  intro h0
  rw [h0, LINALG_FEQUAL_self] at h
  exact Bool.noConfusion h

theorem LINALG_FEQUAL_zero_of_sq_le {T : Type} [LinearOrderedField T] {x L : T}
    (hL : LINALG_FEQUAL L 0 = true) (hL0 : 0 ≤ L) (h : x * x ≤ L * L) :
    LINALG_FEQUAL x 0 = true := by
  rw [LINALG_FEQUAL_zero_iff] at hL ⊢
  have hx : |x| ≤ L := abs_le_of_sq_le_sq (by simpa [sq] using h) hL0
  have hLe : L < LINALG_EPSILON := lt_of_le_of_lt (le_abs_self L) hL
  exact lt_of_le_of_lt hx hLe

/-- The length after rescaling by `to_ / L`, where `L` is the non-zero length before. -/
theorem sqrt_rescaled {T : Type} [LinearOrderedField T] {sqrt : T → T} (hsqrt : IsSqrt sqrt)
    {lsq to_ : T} (hl : 0 ≤ lsq) (hL : sqrt lsq ≠ 0) (hto : 0 ≤ to_) :
    sqrt ((to_ / sqrt lsq) * (to_ / sqrt lsq) * lsq) = to_ := by
  apply sqrt_eq_of_mul_self_eq hsqrt hto
  have h2 := (hsqrt lsq hl).2
  generalize sqrt lsq = S at hL h2
  rw [← h2]
  field_simp

theorem vec2_lengthSquared_nonneg {T : Type} [LinearOrderedField T] (v : vec2_t T) :
    0 ≤ v.lengthSquared :=
  add_nonneg (mul_self_nonneg _) (mul_self_nonneg _)

theorem vec2_lengthSquared_mulScalar {T : Type} [CommRing T] (v : vec2_t T) (k : T) :
    (v.mulScalar k).lengthSquared = k * k * v.lengthSquared := by
  simp only [vec2_t.mulScalar, vec2_t.mul, vec2_t.splat, vec2_t.lengthSquared]
  ring

/-- The length of `normalize(to_)` for a `vec2` whose length is not within epsilon of 0. -/
theorem vec2_normalize_length {T : Type} [LinearOrderedField T] {sqrt : T → T}
    (hsqrt : IsSqrt sqrt) (v : vec2_t T) (to_ : T) (hto : 0 ≤ to_)
    (h0 : LINALG_FEQUAL (v.length sqrt) 0 = false) :
    LINALG_FEQUAL ((v.normalize sqrt to_).length sqrt) to_ = true ∧
    (LINALG_FEQUAL (v.length sqrt) to_ = false → (v.normalize sqrt to_).length sqrt = to_) := by
  have hL : sqrt v.lengthSquared ≠ 0 := LINALG_FEQUAL_false_zero_ne h0
  have hres : (v.mulScalar (to_ / v.length sqrt)).length sqrt = to_ := by
    simp only [vec2_t.length, vec2_lengthSquared_mulScalar]
    exact sqrt_rescaled hsqrt (vec2_lengthSquared_nonneg v) hL hto
  cases h1 : LINALG_FEQUAL (v.length sqrt) to_
  · have hn : v.normalize sqrt to_ = v.mulScalar (to_ / v.length sqrt) := by
      simp [vec2_t.normalize, h0, h1]
    rw [hn, hres]
    exact ⟨LINALG_FEQUAL_self _, fun _ => rfl⟩
  · have hn : v.normalize sqrt to_ = v := by
      simp [vec2_t.normalize, h1]
    rw [hn]
    exact ⟨h1, fun h => Bool.noConfusion h⟩

/-- A `vec2` whose length is within epsilon of 0 has every component within epsilon of 0
and is returned unchanged by `normalize`. -/
theorem vec2_normalize_of_length_near_zero {T : Type} [LinearOrderedField T] {sqrt : T → T}
    (hsqrt : IsSqrt sqrt) (v : vec2_t T) (to_ : T)
    (h0 : LINALG_FEQUAL (v.length sqrt) 0 = true) :
    v.isNullVector = true ∧ v.normalize sqrt to_ = v := by
  obtain ⟨hn, hs⟩ := hsqrt v.lengthSquared (vec2_lengthSquared_nonneg v)
  have hc : ∀ c : T, c * c ≤ v.lengthSquared → LINALG_FEQUAL c 0 = true := by
    intro c hle
    refine LINALG_FEQUAL_zero_of_sq_le h0 hn ?_
    unfold vec2_t.length
    rw [hs]
    exact hle
  refine ⟨?_, ?_⟩
  · have hx : LINALG_FEQUAL v.x 0 = true :=
      hc v.x (by simp only [vec2_t.lengthSquared]; nlinarith [mul_self_nonneg v.x, mul_self_nonneg v.y])
    have hy : LINALG_FEQUAL v.y 0 = true :=
      hc v.y (by simp only [vec2_t.lengthSquared]; nlinarith [mul_self_nonneg v.x, mul_self_nonneg v.y])
    simp [vec2_t.isNullVector, hx, hy]
  · simp [vec2_t.normalize, h0]

theorem vec3_lengthSquared_nonneg {T : Type} [LinearOrderedField T] (v : vec3_t T) :
    0 ≤ v.lengthSquared :=
  add_nonneg (add_nonneg (mul_self_nonneg _) (mul_self_nonneg _)) (mul_self_nonneg _)

theorem vec3_lengthSquared_mulScalar {T : Type} [CommRing T] (v : vec3_t T) (k : T) :
    (v.mulScalar k).lengthSquared = k * k * v.lengthSquared := by
  simp only [vec3_t.mulScalar, vec3_t.mul, vec3_t.splat, vec3_t.lengthSquared]
  ring

/-- The length of `normalize(to_)` for a `vec3` whose length is not within epsilon of 0. -/
theorem vec3_normalize_length {T : Type} [LinearOrderedField T] {sqrt : T → T}
    (hsqrt : IsSqrt sqrt) (v : vec3_t T) (to_ : T) (hto : 0 ≤ to_)
    (h0 : LINALG_FEQUAL (v.length sqrt) 0 = false) :
    LINALG_FEQUAL ((v.normalize sqrt to_).length sqrt) to_ = true ∧
    (LINALG_FEQUAL (v.length sqrt) to_ = false → (v.normalize sqrt to_).length sqrt = to_) := by
  have hL : sqrt v.lengthSquared ≠ 0 := LINALG_FEQUAL_false_zero_ne h0
  have hres : (v.mulScalar (to_ / v.length sqrt)).length sqrt = to_ := by
    simp only [vec3_t.length, vec3_lengthSquared_mulScalar]
    exact sqrt_rescaled hsqrt (vec3_lengthSquared_nonneg v) hL hto
  cases h1 : LINALG_FEQUAL (v.length sqrt) to_
  · have hn : v.normalize sqrt to_ = v.mulScalar (to_ / v.length sqrt) := by
      simp [vec3_t.normalize, h0, h1]
    rw [hn, hres]
    exact ⟨LINALG_FEQUAL_self _, fun _ => rfl⟩
  · have hn : v.normalize sqrt to_ = v := by
      simp [vec3_t.normalize, h1]
    rw [hn]
    exact ⟨h1, fun h => Bool.noConfusion h⟩

/-- A `vec3` whose length is within epsilon of 0 has every component within epsilon of 0
and is returned unchanged by `normalize`. -/
theorem vec3_normalize_of_length_near_zero {T : Type} [LinearOrderedField T] {sqrt : T → T}
    (hsqrt : IsSqrt sqrt) (v : vec3_t T) (to_ : T)
    (h0 : LINALG_FEQUAL (v.length sqrt) 0 = true) :
    v.isNullVector = true ∧ v.normalize sqrt to_ = v := by
  obtain ⟨hn, hs⟩ := hsqrt v.lengthSquared (vec3_lengthSquared_nonneg v)
  have hc : ∀ c : T, c * c ≤ v.lengthSquared → LINALG_FEQUAL c 0 = true := by
    intro c hle
    refine LINALG_FEQUAL_zero_of_sq_le h0 hn ?_
    unfold vec3_t.length
    rw [hs]
    exact hle
  refine ⟨?_, ?_⟩
  · have hx : LINALG_FEQUAL v.x 0 = true :=
      hc v.x (by simp only [vec3_t.lengthSquared]; nlinarith [mul_self_nonneg v.x, mul_self_nonneg v.y, mul_self_nonneg v.z])
    have hy : LINALG_FEQUAL v.y 0 = true :=
      hc v.y (by simp only [vec3_t.lengthSquared]; nlinarith [mul_self_nonneg v.x, mul_self_nonneg v.y, mul_self_nonneg v.z])
    have hz : LINALG_FEQUAL v.z 0 = true :=
      hc v.z (by simp only [vec3_t.lengthSquared]; nlinarith [mul_self_nonneg v.x, mul_self_nonneg v.y, mul_self_nonneg v.z])
    simp [vec3_t.isNullVector, hx, hy, hz]
  · simp [vec3_t.normalize, h0]

theorem vec4_lengthSquared_nonneg {T : Type} [LinearOrderedField T] (v : vec4_t T) :
    0 ≤ v.lengthSquared :=
  add_nonneg (add_nonneg (add_nonneg (mul_self_nonneg _) (mul_self_nonneg _)) (mul_self_nonneg _)) (mul_self_nonneg _)

theorem vec4_lengthSquared_mulScalar {T : Type} [CommRing T] (v : vec4_t T) (k : T) :
    (v.mulScalar k).lengthSquared = k * k * v.lengthSquared := by
  simp only [vec4_t.mulScalar, vec4_t.mul, vec4_t.splat, vec4_t.lengthSquared]
  ring

/-- The length of `normalize(to_)` for a `vec4` whose length is not within epsilon of 0. -/
theorem vec4_normalize_length {T : Type} [LinearOrderedField T] {sqrt : T → T}
    (hsqrt : IsSqrt sqrt) (v : vec4_t T) (to_ : T) (hto : 0 ≤ to_)
    (h0 : LINALG_FEQUAL (v.length sqrt) 0 = false) :
    LINALG_FEQUAL ((v.normalize sqrt to_).length sqrt) to_ = true ∧
    (LINALG_FEQUAL (v.length sqrt) to_ = false → (v.normalize sqrt to_).length sqrt = to_) := by
  have hL : sqrt v.lengthSquared ≠ 0 := LINALG_FEQUAL_false_zero_ne h0
  have hres : (v.mulScalar (to_ / v.length sqrt)).length sqrt = to_ := by
    simp only [vec4_t.length, vec4_lengthSquared_mulScalar]
    exact sqrt_rescaled hsqrt (vec4_lengthSquared_nonneg v) hL hto
  cases h1 : LINALG_FEQUAL (v.length sqrt) to_
  · have hn : v.normalize sqrt to_ = v.mulScalar (to_ / v.length sqrt) := by
      simp [vec4_t.normalize, h0, h1]
    rw [hn, hres]
    exact ⟨LINALG_FEQUAL_self _, fun _ => rfl⟩
  · have hn : v.normalize sqrt to_ = v := by
      simp [vec4_t.normalize, h1]
    rw [hn]
    exact ⟨h1, fun h => Bool.noConfusion h⟩

/-- A `vec4` whose length is within epsilon of 0 has every component within epsilon of 0
and is returned unchanged by `normalize`. -/
theorem vec4_normalize_of_length_near_zero {T : Type} [LinearOrderedField T] {sqrt : T → T}
    (hsqrt : IsSqrt sqrt) (v : vec4_t T) (to_ : T)
    (h0 : LINALG_FEQUAL (v.length sqrt) 0 = true) :
    v.isNullVector = true ∧ v.normalize sqrt to_ = v := by
  obtain ⟨hn, hs⟩ := hsqrt v.lengthSquared (vec4_lengthSquared_nonneg v)
  have hc : ∀ c : T, c * c ≤ v.lengthSquared → LINALG_FEQUAL c 0 = true := by
    intro c hle
    refine LINALG_FEQUAL_zero_of_sq_le h0 hn ?_
    unfold vec4_t.length
    rw [hs]
    exact hle
  refine ⟨?_, ?_⟩
  · have hx : LINALG_FEQUAL v.x 0 = true :=
      hc v.x (by simp only [vec4_t.lengthSquared]; nlinarith [mul_self_nonneg v.x, mul_self_nonneg v.y, mul_self_nonneg v.z, mul_self_nonneg v.w])
    have hy : LINALG_FEQUAL v.y 0 = true :=
      hc v.y (by simp only [vec4_t.lengthSquared]; nlinarith [mul_self_nonneg v.x, mul_self_nonneg v.y, mul_self_nonneg v.z, mul_self_nonneg v.w])
    have hz : LINALG_FEQUAL v.z 0 = true :=
      hc v.z (by simp only [vec4_t.lengthSquared]; nlinarith [mul_self_nonneg v.x, mul_self_nonneg v.y, mul_self_nonneg v.z, mul_self_nonneg v.w])
    have hw : LINALG_FEQUAL v.w 0 = true :=
      hc v.w (by simp only [vec4_t.lengthSquared]; nlinarith [mul_self_nonneg v.x, mul_self_nonneg v.y, mul_self_nonneg v.z, mul_self_nonneg v.w])
    simp [vec4_t.isNullVector, hx, hy, hz, hw]
  · simp [vec4_t.normalize, h0]

/-! ## Normalisation -/

/-- C19: for `N` in 2, 3, 4, every floating vector `v` whose length is not within epsilon of
0 and every target `to_ ≥ 0`, `normalize(v, to_)` has length within epsilon of `to_`, and
exactly `to_` when `v` was rescaled (its length was not within epsilon of `to_`); in
particular `v.normalize().length()` is within epsilon of 1. The scalars are an exact ordered
field and `sqrt` is the non-negative square root. -/
theorem vec_normalize_length {T : Type} [LinearOrderedField T] (sqrt : T → T)
    (hsqrt : IsSqrt sqrt) :
    (∀ (v : vec2_t T) (to_ : T), 0 ≤ to_ → LINALG_FEQUAL (v.length sqrt) 0 = false →
      LINALG_FEQUAL ((v.normalize sqrt to_).length sqrt) to_ = true ∧
      (LINALG_FEQUAL (v.length sqrt) to_ = false →
        (v.normalize sqrt to_).length sqrt = to_)) ∧
    (∀ (v : vec3_t T) (to_ : T), 0 ≤ to_ → LINALG_FEQUAL (v.length sqrt) 0 = false →
      LINALG_FEQUAL ((v.normalize sqrt to_).length sqrt) to_ = true ∧
      (LINALG_FEQUAL (v.length sqrt) to_ = false →
        (v.normalize sqrt to_).length sqrt = to_)) ∧
    (∀ (v : vec4_t T) (to_ : T), 0 ≤ to_ → LINALG_FEQUAL (v.length sqrt) 0 = false →
      LINALG_FEQUAL ((v.normalize sqrt to_).length sqrt) to_ = true ∧
      (LINALG_FEQUAL (v.length sqrt) to_ = false →
        (v.normalize sqrt to_).length sqrt = to_)) ∧
    (∀ v : vec2_t T, LINALG_FEQUAL (v.length sqrt) 0 = false →
      LINALG_FEQUAL ((v.normalize sqrt 1).length sqrt) 1 = true) ∧
    (∀ v : vec3_t T, LINALG_FEQUAL (v.length sqrt) 0 = false →
      LINALG_FEQUAL ((v.normalize sqrt 1).length sqrt) 1 = true) ∧
    (∀ v : vec4_t T, LINALG_FEQUAL (v.length sqrt) 0 = false →
      LINALG_FEQUAL ((v.normalize sqrt 1).length sqrt) 1 = true) :=
  ⟨fun v to_ hto h0 => vec2_normalize_length hsqrt v to_ hto h0,
   fun v to_ hto h0 => vec3_normalize_length hsqrt v to_ hto h0,
   fun v to_ hto h0 => vec4_normalize_length hsqrt v to_ hto h0,
   fun v h0 => (vec2_normalize_length hsqrt v 1 zero_le_one h0).1,
   fun v h0 => (vec3_normalize_length hsqrt v 1 zero_le_one h0).1,
   fun v h0 => (vec4_normalize_length hsqrt v 1 zero_le_one h0).1⟩

/-- The length of `(3,4)` over the reals. -/
theorem vec2_length_three_four : (⟨3, 4⟩ : vec2_t ℝ).length Real.sqrt = 5 :=
  real_sqrt_of_mul_self (by norm_num) (by norm_num [vec2_t.lengthSquared])

/-- C19 at `v = (3,4)` over the reals with the real square root: the length 5 is not within
epsilon of 0 and `v.normalize()` has length within epsilon of 1. -/
theorem vec_normalize_length_witness :
    IsSqrt Real.sqrt ∧
    LINALG_FEQUAL ((⟨3, 4⟩ : vec2_t ℝ).length Real.sqrt) 0 = false ∧
    LINALG_FEQUAL (((⟨3, 4⟩ : vec2_t ℝ).normalize Real.sqrt 1).length Real.sqrt) 1 = true :=
  ⟨isSqrt_real,
   by rw [vec2_length_three_four]; norm_num [LINALG_FEQUAL, LINALG_EPSILON],
   (vec_normalize_length Real.sqrt isSqrt_real).2.2.2.1 ⟨3, 4⟩
     (by rw [vec2_length_three_four]; norm_num [LINALG_FEQUAL, LINALG_EPSILON])⟩

/-- C20 as stated fails at `v = (0.00008, 0.000084)` over the reals: both components are
within epsilon of 0, so `isNullVector(v)` holds, but the length `0.000116` is not, and
`normalize(v)` is `(20/29, 21/29)`, not `v`. -/
theorem vec_normalize_isNullVector_counterexample :
    (⟨8 / 100000, 84 / 1000000⟩ : vec2_t ℝ).isNullVector = true ∧
    (⟨8 / 100000, 84 / 1000000⟩ : vec2_t ℝ).length Real.sqrt = 116 / 1000000 ∧
    (⟨8 / 100000, 84 / 1000000⟩ : vec2_t ℝ).normalize Real.sqrt 1 = ⟨20 / 29, 21 / 29⟩ ∧
    (⟨8 / 100000, 84 / 1000000⟩ : vec2_t ℝ).normalize Real.sqrt 1
      ≠ ⟨8 / 100000, 84 / 1000000⟩ := by
  have hlen : (⟨8 / 100000, 84 / 1000000⟩ : vec2_t ℝ).length Real.sqrt = 116 / 1000000 :=
    real_sqrt_of_mul_self (by norm_num) (by norm_num [vec2_t.lengthSquared])
  have hnorm : (⟨8 / 100000, 84 / 1000000⟩ : vec2_t ℝ).normalize Real.sqrt 1
      = ⟨20 / 29, 21 / 29⟩ := by
    unfold vec2_t.normalize
    simp only [hlen]
    norm_num [LINALG_FEQUAL, LINALG_EPSILON, vec2_t.mulScalar, vec2_t.mul, vec2_t.splat]
  refine ⟨?_, hlen, hnorm, ?_⟩
  · norm_num [vec2_t.isNullVector, LINALG_FEQUAL, LINALG_EPSILON]
  · rw [hnorm]
    norm_num

/-- C20, amended: for `N` in 2, 3, 4 and every floating vector `v` whose length is within
epsilon of 0, `isNullVector(v)` holds and `normalize(v, to_)` returns `v` unchanged, for
every target `to_`. -/
theorem vec_normalize_of_length_near_zero {T : Type} [LinearOrderedField T] (sqrt : T → T)
    (hsqrt : IsSqrt sqrt) :
    (∀ (v : vec2_t T) (to_ : T), LINALG_FEQUAL (v.length sqrt) 0 = true →
      v.isNullVector = true ∧ v.normalize sqrt to_ = v) ∧
    (∀ (v : vec3_t T) (to_ : T), LINALG_FEQUAL (v.length sqrt) 0 = true →
      v.isNullVector = true ∧ v.normalize sqrt to_ = v) ∧
    (∀ (v : vec4_t T) (to_ : T), LINALG_FEQUAL (v.length sqrt) 0 = true →
      v.isNullVector = true ∧ v.normalize sqrt to_ = v) :=
  ⟨fun v to_ h0 => vec2_normalize_of_length_near_zero hsqrt v to_ h0,
   fun v to_ h0 => vec3_normalize_of_length_near_zero hsqrt v to_ h0,
   fun v to_ h0 => vec4_normalize_of_length_near_zero hsqrt v to_ h0⟩

/-- The length of `(0.00003, 0.00004)` over the reals. -/
theorem vec2_length_small : (⟨3 / 100000, 4 / 100000⟩ : vec2_t ℝ).length Real.sqrt
    = 5 / 100000 :=
  real_sqrt_of_mul_self (by norm_num) (by norm_num [vec2_t.lengthSquared])

/-- C20, amended, at `v = (0.00003, 0.00004)` over the reals, whose length `0.00005` is
within epsilon of 0: `normalize(v)` is `v`. -/
theorem vec_normalize_of_length_near_zero_witness :
    IsSqrt Real.sqrt ∧
    LINALG_FEQUAL ((⟨3 / 100000, 4 / 100000⟩ : vec2_t ℝ).length Real.sqrt) 0 = true ∧
    (⟨3 / 100000, 4 / 100000⟩ : vec2_t ℝ).isNullVector = true ∧
    (⟨3 / 100000, 4 / 100000⟩ : vec2_t ℝ).normalize Real.sqrt 1
      = ⟨3 / 100000, 4 / 100000⟩ :=
  ⟨isSqrt_real,
   by rw [vec2_length_small]; norm_num [LINALG_FEQUAL, LINALG_EPSILON],
   (vec_normalize_of_length_near_zero Real.sqrt isSqrt_real).1 ⟨3 / 100000, 4 / 100000⟩ 1
     (by rw [vec2_length_small]; norm_num [LINALG_FEQUAL, LINALG_EPSILON])⟩

/-! ## The view matrix -/

/-- `normalize` returns the vector times a scalar (1 when it is returned unchanged). -/
theorem vec3_normalize_eq_mulScalar {T : Type} [LinearOrderedField T] (sqrt : T → T)
    (v : vec3_t T) (to_ : T) : ∃ k : T, v.normalize sqrt to_ = v.mulScalar k := by
  unfold vec3_t.normalize
  simp only []
  split
  · exact ⟨_, rfl⟩
  · exact ⟨1, by simp [vec3_t.mulScalar, vec3_t.mul, vec3_t.splat]⟩

/-- A multiple of `u × z` is orthogonal to `z`. -/
theorem vec3_dot_cross_mulScalar_right {T : Type} [CommRing T] (u z : vec3_t T) (k : T) :
    ((u.cross z).mulScalar k).dot z = 0 := by
  simp only [vec3_t.mulScalar, vec3_t.mul, vec3_t.splat, vec3_t.cross, vec3_t.dot]
  ring

/-- Lagrange's identity for the cross product. -/
theorem vec3_lengthSquared_cross {T : Type} [CommRing T] (z x : vec3_t T) :
    (z.cross x).lengthSquared = z.lengthSquared * x.lengthSquared - x.dot z * x.dot z := by
  simp only [vec3_t.cross, vec3_t.dot, vec3_t.lengthSquared]
  ring

/-- C16, amended: for every `eye`, `at_` and `up`, the three axes `lookAt` builds
(`z = normalize(eye - at_)`, `x = normalize(cross(up, z))`, `y = cross(z, x)`) are pairwise
orthogonal (all three dot products are 0); `z` has length within epsilon of 1 when the
length of `eye - at_` is not within epsilon of 0; `x` has length within epsilon of 1 when the
length of `cross(up, z)` is not within epsilon of 0; `y` has length `|z|·|x|`; and
`Matrix4.identity().lookAt(eye, at_, up)` has the rows `(x, -x·eye)`, `(y, -y·eye)`,
`(z, -z·eye)` and `(0,0,0,1)`. The scalars are an exact ordered field and `sqrt` is the
non-negative square root. -/
theorem mat4_lookAt_axes {T : Type} [LinearOrderedField T] (sqrt : T → T) (hsqrt : IsSqrt sqrt)
    (eye at_ up : vec3_t T) :
    ((mat4_t.lookAt_x_axis sqrt eye at_ up).dot (mat4_t.lookAt_y_axis sqrt eye at_ up) = 0 ∧
      (mat4_t.lookAt_x_axis sqrt eye at_ up).dot (mat4_t.lookAt_z_axis sqrt eye at_) = 0 ∧
      (mat4_t.lookAt_y_axis sqrt eye at_ up).dot (mat4_t.lookAt_z_axis sqrt eye at_) = 0) ∧
    (LINALG_FEQUAL ((eye.sub at_).length sqrt) 0 = false →
      LINALG_FEQUAL ((mat4_t.lookAt_z_axis sqrt eye at_).length sqrt) 1 = true) ∧
    (LINALG_FEQUAL ((up.cross (mat4_t.lookAt_z_axis sqrt eye at_)).length sqrt) 0 = false →
      LINALG_FEQUAL ((mat4_t.lookAt_x_axis sqrt eye at_ up).length sqrt) 1 = true) ∧
    (mat4_t.lookAt_y_axis sqrt eye at_ up).length sqrt
      = (mat4_t.lookAt_z_axis sqrt eye at_).length sqrt
        * (mat4_t.lookAt_x_axis sqrt eye at_ up).length sqrt ∧
    ((mat4_t.identity : mat4_t T).lookAt sqrt eye at_ up).row 0
      = ⟨(mat4_t.lookAt_x_axis sqrt eye at_ up).x, (mat4_t.lookAt_x_axis sqrt eye at_ up).y,
         (mat4_t.lookAt_x_axis sqrt eye at_ up).z,
         -((mat4_t.lookAt_x_axis sqrt eye at_ up).dot eye)⟩ ∧
    ((mat4_t.identity : mat4_t T).lookAt sqrt eye at_ up).row 1
      = ⟨(mat4_t.lookAt_y_axis sqrt eye at_ up).x, (mat4_t.lookAt_y_axis sqrt eye at_ up).y,
         (mat4_t.lookAt_y_axis sqrt eye at_ up).z,
         -((mat4_t.lookAt_y_axis sqrt eye at_ up).dot eye)⟩ ∧
    ((mat4_t.identity : mat4_t T).lookAt sqrt eye at_ up).row 2
      = ⟨(mat4_t.lookAt_z_axis sqrt eye at_).x, (mat4_t.lookAt_z_axis sqrt eye at_).y,
         (mat4_t.lookAt_z_axis sqrt eye at_).z,
         -((mat4_t.lookAt_z_axis sqrt eye at_).dot eye)⟩ ∧
    ((mat4_t.identity : mat4_t T).lookAt sqrt eye at_ up).row 3 = ⟨0, 0, 0, 1⟩ := by
  have hxz : (mat4_t.lookAt_x_axis sqrt eye at_ up).dot (mat4_t.lookAt_z_axis sqrt eye at_)
      = 0 := by
    obtain ⟨k, hk⟩ :=
      vec3_normalize_eq_mulScalar sqrt (up.cross (mat4_t.lookAt_z_axis sqrt eye at_)) 1
    rw [mat4_t.lookAt_x_axis, hk]
    exact vec3_dot_cross_mulScalar_right _ _ _
  have hxy : (mat4_t.lookAt_x_axis sqrt eye at_ up).dot (mat4_t.lookAt_y_axis sqrt eye at_ up)
      = 0 := by
    rw [mat4_t.lookAt_y_axis]
    simp only [vec3_t.cross, vec3_t.dot]
    ring
  have hyz : (mat4_t.lookAt_y_axis sqrt eye at_ up).dot (mat4_t.lookAt_z_axis sqrt eye at_)
      = 0 := by
    rw [mat4_t.lookAt_y_axis]
    simp only [vec3_t.cross, vec3_t.dot]
    ring
  refine ⟨⟨hxy, hxz, hyz⟩, ?_, ?_, ?_, ?_, ?_, ?_, ?_⟩
  · intro h0
    exact (vec3_normalize_length hsqrt (eye.sub at_) 1 zero_le_one h0).1
  · intro h0
    exact (vec3_normalize_length hsqrt _ 1 zero_le_one h0).1
  · have hl : (mat4_t.lookAt_y_axis sqrt eye at_ up).lengthSquared
        = (mat4_t.lookAt_z_axis sqrt eye at_).lengthSquared
          * (mat4_t.lookAt_x_axis sqrt eye at_ up).lengthSquared := by
      rw [mat4_t.lookAt_y_axis, vec3_lengthSquared_cross, hxz]
      ring
    simp only [vec3_t.length]
    rw [hl]
    exact sqrt_mul_of_isSqrt hsqrt (vec3_lengthSquared_nonneg _) (vec3_lengthSquared_nonneg _)
  · simp [mat4_t.lookAt, mat4_mul_identity_left, mat4_t.row, mat4_t.index, vec4_t.index,
      mat4_t.ofScalars]
  · simp [mat4_t.lookAt, mat4_mul_identity_left, mat4_t.row, mat4_t.index, vec4_t.index,
      mat4_t.ofScalars]
  · simp [mat4_t.lookAt, mat4_mul_identity_left, mat4_t.row, mat4_t.index, vec4_t.index,
      mat4_t.ofScalars]
  · simp [mat4_t.lookAt, mat4_mul_identity_left, mat4_t.row, mat4_t.index, vec4_t.index,
      mat4_t.ofScalars]

/-- The length of `(0,0,5)` over the reals. -/
theorem vec3_length_zero_zero_five : (⟨0, 0, 5⟩ : vec3_t ℝ).length Real.sqrt = 5 :=
  real_sqrt_of_mul_self (by norm_num) (by norm_num [vec3_t.lengthSquared])

/-- C16, amended, at `eye = (0,0,5)`, `at_ = (0,0,0)`, `up = (0,1,0)` over the reals: the
length of `eye - at_` is not within epsilon of 0, the `z` axis has length within epsilon
of 1, and the three axes are pairwise orthogonal. -/
theorem mat4_lookAt_axes_witness :
    IsSqrt Real.sqrt ∧
    LINALG_FEQUAL (((⟨0, 0, 5⟩ : vec3_t ℝ).sub ⟨0, 0, 0⟩).length Real.sqrt) 0 = false ∧
    LINALG_FEQUAL
      ((mat4_t.lookAt_z_axis Real.sqrt (⟨0, 0, 5⟩ : vec3_t ℝ) ⟨0, 0, 0⟩).length Real.sqrt) 1
      = true ∧
    ((mat4_t.lookAt_x_axis Real.sqrt (⟨0, 0, 5⟩ : vec3_t ℝ) ⟨0, 0, 0⟩ ⟨0, 1, 0⟩).dot
        (mat4_t.lookAt_y_axis Real.sqrt (⟨0, 0, 5⟩ : vec3_t ℝ) ⟨0, 0, 0⟩ ⟨0, 1, 0⟩) = 0 ∧
      (mat4_t.lookAt_x_axis Real.sqrt (⟨0, 0, 5⟩ : vec3_t ℝ) ⟨0, 0, 0⟩ ⟨0, 1, 0⟩).dot
        (mat4_t.lookAt_z_axis Real.sqrt (⟨0, 0, 5⟩ : vec3_t ℝ) ⟨0, 0, 0⟩) = 0 ∧
      (mat4_t.lookAt_y_axis Real.sqrt (⟨0, 0, 5⟩ : vec3_t ℝ) ⟨0, 0, 0⟩ ⟨0, 1, 0⟩).dot
        (mat4_t.lookAt_z_axis Real.sqrt (⟨0, 0, 5⟩ : vec3_t ℝ) ⟨0, 0, 0⟩) = 0) :=
  have hlen : LINALG_FEQUAL (((⟨0, 0, 5⟩ : vec3_t ℝ).sub ⟨0, 0, 0⟩).length Real.sqrt) 0
      = false := by
    rw [show (⟨0, 0, 5⟩ : vec3_t ℝ).sub ⟨0, 0, 0⟩ = ⟨0, 0, 5⟩ by norm_num [vec3_t.sub],
      vec3_length_zero_zero_five]
    norm_num [LINALG_FEQUAL, LINALG_EPSILON]
  ⟨isSqrt_real, hlen,
   (mat4_lookAt_axes Real.sqrt isSqrt_real ⟨0, 0, 5⟩ ⟨0, 0, 0⟩ ⟨0, 1, 0⟩).2.1 hlen,
   (mat4_lookAt_axes Real.sqrt isSqrt_real ⟨0, 0, 5⟩ ⟨0, 0, 0⟩ ⟨0, 1, 0⟩).1⟩

/-- `normalize` over the reals once the length is known. -/
theorem vec3_normalize_of_length {sqrtv : ℝ} (v : vec3_t ℝ) (to_ : ℝ)
    (h : v.length Real.sqrt = sqrtv) :
    v.normalize Real.sqrt to_
      = if !LINALG_FEQUAL sqrtv 0 && !LINALG_FEQUAL sqrtv to_ then v.mulScalar (to_ / sqrtv)
        else v := by
  unfold vec3_t.normalize
  simp only [h]

/-- C16 as stated fails at two inputs over the reals. For `eye = (0,0,1.00009)`,
`at_ = (0,0,0)`, `up = (0,1,0)` (`eye - at_` is not near zero and `up` is perpendicular to
it) neither `normalize` rescales, and `y = (0, 1.00009², 0)` has a length that is not within
epsilon of 1. For `eye = (0,0,1)`, `at_ = (0,0,0)`, `up = (0, 0.00001, 1)` (`up` is not
parallel to `eye - at_`) `cross(up, z)` has length `0.00001`, within epsilon of 0, so
`normalize` returns it unchanged and `x` does not have a length within epsilon of 1. -/
theorem mat4_lookAt_axes_counterexample :
    (LINALG_FEQUAL (((⟨0, 0, 100009 / 100000⟩ : vec3_t ℝ).sub ⟨0, 0, 0⟩).length Real.sqrt) 0
        = false ∧
      (⟨0, 1, 0⟩ : vec3_t ℝ).dot ((⟨0, 0, 100009 / 100000⟩ : vec3_t ℝ).sub ⟨0, 0, 0⟩) = 0 ∧
      (⟨0, 1, 0⟩ : vec3_t ℝ).cross ((⟨0, 0, 100009 / 100000⟩ : vec3_t ℝ).sub ⟨0, 0, 0⟩)
        = ⟨100009 / 100000, 0, 0⟩ ∧
      mat4_t.lookAt_y_axis Real.sqrt (⟨0, 0, 100009 / 100000⟩ : vec3_t ℝ) ⟨0, 0, 0⟩ ⟨0, 1, 0⟩
        = ⟨0, 10001800081 / 10000000000, 0⟩ ∧
      LINALG_FEQUAL
        ((mat4_t.lookAt_y_axis Real.sqrt (⟨0, 0, 100009 / 100000⟩ : vec3_t ℝ) ⟨0, 0, 0⟩
          ⟨0, 1, 0⟩).length Real.sqrt) 1 = false) ∧
    (LINALG_FEQUAL (((⟨0, 0, 1⟩ : vec3_t ℝ).sub ⟨0, 0, 0⟩).length Real.sqrt) 0 = false ∧
      (⟨0, 1 / 100000, 1⟩ : vec3_t ℝ).cross ((⟨0, 0, 1⟩ : vec3_t ℝ).sub ⟨0, 0, 0⟩)
        = ⟨1 / 100000, 0, 0⟩ ∧
      mat4_t.lookAt_x_axis Real.sqrt (⟨0, 0, 1⟩ : vec3_t ℝ) ⟨0, 0, 0⟩ ⟨0, 1 / 100000, 1⟩
        = ⟨1 / 100000, 0, 0⟩ ∧
      LINALG_FEQUAL
        ((mat4_t.lookAt_x_axis Real.sqrt (⟨0, 0, 1⟩ : vec3_t ℝ) ⟨0, 0, 0⟩
          ⟨0, 1 / 100000, 1⟩).length Real.sqrt) 1 = false) := by
  have hsubA : (⟨0, 0, 100009 / 100000⟩ : vec3_t ℝ).sub ⟨0, 0, 0⟩ = ⟨0, 0, 100009 / 100000⟩ := by
    norm_num [vec3_t.sub]
  have hlenA : (⟨0, 0, 100009 / 100000⟩ : vec3_t ℝ).length Real.sqrt = 100009 / 100000 :=
    real_sqrt_of_mul_self (by norm_num) (by norm_num [vec3_t.lengthSquared])
  have hzA : mat4_t.lookAt_z_axis Real.sqrt (⟨0, 0, 100009 / 100000⟩ : vec3_t ℝ) ⟨0, 0, 0⟩
      = ⟨0, 0, 100009 / 100000⟩ := by
    rw [mat4_t.lookAt_z_axis, hsubA, vec3_normalize_of_length _ _ hlenA]
    norm_num [LINALG_FEQUAL, LINALG_EPSILON]
  have hcrossA : (⟨0, 1, 0⟩ : vec3_t ℝ).cross ⟨0, 0, 100009 / 100000⟩
      = ⟨100009 / 100000, 0, 0⟩ := by
    norm_num [vec3_t.cross]
  have hlenA2 : (⟨100009 / 100000, 0, 0⟩ : vec3_t ℝ).length Real.sqrt = 100009 / 100000 :=
    real_sqrt_of_mul_self (by norm_num) (by norm_num [vec3_t.lengthSquared])
  have hxA : mat4_t.lookAt_x_axis Real.sqrt (⟨0, 0, 100009 / 100000⟩ : vec3_t ℝ) ⟨0, 0, 0⟩
      ⟨0, 1, 0⟩ = ⟨100009 / 100000, 0, 0⟩ := by
    rw [mat4_t.lookAt_x_axis, hzA, hcrossA, vec3_normalize_of_length _ _ hlenA2]
    norm_num [LINALG_FEQUAL, LINALG_EPSILON]
  have hyA : mat4_t.lookAt_y_axis Real.sqrt (⟨0, 0, 100009 / 100000⟩ : vec3_t ℝ) ⟨0, 0, 0⟩
      ⟨0, 1, 0⟩ = ⟨0, 10001800081 / 10000000000, 0⟩ := by
    rw [mat4_t.lookAt_y_axis, hzA, hxA]
    norm_num [vec3_t.cross]
  have hlenA3 : (⟨0, 10001800081 / 10000000000, 0⟩ : vec3_t ℝ).length Real.sqrt
      = 10001800081 / 10000000000 :=
    real_sqrt_of_mul_self (by norm_num) (by norm_num [vec3_t.lengthSquared])
  have hsubB : (⟨0, 0, 1⟩ : vec3_t ℝ).sub ⟨0, 0, 0⟩ = ⟨0, 0, 1⟩ := by
    norm_num [vec3_t.sub]
  have hlenB : (⟨0, 0, 1⟩ : vec3_t ℝ).length Real.sqrt = 1 :=
    real_sqrt_of_mul_self (by norm_num) (by norm_num [vec3_t.lengthSquared])
  have hzB : mat4_t.lookAt_z_axis Real.sqrt (⟨0, 0, 1⟩ : vec3_t ℝ) ⟨0, 0, 0⟩ = ⟨0, 0, 1⟩ := by
    rw [mat4_t.lookAt_z_axis, hsubB, vec3_normalize_of_length _ _ hlenB]
    norm_num [LINALG_FEQUAL, LINALG_EPSILON]
  have hcrossB : (⟨0, 1 / 100000, 1⟩ : vec3_t ℝ).cross ⟨0, 0, 1⟩ = ⟨1 / 100000, 0, 0⟩ := by
    norm_num [vec3_t.cross]
  have hlenB2 : (⟨1 / 100000, 0, 0⟩ : vec3_t ℝ).length Real.sqrt = 1 / 100000 :=
    real_sqrt_of_mul_self (by norm_num) (by norm_num [vec3_t.lengthSquared])
  have hxB : mat4_t.lookAt_x_axis Real.sqrt (⟨0, 0, 1⟩ : vec3_t ℝ) ⟨0, 0, 0⟩
      ⟨0, 1 / 100000, 1⟩ = ⟨1 / 100000, 0, 0⟩ := by
    rw [mat4_t.lookAt_x_axis, hzB, hcrossB, vec3_normalize_of_length _ _ hlenB2]
    norm_num [LINALG_FEQUAL, LINALG_EPSILON]
  refine ⟨⟨?_, ?_, ?_, hyA, ?_⟩, ⟨?_, ?_, hxB, ?_⟩⟩
  · rw [hsubA, hlenA]
    norm_num [LINALG_FEQUAL, LINALG_EPSILON]
  · rw [hsubA]
    norm_num [vec3_t.dot]
  · rw [hsubA, hcrossA]
  · rw [hyA, hlenA3]
    norm_num [LINALG_FEQUAL, LINALG_EPSILON]
  · rw [hsubB, hlenB]
    norm_num [LINALG_FEQUAL, LINALG_EPSILON]
  · rw [hsubB, hcrossB]
  · rw [hxB, hlenB2]
    norm_num [LINALG_FEQUAL, LINALG_EPSILON]

/-! ## Equality, construction and component-wise operations -/

/-- `LINALG_FEQUAL(a, b)` is `|a - b| < LINALG_EPSILON`. -/
theorem LINALG_FEQUAL_iff_abs {T : Type} [LinearOrderedField T] (a b : T) :
    LINALG_FEQUAL a b = true ↔ |a - b| < LINALG_EPSILON := by
  simp only [LINALG_FEQUAL, Bool.and_eq_true, decide_eq_true_eq, abs_lt]
  constructor
  · rintro ⟨h1, h2⟩
    constructor <;> linarith
  · rintro ⟨h1, h2⟩
    constructor <;> linarith

/-- C22: for all 3-vectors `a` and `b`,
`cross(a,b) = (a.y*b.z - a.z*b.y, a.z*b.x - a.x*b.z, a.x*b.y - a.y*b.x)`, and it is
orthogonal to both operands (`dot(a, cross(a,b)) = 0`, `dot(b, cross(a,b)) = 0`);
`Vector3(1,0,0).cross(Vector3(0,1,0))` is `Vector3(0,0,1)`. -/
theorem vec3_cross_formula {T : Type} [CommRing T] :
    (∀ a b : vec3_t T,
      a.cross b = ⟨a.y * b.z - a.z * b.y, a.z * b.x - a.x * b.z, a.x * b.y - a.y * b.x⟩ ∧
      a.dot (a.cross b) = 0 ∧ b.dot (a.cross b) = 0) ∧
    (⟨1, 0, 0⟩ : vec3_t T).cross ⟨0, 1, 0⟩ = ⟨0, 0, 1⟩ ∧
    (⟨1, 0, 0⟩ : vec3_t ℤ).cross ⟨0, 1, 0⟩ = ⟨0, 0, 1⟩ := by
  refine ⟨fun a b => ⟨rfl, ?_, ?_⟩, ?_, by decide⟩
  · simp only [vec3_t.cross, vec3_t.dot]
    ring
  · simp only [vec3_t.cross, vec3_t.dot]
    ring
  · simp [vec3_t.cross]

/-- In a well-formed layout the members of a `vec2` start at bytes 0 and `sizeof(T)`. -/
theorem vec2_layout_offsets (L : vec2_layout) (h : L.WellFormed) :
    L.offset_x = 0 ∧ L.offset_y = L.sizeofT := by
  obtain ⟨h0, h1, h2⟩ := h
  constructor <;> omega

/-- In a well-formed layout the members of a `vec3` start at bytes 0, `sizeof(T)` and
`sizeof(T) * 2`. -/
theorem vec3_layout_offsets (L : vec3_layout) (h : L.WellFormed) :
    L.offset_x = 0 ∧ L.offset_y = L.sizeofT ∧ L.offset_z = L.sizeofT * 2 := by
  obtain ⟨h0, h1, h2, h3⟩ := h
  refine ⟨?_, ?_, ?_⟩ <;> omega

/-- In a well-formed layout the members of a `vec4` start at bytes 0, `sizeof(T)`,
`sizeof(T) * 2` and `sizeof(T) * 3`. -/
theorem vec4_layout_offsets (L : vec4_layout) (h : L.WellFormed) :
    L.offset_x = 0 ∧ L.offset_y = L.sizeofT ∧ L.offset_z = L.sizeofT * 2 ∧
    L.offset_w = L.sizeofT * 3 := by
  obtain ⟨h0, h1, h2, h3, h4⟩ := h
  refine ⟨?_, ?_, ?_, ?_⟩ <;> omega

/-- The cast read of a `vec2` at an index below 2 is the read of the embedding. -/
theorem vec2_castIndex_eq {T : Type} (L : vec2_layout) (h : L.WellFormed) (v : vec2_t T)
    (i : Fin 2) : v.castIndex L i.val = some (v.index i) := by
  obtain ⟨hx, hy⟩ := vec2_layout_offsets L h
  have hs : 0 < L.sizeofT := h.1
  simp only [vec2_t.castIndex, vec2_t.readAt, hx, hy]
  fin_cases i <;> simp only [vec2_t.index] <;> split_ifs <;>
    first
    | rfl
    | (exfalso; simp only [Fin.val_zero, Fin.val_one, Fin.zero_eta, Fin.mk_one] at *; omega)

/-- The cast write of a `vec2` at an index below 2 is the write of the embedding. -/
theorem vec2_castSetIndex_eq {T : Type} (L : vec2_layout) (h : L.WellFormed) (v : vec2_t T)
    (i : Fin 2) (s : T) : v.castSetIndex L i.val s = some (v.setIndex i s) := by
  obtain ⟨hx, hy⟩ := vec2_layout_offsets L h
  have hs : 0 < L.sizeofT := h.1
  simp only [vec2_t.castSetIndex, vec2_t.writeAt, hx, hy]
  fin_cases i <;> simp only [vec2_t.setIndex] <;> split_ifs <;>
    first
    | rfl
    | (exfalso; simp only [Fin.val_zero, Fin.val_one, Fin.zero_eta, Fin.mk_one] at *; omega)

/-- The cast read of a `vec3` at an index below 3 is the read of the embedding. -/
theorem vec3_castIndex_eq {T : Type} (L : vec3_layout) (h : L.WellFormed) (v : vec3_t T)
    (i : Fin 3) : v.castIndex L i.val = some (v.index i) := by
  obtain ⟨hx, hy, hz⟩ := vec3_layout_offsets L h
  have hs : 0 < L.sizeofT := h.1
  simp only [vec3_t.castIndex, vec3_t.readAt, hx, hy, hz]
  fin_cases i <;> simp only [vec3_t.index] <;> split_ifs <;>
    first
    | rfl
    | (exfalso; simp only [Fin.val_zero, Fin.val_one, Fin.val_two, Fin.zero_eta, Fin.mk_one,
        Fin.reduceFinMk] at *; omega)

/-- The cast write of a `vec3` at an index below 3 is the write of the embedding. -/
theorem vec3_castSetIndex_eq {T : Type} (L : vec3_layout) (h : L.WellFormed) (v : vec3_t T)
    (i : Fin 3) (s : T) : v.castSetIndex L i.val s = some (v.setIndex i s) := by
  obtain ⟨hx, hy, hz⟩ := vec3_layout_offsets L h
  have hs : 0 < L.sizeofT := h.1
  simp only [vec3_t.castSetIndex, vec3_t.writeAt, hx, hy, hz]
  fin_cases i <;> simp only [vec3_t.setIndex] <;> split_ifs <;>
    first
    | rfl
    | (exfalso; simp only [Fin.val_zero, Fin.val_one, Fin.val_two, Fin.zero_eta, Fin.mk_one,
        Fin.reduceFinMk] at *; omega)

/-- The cast read of a `vec4` at an index below 4 is the read of the embedding. -/
theorem vec4_castIndex_eq {T : Type} (L : vec4_layout) (h : L.WellFormed) (v : vec4_t T)
    (i : Fin 4) : v.castIndex L i.val = some (v.index i) := by
  obtain ⟨hx, hy, hz, hw⟩ := vec4_layout_offsets L h
  have hs : 0 < L.sizeofT := h.1
  simp only [vec4_t.castIndex, vec4_t.readAt, hx, hy, hz, hw]
  fin_cases i <;> simp only [vec4_t.index] <;> split_ifs <;>
    first
    | rfl
    | (exfalso; simp only [Fin.val_zero, Fin.val_one, Fin.val_two, Fin.zero_eta, Fin.mk_one,
        Fin.reduceFinMk] at *; omega)

/-- The cast write of a `vec4` at an index below 4 is the write of the embedding. -/
theorem vec4_castSetIndex_eq {T : Type} (L : vec4_layout) (h : L.WellFormed) (v : vec4_t T)
    (i : Fin 4) (s : T) : v.castSetIndex L i.val s = some (v.setIndex i s) := by
  obtain ⟨hx, hy, hz, hw⟩ := vec4_layout_offsets L h
  have hs : 0 < L.sizeofT := h.1
  simp only [vec4_t.castSetIndex, vec4_t.writeAt, hx, hy, hz, hw]
  fin_cases i <;> simp only [vec4_t.setIndex] <;> split_ifs <;>
    first
    | rfl
    | (exfalso; simp only [Fin.val_zero, Fin.val_one, Fin.val_two, Fin.zero_eta, Fin.mk_one,
        Fin.reduceFinMk] at *; omega)

/-- C24: indexed access aliases the named fields. Take any layouts of `vec2_t`, `vec3_t`
and `vec4_t` in which the members lie in declaration order without overlap inside an object
of `sizeof(T) * N` bytes (what the language and the `STATIC_ASSERT`s of the source fix).
Then for `N` in 2, 3, 4 and every vector `v`: the members start at the bytes
`0, sizeof(T), ..., (N-1) * sizeof(T)`; the read `(reinterpret_cast<T*>(this))[i]` for
`i = 0, 1, 2, 3` (those below `N`) is defined and yields `v.x`, `v.y`, `v.z`, `v.w`; the
write `v[i] = s` is defined, sets the `i`-th named field to `s` and leaves the other fields
as they were; both agree with the `index` and `setIndex` of the embedding; reading `v[j]`
after writing `v[i] = s` gives `s` for `j = i` and the old `v[j]` otherwise; and the vector
`(1,2,3,4)` reads back 1, 2, 3, 4. -/
theorem vec_index_aliases_fields {T : Type} (L2 : vec2_layout) (L3 : vec3_layout)
    (L4 : vec4_layout) (h2 : L2.WellFormed) (h3 : L3.WellFormed) (h4 : L4.WellFormed) :
    ((L2.offset_x = 0 ∧ L2.offset_y = L2.sizeofT) ∧
      (L3.offset_x = 0 ∧ L3.offset_y = L3.sizeofT ∧ L3.offset_z = L3.sizeofT * 2) ∧
      (L4.offset_x = 0 ∧ L4.offset_y = L4.sizeofT ∧ L4.offset_z = L4.sizeofT * 2 ∧
        L4.offset_w = L4.sizeofT * 3)) ∧
    (∀ v : vec2_t T, v.castIndex L2 0 = some v.x ∧ v.castIndex L2 1 = some v.y) ∧
    (∀ v : vec3_t T, v.castIndex L3 0 = some v.x ∧ v.castIndex L3 1 = some v.y ∧
      v.castIndex L3 2 = some v.z) ∧
    (∀ v : vec4_t T, v.castIndex L4 0 = some v.x ∧ v.castIndex L4 1 = some v.y ∧
      v.castIndex L4 2 = some v.z ∧ v.castIndex L4 3 = some v.w) ∧
    (∀ (v : vec2_t T) (s : T),
      v.castSetIndex L2 0 s = some ⟨s, v.y⟩ ∧ v.castSetIndex L2 1 s = some ⟨v.x, s⟩) ∧
    (∀ (v : vec3_t T) (s : T),
      v.castSetIndex L3 0 s = some ⟨s, v.y, v.z⟩ ∧
      v.castSetIndex L3 1 s = some ⟨v.x, s, v.z⟩ ∧
      v.castSetIndex L3 2 s = some ⟨v.x, v.y, s⟩) ∧
    (∀ (v : vec4_t T) (s : T),
      v.castSetIndex L4 0 s = some ⟨s, v.y, v.z, v.w⟩ ∧
      v.castSetIndex L4 1 s = some ⟨v.x, s, v.z, v.w⟩ ∧
      v.castSetIndex L4 2 s = some ⟨v.x, v.y, s, v.w⟩ ∧
      v.castSetIndex L4 3 s = some ⟨v.x, v.y, v.z, s⟩) ∧
    ((∀ (v : vec2_t T) (i : Fin 2), v.castIndex L2 i.val = some (v.index i)) ∧
      (∀ (v : vec3_t T) (i : Fin 3), v.castIndex L3 i.val = some (v.index i)) ∧
      (∀ (v : vec4_t T) (i : Fin 4), v.castIndex L4 i.val = some (v.index i))) ∧
    ((∀ (v : vec2_t T) (i : Fin 2) (s : T),
        v.castSetIndex L2 i.val s = some (v.setIndex i s)) ∧
      (∀ (v : vec3_t T) (i : Fin 3) (s : T),
        v.castSetIndex L3 i.val s = some (v.setIndex i s)) ∧
      (∀ (v : vec4_t T) (i : Fin 4) (s : T),
        v.castSetIndex L4 i.val s = some (v.setIndex i s))) ∧
    ((∀ (v : vec2_t T) (i j : Fin 2) (s : T),
        (v.castSetIndex L2 i.val s).bind (fun u => u.castIndex L2 j.val)
          = some (if j = i then s else v.index j)) ∧
      (∀ (v : vec3_t T) (i j : Fin 3) (s : T),
        (v.castSetIndex L3 i.val s).bind (fun u => u.castIndex L3 j.val)
          = some (if j = i then s else v.index j)) ∧
      (∀ (v : vec4_t T) (i j : Fin 4) (s : T),
        (v.castSetIndex L4 i.val s).bind (fun u => u.castIndex L4 j.val)
          = some (if j = i then s else v.index j))) ∧
    ((⟨1, 2, 3, 4⟩ : vec4_t ℤ).castIndex L4 0 = some 1 ∧
      (⟨1, 2, 3, 4⟩ : vec4_t ℤ).castIndex L4 1 = some 2 ∧
      (⟨1, 2, 3, 4⟩ : vec4_t ℤ).castIndex L4 2 = some 3 ∧
      (⟨1, 2, 3, 4⟩ : vec4_t ℤ).castIndex L4 3 = some 4) := by
  refine ⟨⟨vec2_layout_offsets L2 h2, vec3_layout_offsets L3 h3, vec4_layout_offsets L4 h4⟩,
    fun v => ⟨vec2_castIndex_eq L2 h2 v 0, vec2_castIndex_eq L2 h2 v 1⟩,
    fun v => ⟨vec3_castIndex_eq L3 h3 v 0, vec3_castIndex_eq L3 h3 v 1,
      vec3_castIndex_eq L3 h3 v 2⟩,
    fun v => ⟨vec4_castIndex_eq L4 h4 v 0, vec4_castIndex_eq L4 h4 v 1,
      vec4_castIndex_eq L4 h4 v 2, vec4_castIndex_eq L4 h4 v 3⟩,
    fun v s => ⟨vec2_castSetIndex_eq L2 h2 v 0 s, vec2_castSetIndex_eq L2 h2 v 1 s⟩,
    fun v s => ⟨vec3_castSetIndex_eq L3 h3 v 0 s, vec3_castSetIndex_eq L3 h3 v 1 s,
      vec3_castSetIndex_eq L3 h3 v 2 s⟩,
    fun v s => ⟨vec4_castSetIndex_eq L4 h4 v 0 s, vec4_castSetIndex_eq L4 h4 v 1 s,
      vec4_castSetIndex_eq L4 h4 v 2 s, vec4_castSetIndex_eq L4 h4 v 3 s⟩,
    ⟨vec2_castIndex_eq L2 h2, vec3_castIndex_eq L3 h3, vec4_castIndex_eq L4 h4⟩,
    ⟨vec2_castSetIndex_eq L2 h2, vec3_castSetIndex_eq L3 h3, vec4_castSetIndex_eq L4 h4⟩,
    ⟨?_, ?_, ?_⟩,
    ⟨vec4_castIndex_eq L4 h4 _ 0, vec4_castIndex_eq L4 h4 _ 1, vec4_castIndex_eq L4 h4 _ 2,
      vec4_castIndex_eq L4 h4 _ 3⟩⟩
  · intro v i j s
    rw [vec2_castSetIndex_eq L2 h2, Option.some_bind, vec2_castIndex_eq L2 h2]
    fin_cases i <;> fin_cases j <;> simp [vec2_t.setIndex, vec2_t.index]
  · intro v i j s
    rw [vec3_castSetIndex_eq L3 h3, Option.some_bind, vec3_castIndex_eq L3 h3]
    fin_cases i <;> fin_cases j <;> simp [vec3_t.setIndex, vec3_t.index]
  · intro v i j s
    rw [vec4_castSetIndex_eq L4 h4, Option.some_bind, vec4_castIndex_eq L4 h4]
    fin_cases i <;> fin_cases j <;> simp [vec4_t.setIndex, vec4_t.index]

/-- C24 at the layouts of `vec2_t<float>`, `vec3_t<float>` and `vec4_t<float>` with
`sizeof(float) = 4`: members at bytes 0, 4, 8, 12. The vector `(1,2,3,4)` reads back
1, 2, 3, 4, and `v[2] = 9` on `(1,2,3)` gives `(1,2,9)`. -/
theorem vec_index_aliases_fields_witness :
    ((⟨4, 0, 4⟩ : vec2_layout).WellFormed ∧ (⟨4, 0, 4, 8⟩ : vec3_layout).WellFormed ∧
      (⟨4, 0, 4, 8, 12⟩ : vec4_layout).WellFormed) ∧
    ((⟨1, 2, 3, 4⟩ : vec4_t ℤ).castIndex ⟨4, 0, 4, 8, 12⟩ 0 = some 1 ∧
      (⟨1, 2, 3, 4⟩ : vec4_t ℤ).castIndex ⟨4, 0, 4, 8, 12⟩ 1 = some 2 ∧
      (⟨1, 2, 3, 4⟩ : vec4_t ℤ).castIndex ⟨4, 0, 4, 8, 12⟩ 2 = some 3 ∧
      (⟨1, 2, 3, 4⟩ : vec4_t ℤ).castIndex ⟨4, 0, 4, 8, 12⟩ 3 = some 4) ∧
    (⟨1, 2, 3⟩ : vec3_t ℤ).castSetIndex ⟨4, 0, 4, 8⟩ 2 9 = some ⟨1, 2, 9⟩ :=
  ⟨⟨by decide, by decide, by decide⟩,
   (vec_index_aliases_fields (T := ℤ) ⟨4, 0, 4⟩ ⟨4, 0, 4, 8⟩ ⟨4, 0, 4, 8, 12⟩
      (by decide) (by decide) (by decide)).2.2.2.2.2.2.2.2.2.2,
   ((vec_index_aliases_fields (T := ℤ) ⟨4, 0, 4⟩ ⟨4, 0, 4, 8⟩ ⟨4, 0, 4, 8, 12⟩
      (by decide) (by decide) (by decide)).2.2.2.2.2.1 ⟨1, 2, 3⟩ 9).2.2⟩

/-- C25: for `N` in 2, 3, 4 and every vector `v`, `v + (-v)` is the zero vector: exactly,
over any additive group of scalars (the integers, an exact field), and it compares `==` to
`zero` under the epsilon policy for floating scalars. -/
theorem vec_add_neg_eq_zero {R : Type} [AddGroup R] {T : Type} [LinearOrderedField T] :
    (∀ v : vec2_t R, v.add v.neg = vec2_t.zero) ∧
    (∀ v : vec3_t R, v.add v.neg = vec3_t.zero) ∧
    (∀ v : vec4_t R, v.add v.neg = vec4_t.zero) ∧
    (∀ v : vec2_t T, (v.add v.neg).eqFloat vec2_t.zero = true) ∧
    (∀ v : vec3_t T, (v.add v.neg).eqFloat vec3_t.zero = true) ∧
    (∀ v : vec4_t T, (v.add v.neg).eqFloat vec4_t.zero = true) := by
  refine ⟨?_, ?_, ?_, ?_, ?_, ?_⟩
  · intro v; simp [vec2_t.add, vec2_t.neg, vec2_t.zero]
  · intro v; simp [vec3_t.add, vec3_t.neg, vec3_t.zero]
  · intro v; simp [vec4_t.add, vec4_t.neg, vec4_t.zero]
  · intro v; simp [vec2_t.add, vec2_t.neg, vec2_t.zero, vec2_t.eqFloat, LINALG_FEQUAL_self]
  · intro v; simp [vec3_t.add, vec3_t.neg, vec3_t.zero, vec3_t.eqFloat, LINALG_FEQUAL_self]
  · intro v; simp [vec4_t.add, vec4_t.neg, vec4_t.zero, vec4_t.eqFloat, LINALG_FEQUAL_self]

/-! ## Swizzling -/

/-- The index `LINALG_SWIZZLE_INDEX` of `vec4_t` assigns is the channel of the
specification: the lower-case `'x'`, which no test names, reaches the final `else`. -/
theorem vec4_swizzle_index_eq (c : Char) :
    vec4_t.LINALG_SWIZZLE_INDEX c = (swizzleChannel c).val := by
  by_cases hx : c = 'x'
  · subst hx
    decide
  · simp only [vec4_t.LINALG_SWIZZLE_INDEX, swizzleChannel, Bool.or_eq_true, beq_iff_eq,
      List.mem_cons, List.mem_singleton, List.not_mem_nil, or_false, hx, false_or,
      or_assoc, or_self_left]
    split_ifs <;> rfl

/-- An `int` index below 4 reads the component. -/
theorem vec4_indexInt_val {T : Type} (v : vec4_t T) (i : Fin 4) :
    v.indexInt i.val = some (v.index i) := by
  simp [vec4_t.indexInt]

/-- C23: for every 4-vector `v` and all selector characters,
`v.swizzle(c1,c2,c3,c4) = (v[idx(c1)], v[idx(c2)], v[idx(c3)], v[idx(c4)])`, where `idx`
maps, without regard to case, `x/r/s` to 0, `y/g/t` to 1, `z/b/p` to 2, `w/a/q` to 3 and
every other character to 0; the 2- and 3-selector overloads gather the same way into a
`Vector2` / `Vector3`; no read is out of range; and `Vector3(1,2,3).swizzle('z','y','x')`
is `Vector3(3,2,1)`. -/
theorem vec4_swizzle_gathers {T : Type} :
    (∀ c : Char, vec4_t.LINALG_SWIZZLE_INDEX c = (swizzleChannel c).val) ∧
    (∀ (v : vec4_t T) (c1 c2 c3 c4 : Char),
      v.swizzle4 c1 c2 c3 c4
        = some ⟨v.index (swizzleChannel c1), v.index (swizzleChannel c2),
                v.index (swizzleChannel c3), v.index (swizzleChannel c4)⟩) ∧
    (∀ (v : vec4_t T) (c1 c2 c3 : Char),
      v.swizzle3 c1 c2 c3
        = some ⟨v.index (swizzleChannel c1), v.index (swizzleChannel c2),
                v.index (swizzleChannel c3)⟩) ∧
    (∀ (v : vec4_t T) (c1 c2 : Char),
      v.swizzle2 c1 c2 = some ⟨v.index (swizzleChannel c1), v.index (swizzleChannel c2)⟩) ∧
    (⟨1, 2, 3⟩ : vec3_t ℤ).swizzle3 'z' 'y' 'x' = some ⟨3, 2, 1⟩ := by
  refine ⟨vec4_swizzle_index_eq, ?_, ?_, ?_, by decide⟩
  · intro v c1 c2 c3 c4
    simp [vec4_t.swizzle4, vec4_swizzle_index_eq, vec4_indexInt_val]
  · intro v c1 c2 c3
    simp [vec4_t.swizzle3, vec4_swizzle_index_eq, vec4_indexInt_val]
  · intro v c1 c2
    simp [vec4_t.swizzle2, vec4_swizzle_index_eq, vec4_indexInt_val]

/-! ## Layout and construction of matrices -/

/-- The loop of `mat2_t(const T values[4])` fills all four slots. -/
theorem mat2_ofArray_eq {T : Type} [Zero T] (a : Nat → T) :
    mat2_t.ofArray a = ⟨⟨a 0, a 1⟩, ⟨a 2, a 3⟩⟩ := rfl

/-- The loop of `mat3_t(const T values[9])` fills all nine slots. -/
theorem mat3_ofArray_eq {T : Type} [Zero T] (a : Nat → T) :
    mat3_t.ofArray a = ⟨⟨a 0, a 1, a 2⟩, ⟨a 3, a 4, a 5⟩, ⟨a 6, a 7, a 8⟩⟩ := rfl

/-- The loop of `mat4_t(const T values[16])` fills all sixteen slots. -/
theorem mat4_ofArray_eq {T : Type} [Zero T] (a : Nat → T) :
    mat4_t.ofArray a
      = ⟨⟨a 0, a 1, a 2, a 3⟩, ⟨a 4, a 5, a 6, a 7⟩, ⟨a 8, a 9, a 10, a 11⟩,
         ⟨a 12, a 13, a 14, a 15⟩⟩ := rfl

/-- C26: column-major layout. For `N` in 2, 3, 4 and a matrix `M` constructed from a flat
array `a` of `N*N` scalars, flat slot `i` holds `a[i]` and `M.value(r,c) = a[c*N + r]`; in
every matrix flat slot `i` is row `i mod N` of column `i div N`; and for every matrix
`col(c)[r] = row(r)[c] = value(r,c) = M[c][r]`. -/
theorem mat_column_major_layout {T : Type} [Zero T] :
    (∀ (a : Nat → T),
      (∀ i : Fin 4, (mat2_t.ofArray a).flat i = a i.val) ∧
      (∀ r c : Fin 2, (mat2_t.ofArray a).value r c = a (c.val * 2 + r.val))) ∧
    (∀ (a : Nat → T),
      (∀ i : Fin 9, (mat3_t.ofArray a).flat i = a i.val) ∧
      (∀ r c : Fin 3, (mat3_t.ofArray a).value r c = a (c.val * 3 + r.val))) ∧
    (∀ (a : Nat → T),
      (∀ i : Fin 16, (mat4_t.ofArray a).flat i = a i.val) ∧
      (∀ r c : Fin 4, (mat4_t.ofArray a).value r c = a (c.val * 4 + r.val))) ∧
    (∀ (M : mat2_t T) (i : Fin 4),
      M.flat i = M.value ⟨i.val % 2, Nat.mod_lt _ (by decide)⟩
        ⟨i.val / 2, Nat.div_lt_of_lt_mul i.isLt⟩) ∧
    (∀ (M : mat3_t T) (i : Fin 9),
      M.flat i = M.value ⟨i.val % 3, Nat.mod_lt _ (by decide)⟩
        ⟨i.val / 3, Nat.div_lt_of_lt_mul i.isLt⟩) ∧
    (∀ (M : mat4_t T) (i : Fin 16),
      M.flat i = M.value ⟨i.val % 4, Nat.mod_lt _ (by decide)⟩
        ⟨i.val / 4, Nat.div_lt_of_lt_mul i.isLt⟩) ∧
    (∀ (M : mat2_t T) (r c : Fin 2),
      (M.col c).index r = M.value r c ∧ (M.row r).index c = M.value r c ∧
      (M.index c).index r = M.value r c) ∧
    (∀ (M : mat3_t T) (r c : Fin 3),
      (M.col c).index r = M.value r c ∧ (M.row r).index c = M.value r c ∧
      (M.index c).index r = M.value r c) ∧
    (∀ (M : mat4_t T) (r c : Fin 4),
      (M.col c).index r = M.value r c ∧ (M.row r).index c = M.value r c ∧
      (M.index c).index r = M.value r c) := by
  refine ⟨?_, ?_, ?_, fun M i => rfl, fun M i => rfl, fun M i => rfl, ?_, ?_, ?_⟩
  · intro a
    rw [mat2_ofArray_eq]
    refine ⟨?_, ?_⟩
    · intro i; fin_cases i <;> rfl
    · intro r c; fin_cases r <;> fin_cases c <;> rfl
  · intro a
    rw [mat3_ofArray_eq]
    refine ⟨?_, ?_⟩
    · intro i; fin_cases i <;> rfl
    · intro r c; fin_cases r <;> fin_cases c <;> rfl
  · intro a
    rw [mat4_ofArray_eq]
    refine ⟨?_, ?_⟩
    · intro i; fin_cases i <;> rfl
    · intro r c; fin_cases r <;> fin_cases c <;> rfl
  · intro M r c
    refine ⟨rfl, ?_, rfl⟩
    fin_cases r <;> fin_cases c <;> rfl
  · intro M r c
    refine ⟨rfl, ?_, rfl⟩
    fin_cases r <;> fin_cases c <;> rfl
  · intro M r c
    refine ⟨rfl, ?_, rfl⟩
    fin_cases r <;> fin_cases c <;> rfl

/-- C27: promotion embeds with identity padding. For every 3x3 matrix `m`, `P = Matrix4(m)`
has `P.value(r,c) = m.value(r,c)` for all `r, c < 3`, `P.value(3,3) = 1`, and
`P.value(r,3) = 0`, `P.value(3,c) = 0` for `r, c < 3`. -/
theorem mat4_ofMat3_identity_padding {T : Type} [Zero T] [One T] (m : mat3_t T) :
    (∀ r c : Fin 3, (mat4_t.ofMat3 m).value r.castSucc c.castSucc = m.value r c) ∧
    (mat4_t.ofMat3 m).value 3 3 = 1 ∧
    (∀ r : Fin 3, (mat4_t.ofMat3 m).value r.castSucc 3 = 0) ∧
    (∀ c : Fin 3, (mat4_t.ofMat3 m).value 3 c.castSucc = 0) := by
  refine ⟨?_, rfl, ?_, ?_⟩
  · intro r c; fin_cases r <;> fin_cases c <;> rfl
  · intro r; fin_cases r <;> rfl
  · intro c; fin_cases c <;> rfl

/-- C28, evaluated on the code at the array `a = {1, 2, 3, 4}` (`a[i] = i + 1`) over the
integers: the `Vector4` constructed from `a` is `(1,1,1,1)`, so its component 1 is 1 while
`a[1]` is 2; the `Vector3` and `Vector2` constructors give `(1,2,3)` and `(1,2)`. -/
theorem vec4_ofPointer_at_failing_input :
    vec4_t.ofPointer (fun i => (i : ℤ) + 1) = ⟨1, 1, 1, 1⟩ ∧
    (vec4_t.ofPointer (fun i => (i : ℤ) + 1)).index 1 = 1 ∧
    (fun i => (i : ℤ) + 1) 1 = 2 ∧
    vec3_t.ofPointer (fun i => (i : ℤ) + 1) = ⟨1, 2, 3⟩ ∧
    vec2_t.ofPointer (fun i => (i : ℤ) + 1) = ⟨1, 2⟩ := by
  decide

/-! ## Classification and clamping -/

/-- C29: `isParallelTo(a,b)` is true exactly when `dot(a,b)` is within epsilon of 1 (equal
to 1 for exact scalars). Hence `u.isParallelTo(u)` is `u.isUnitVector()`, true for every
unit vector `u`; the parallel pair `a = b = (2,0,0)` (cross product zero) is not reported
parallel; and the pair `(1,5,0)`, `(1,0,0)`, which is not parallel (cross product non-zero),
is reported parallel. -/
theorem vec3_isParallelTo_dot_one {T : Type} [LinearOrderedField T] {R : Type} [CommRing R]
    [DecidableEq R] :
    (∀ a b : vec3_t T, a.isParallelToFloat b = true ↔ |a.dot b - 1| < LINALG_EPSILON) ∧
    (∀ a b : vec3_t R, a.isParallelTo b = true ↔ a.dot b = 1) ∧
    (∀ u : vec3_t T, u.isParallelToFloat u = u.isUnitVector) ∧
    (∀ u : vec3_t T, u.lengthSquared = 1 → u.isParallelToFloat u = true) ∧
    ((⟨2, 0, 0⟩ : vec3_t T).cross ⟨2, 0, 0⟩ = ⟨0, 0, 0⟩ ∧
      (⟨2, 0, 0⟩ : vec3_t T).isParallelToFloat ⟨2, 0, 0⟩ = false) ∧
    ((⟨1, 5, 0⟩ : vec3_t T).cross ⟨1, 0, 0⟩ ≠ ⟨0, 0, 0⟩ ∧
      (⟨1, 5, 0⟩ : vec3_t T).isParallelToFloat ⟨1, 0, 0⟩ = true) ∧
    ((⟨2, 0, 0⟩ : vec3_t ℤ).isParallelTo ⟨2, 0, 0⟩ = false ∧
      (⟨1, 5, 0⟩ : vec3_t ℤ).isParallelTo ⟨1, 0, 0⟩ = true) := by
  have he : (LINALG_EPSILON : T) = 1 / 10000 := by simp [LINALG_EPSILON]
  refine ⟨?_, ?_, fun u => rfl, ?_, ⟨?_, ?_⟩, ⟨?_, ?_⟩, by decide⟩
  · intro a b
    simp only [vec3_t.isParallelToFloat, LINALG_FEQUAL_iff_abs]
  · intro a b
    simp only [vec3_t.isParallelTo, decide_eq_true_eq]
  · intro u hu
    have hd : u.dot u = 1 := hu
    simp only [vec3_t.isParallelToFloat, hd]
    exact LINALG_FEQUAL_self 1
  · simp [vec3_t.cross]
  · rw [← Bool.not_eq_true, vec3_t.isParallelToFloat, LINALG_FEQUAL_iff_abs, he]
    norm_num [vec3_t.dot]
  · intro h
    have hz := congrArg vec3_t.z h
    norm_num [vec3_t.cross] at hz
  · rw [vec3_t.isParallelToFloat, LINALG_FEQUAL_iff_abs, he]
    norm_num [vec3_t.dot]

/-- The conditional of `min` on scalars is the minimum. -/
theorem min_scalar {T : Type} [LinearOrder T] (a b : T) :
    (if a < b then a else b) = min a b := by
  by_cases h : a < b
  · simp [h, min_eq_left (le_of_lt h)]
  · simp [h, min_eq_right (not_lt.mp h)]

/-- The conditional of `max` on scalars is the maximum. -/
theorem max_scalar {T : Type} [LinearOrder T] (a b : T) :
    (if a > b then a else b) = max a b := by
  by_cases h : a > b
  · simp [h, max_eq_left (le_of_lt h)]
  · simp [h, max_eq_right (not_lt.mp h)]

/-- One component of `clamp`: `max(min(v, hi), lo)` written with the conditionals of the
source. -/
theorem clamp_scalar {T : Type} [LinearOrder T] (v lo hi : T) (h : lo ≤ hi) :
    lo ≤ (if (if v < hi then v else hi) > lo then (if v < hi then v else hi) else lo) ∧
    (if (if v < hi then v else hi) > lo then (if v < hi then v else hi) else lo) ≤ hi ∧
    (lo ≤ v → v ≤ hi →
      (if (if v < hi then v else hi) > lo then (if v < hi then v else hi) else lo) = v) := by
  rw [min_scalar, max_scalar]
  refine ⟨le_max_right _ _, max_le (min_le_right v hi) h, ?_⟩
  intro h3 h4
  rw [min_eq_left h4, max_eq_left h3]

/-- C30: for `N` in 2, 3, 4 and all vectors `v`, `lo`, `hi` with `lo ≤ hi` component-wise,
every component of `v.clamp(lo,hi)` lies in `[lo_i, hi_i]` and equals `v_i` whenever
`lo_i ≤ v_i ≤ hi_i`; `min` and `max` return the component-wise minimum and maximum of
their two operands. The scalars are linearly ordered. -/
theorem vec_clamp_min_max {T : Type} [LinearOrder T] :
    (∀ v lo hi : vec2_t T, (∀ i : Fin 2, lo.index i ≤ hi.index i) →
      ∀ i : Fin 2, lo.index i ≤ (v.clamp lo hi).index i ∧
        (v.clamp lo hi).index i ≤ hi.index i ∧
        (lo.index i ≤ v.index i → v.index i ≤ hi.index i →
          (v.clamp lo hi).index i = v.index i)) ∧
    (∀ v lo hi : vec3_t T, (∀ i : Fin 3, lo.index i ≤ hi.index i) →
      ∀ i : Fin 3, lo.index i ≤ (v.clamp lo hi).index i ∧
        (v.clamp lo hi).index i ≤ hi.index i ∧
        (lo.index i ≤ v.index i → v.index i ≤ hi.index i →
          (v.clamp lo hi).index i = v.index i)) ∧
    (∀ v lo hi : vec4_t T, (∀ i : Fin 4, lo.index i ≤ hi.index i) →
      ∀ i : Fin 4, lo.index i ≤ (v.clamp lo hi).index i ∧
        (v.clamp lo hi).index i ≤ hi.index i ∧
        (lo.index i ≤ v.index i → v.index i ≤ hi.index i →
          (v.clamp lo hi).index i = v.index i)) ∧
    (∀ (a b : vec2_t T) (i : Fin 2),
      (a.min b).index i = min (a.index i) (b.index i) ∧
      (a.max b).index i = max (a.index i) (b.index i)) ∧
    (∀ (a b : vec3_t T) (i : Fin 3),
      (a.min b).index i = min (a.index i) (b.index i) ∧
      (a.max b).index i = max (a.index i) (b.index i)) ∧
    (∀ (a b : vec4_t T) (i : Fin 4),
      (a.min b).index i = min (a.index i) (b.index i) ∧
      (a.max b).index i = max (a.index i) (b.index i)) := by
  refine ⟨?_, ?_, ?_, ?_, ?_, ?_⟩
  · intro v lo hi h i
    have hi' := h i
    fin_cases i <;> exact clamp_scalar _ _ _ hi'
  · intro v lo hi h i
    have hi' := h i
    fin_cases i <;> exact clamp_scalar _ _ _ hi'
  · intro v lo hi h i
    have hi' := h i
    fin_cases i <;> exact clamp_scalar _ _ _ hi'
  · intro a b i
    fin_cases i <;> exact ⟨min_scalar _ _, max_scalar _ _⟩
  · intro a b i
    fin_cases i <;> exact ⟨min_scalar _ _, max_scalar _ _⟩
  · intro a b i
    fin_cases i <;> exact ⟨min_scalar _ _, max_scalar _ _⟩

/-- C30 at `v = (-5,3,12)`, `lo = (0,0,0)`, `hi = (10,10,10)` over the integers:
`v.clamp(lo,hi)` is `(0,3,10)`. -/
theorem vec_clamp_min_max_witness :
    (∀ i : Fin 3, (⟨0, 0, 0⟩ : vec3_t ℤ).index i ≤ (⟨10, 10, 10⟩ : vec3_t ℤ).index i) ∧
    (⟨-5, 3, 12⟩ : vec3_t ℤ).clamp ⟨0, 0, 0⟩ ⟨10, 10, 10⟩ = ⟨0, 3, 10⟩ ∧
    (0 : ℤ) ≤ ((⟨-5, 3, 12⟩ : vec3_t ℤ).clamp ⟨0, 0, 0⟩ ⟨10, 10, 10⟩).index 0 :=
  ⟨by decide, by decide,
   ((vec_clamp_min_max (T := ℤ)).2.1 ⟨-5, 3, 12⟩ ⟨0, 0, 0⟩ ⟨10, 10, 10⟩ (by decide) 0).1⟩

/-- C29 at the unit vector `u = (3/5, 4/5, 0)` over the rationals. -/
theorem vec3_isParallelTo_dot_one_witness :
    (⟨3 / 5, 4 / 5, 0⟩ : vec3_t ℚ).lengthSquared = 1 ∧
    (⟨3 / 5, 4 / 5, 0⟩ : vec3_t ℚ).isParallelToFloat ⟨3 / 5, 4 / 5, 0⟩ = true :=
  ⟨by norm_num [vec3_t.lengthSquared],
   (vec3_isParallelTo_dot_one (T := ℚ) (R := ℤ)).2.2.2.1 ⟨3 / 5, 4 / 5, 0⟩
     (by norm_num [vec3_t.lengthSquared])⟩

/-! ## The rotation matrix is orthogonal -/

/-- The matrix `rotate` builds from the identity, column by column. -/
theorem mat4_rotate_identity_eq {T : Type} [LinearOrderedField T] (sqrt sin cos : T → T)
    (radians x y z : T) :
    (mat4_t.identity : mat4_t T).rotate sqrt sin cos radians ⟨x, y, z⟩ =
      ⟨⟨x * x * (1 - cos radians) + cos radians,
        x * y * (1 - cos radians) - z * sin radians,
        x * z * (1 - cos radians) + y * sin radians, 0⟩,
       ⟨y * x * (1 - cos radians) + z * sin radians,
        y * y * (1 - cos radians) + cos radians,
        y * z * (1 - cos radians) - x * sin radians, 0⟩,
       ⟨x * z * (1 - cos radians) - y * sin radians,
        y * z * (1 - cos radians) + x * sin radians,
        z * z * (1 - cos radians) + cos radians, 0⟩,
       ⟨0, 0, 0, 1⟩⟩ := by
  simp only [mat4_t.rotate, mat4_mul_identity_left, mat4_t.ofScalars]

/-- The product of the rotation matrix with its transpose. -/
theorem mat4_rotation_mul_transpose {T : Type} [CommRing T] (x y z s c : T)
    (hsc : s * s + c * c = 1) (hk : x * x + y * y + z * z = 1) :
    (⟨⟨x * x * (1 - c) + c, x * y * (1 - c) - z * s, x * z * (1 - c) + y * s, 0⟩,
      ⟨y * x * (1 - c) + z * s, y * y * (1 - c) + c, y * z * (1 - c) - x * s, 0⟩,
      ⟨x * z * (1 - c) - y * s, y * z * (1 - c) + x * s, z * z * (1 - c) + c, 0⟩,
      ⟨0, 0, 0, 1⟩⟩ : mat4_t T).mul
      (⟨⟨x * x * (1 - c) + c, x * y * (1 - c) - z * s, x * z * (1 - c) + y * s, 0⟩,
        ⟨y * x * (1 - c) + z * s, y * y * (1 - c) + c, y * z * (1 - c) - x * s, 0⟩,
        ⟨x * z * (1 - c) - y * s, y * z * (1 - c) + x * s, z * z * (1 - c) + c, 0⟩,
        ⟨0, 0, 0, 1⟩⟩ : mat4_t T).transpose = mat4_t.identity := by
  rw [mat4_mul_eq]
  simp only [mat4_t.transpose, mat4_t.index, mat4_t.row, mat4_t.col, vec4_t.index,
    vec4_t.dot, mat4_t.identity, mat4_t.diag, mat4_t.mk.injEq, vec4_t.mk.injEq]
  refine ⟨⟨?_, ?_, ?_, ?_⟩, ⟨?_, ?_, ?_, ?_⟩, ⟨?_, ?_, ?_, ?_⟩, ⟨?_, ?_, ?_, ?_⟩⟩
  · linear_combination ((1 - c) * (1 - c) * (x * x) + s * s) * hk + (1 - x * x) * hsc
  · linear_combination (x * y) * ((1 - c) * (1 - c)) * hk - (x * y) * hsc
  · linear_combination (x * z) * ((1 - c) * (1 - c)) * hk - (x * z) * hsc
  · ring1
  · linear_combination (x * y) * ((1 - c) * (1 - c)) * hk - (x * y) * hsc
  · linear_combination ((1 - c) * (1 - c) * (y * y) + s * s) * hk + (1 - y * y) * hsc
  · linear_combination (y * z) * ((1 - c) * (1 - c)) * hk - (y * z) * hsc
  · ring1
  · linear_combination (x * z) * ((1 - c) * (1 - c)) * hk - (x * z) * hsc
  · linear_combination (y * z) * ((1 - c) * (1 - c)) * hk - (y * z) * hsc
  · linear_combination ((1 - c) * (1 - c) * (z * z) + s * s) * hk + (1 - z * z) * hsc
  · ring1
  · ring1
  · ring1
  · ring1
  · ring1
/-- The determinant of the rotation matrix. -/
theorem mat4_rotation_determinant {T : Type} [CommRing T] (x y z s c : T)
    (hsc : s * s + c * c = 1) (hk : x * x + y * y + z * z = 1) :
    (⟨⟨x * x * (1 - c) + c, x * y * (1 - c) - z * s, x * z * (1 - c) + y * s, 0⟩,
      ⟨y * x * (1 - c) + z * s, y * y * (1 - c) + c, y * z * (1 - c) - x * s, 0⟩,
      ⟨x * z * (1 - c) - y * s, y * z * (1 - c) + x * s, z * z * (1 - c) + c, 0⟩,
      ⟨0, 0, 0, 1⟩⟩ : mat4_t T).determinant = 1 := by
  simp only [mat4_t.determinant, mat4_t.index, vec4_t.index]
  linear_combination
    (s * s + (1 - c) * (c * c + s * s * (x * x + y * y + z * z))) * hk + hsc

/-- Multiplying by the rotation matrix preserves dot products. -/
theorem mat4_rotation_dot {T : Type} [CommRing T] (x y z s c : T)
    (hsc : s * s + c * c = 1) (hk : x * x + y * y + z * z = 1) (v w : vec4_t T) :
    ((⟨⟨x * x * (1 - c) + c, x * y * (1 - c) - z * s, x * z * (1 - c) + y * s, 0⟩,
      ⟨y * x * (1 - c) + z * s, y * y * (1 - c) + c, y * z * (1 - c) - x * s, 0⟩,
      ⟨x * z * (1 - c) - y * s, y * z * (1 - c) + x * s, z * z * (1 - c) + c, 0⟩,
      ⟨0, 0, 0, 1⟩⟩ : mat4_t T).mulVec v).dot
      ((⟨⟨x * x * (1 - c) + c, x * y * (1 - c) - z * s, x * z * (1 - c) + y * s, 0⟩,
        ⟨y * x * (1 - c) + z * s, y * y * (1 - c) + c, y * z * (1 - c) - x * s, 0⟩,
        ⟨x * z * (1 - c) - y * s, y * z * (1 - c) + x * s, z * z * (1 - c) + c, 0⟩,
        ⟨0, 0, 0, 1⟩⟩ : mat4_t T).mulVec w) = v.dot w := by
  obtain ⟨v0, v1, v2, v3⟩ := v
  obtain ⟨w0, w1, w2, w3⟩ := w
  simp only [mat4_t.mulVec, mat4_t.index, vec4_t.dot]
  linear_combination
    ((v0 * w0 + v1 * w1 + v2 * w2) * (s * s)
      + (x * v0 + y * v1 + z * v2) * (x * w0 + y * w1 + z * w2) * ((1 - c) * (1 - c))) * hk
    + ((v0 * w0 + v1 * w1 + v2 * w2)
      - (x * v0 + y * v1 + z * v2) * (x * w0 + y * w1 + z * w2)) * hsc

/-- C32: for every angle `θ` with `sin²θ + cos²θ = 1` and every axis `k` of squared length
exactly 1, the matrix `R = Matrix4.identity().rotate(θ, k)` is orthogonal and
orientation-preserving: `R * transpose(R) = identity` and `determinant(R) = 1`; and
multiplying by `R` preserves dot products and squared lengths. -/
theorem mat4_rotate_orthogonal {T : Type} [LinearOrderedField T] (sqrt sin cos : T → T)
    (radians : T) (k : vec3_t T)
    (hsc : sin radians * sin radians + cos radians * cos radians = 1)
    (hk : k.lengthSquared = 1) :
    ((mat4_t.identity : mat4_t T).rotate sqrt sin cos radians k).mul
        ((mat4_t.identity : mat4_t T).rotate sqrt sin cos radians k).transpose
      = mat4_t.identity ∧
    ((mat4_t.identity : mat4_t T).rotate sqrt sin cos radians k).determinant = 1 ∧
    (∀ v w : vec4_t T,
      (((mat4_t.identity : mat4_t T).rotate sqrt sin cos radians k).mulVec v).dot
          (((mat4_t.identity : mat4_t T).rotate sqrt sin cos radians k).mulVec w)
        = v.dot w) ∧
    (∀ v : vec4_t T,
      (((mat4_t.identity : mat4_t T).rotate sqrt sin cos radians k).mulVec v).lengthSquared
        = v.lengthSquared) := by
  obtain ⟨x, y, z⟩ := k
  simp only [vec3_t.lengthSquared] at hk
  rw [mat4_rotate_identity_eq]
  exact ⟨mat4_rotation_mul_transpose x y z _ _ hsc hk,
    mat4_rotation_determinant x y z _ _ hsc hk,
    fun v w => mat4_rotation_dot x y z _ _ hsc hk v w,
    fun v => mat4_rotation_dot x y z _ _ hsc hk v v⟩

/-- C32 over the reals, at the angle of one radian about the axis `(0, 0, 1)`. -/
theorem mat4_rotate_orthogonal_witness :
    (Real.sin 1 * Real.sin 1 + Real.cos 1 * Real.cos 1 = 1 ∧
      (⟨0, 0, 1⟩ : vec3_t ℝ).lengthSquared = 1) ∧
    ((mat4_t.identity : mat4_t ℝ).rotate Real.sqrt Real.sin Real.cos 1 ⟨0, 0, 1⟩).mul
        ((mat4_t.identity : mat4_t ℝ).rotate Real.sqrt Real.sin Real.cos 1
          ⟨0, 0, 1⟩).transpose
      = mat4_t.identity ∧
    ((mat4_t.identity : mat4_t ℝ).rotate Real.sqrt Real.sin Real.cos 1
      ⟨0, 0, 1⟩).determinant = 1 :=
  ⟨⟨by rw [← sq, ← sq]; exact Real.sin_sq_add_cos_sq 1,
    by norm_num [vec3_t.lengthSquared]⟩,
   (mat4_rotate_orthogonal Real.sqrt Real.sin Real.cos 1 ⟨0, 0, 1⟩
      (by rw [← sq, ← sq]; exact Real.sin_sq_add_cos_sq 1)
      (by norm_num [vec3_t.lengthSquared])).1,
   (mat4_rotate_orthogonal Real.sqrt Real.sin Real.cos 1 ⟨0, 0, 1⟩
      (by rw [← sq, ← sq]; exact Real.sin_sq_add_cos_sq 1)
      (by norm_num [vec3_t.lengthSquared])).2.1⟩

/-! ## The view and perspective matrices at chosen points -/

/-- C33: the view matrix moves the camera to the origin. For all `eye`, `at_` and `up`,
`Matrix4.identity().lookAt(eye, at_, up) * (eye.x, eye.y, eye.z, 1) = (0, 0, 0, 1)`. -/
theorem mat4_lookAt_eye_to_origin {T : Type} [LinearOrderedField T] (sqrt : T → T)
    (eye at_ up : vec3_t T) :
    ((mat4_t.identity : mat4_t T).lookAt sqrt eye at_ up).mulVec ⟨eye.x, eye.y, eye.z, 1⟩
      = ⟨0, 0, 0, 1⟩ := by
  simp only [mat4_t.lookAt, mat4_mul_identity_left, mat4_t.mulVec, mat4_t.index,
    mat4_t.ofScalars, vec3_t.dot, vec4_t.mk.injEq]
  refine ⟨?_, ?_, ?_, ?_⟩ <;> ring

/-- C34, amended: for all `fov` and `aspect` with `tan(fov * LINALG_DEG2RAD * 0.5) ≠ 0` and
`aspect ≠ 0`, and all `zNear`, `zFar` with `zNear ≠ 0`, `zFar ≠ 0` and `zNear ≠ zFar`,
`Matrix4.identity().perspective(fov, aspect, zNear, zFar)` divides by no zero, and the
matrix `P` it builds maps the near and far planes to depth -1 and +1 after the perspective
divide: with `q = P * (0, 0, -zNear, 1)`, `q.z / q.w = -1`, and with
`q' = P * (0, 0, -zFar, 1)`, `q'.z / q'.w = 1`. -/
theorem mat4_perspective_maps_depth {T : Type} [LinearOrderedField T] (tan : T → T)
    (fov aspect zNear zFar : T) (hn : zNear ≠ 0) (hf : zFar ≠ 0) (hnf : zNear ≠ zFar)
    (ht : tan (fov * LINALG_DEG2RAD * (1 / 2)) ≠ 0) (ha : aspect ≠ 0) :
    ∃ P : mat4_t T,
      (mat4_t.identity : mat4_t T).perspective tan fov aspect zNear zFar = some P ∧
      (P.mulVec ⟨0, 0, -zNear, 1⟩).z / (P.mulVec ⟨0, 0, -zNear, 1⟩).w = -1 ∧
      (P.mulVec ⟨0, 0, -zFar, 1⟩).z / (P.mulVec ⟨0, 0, -zFar, 1⟩).w = 1 := by
  have hd : zFar - zNear ≠ 0 := sub_ne_zero.mpr (Ne.symm hnf)
  have hr : tan (fov * LINALG_DEG2RAD * (1 / 2)) * zNear ≠ 0 := mul_ne_zero ht hn
  have hra : tan (fov * LINALG_DEG2RAD * (1 / 2)) * zNear * aspect
      + tan (fov * LINALG_DEG2RAD * (1 / 2)) * zNear * aspect ≠ 0 := by
    rw [← two_mul]
    exact mul_ne_zero two_ne_zero (mul_ne_zero hr ha)
  have hcond : ¬ (tan (fov * LINALG_DEG2RAD * (1 / 2)) * zNear * aspect
      + tan (fov * LINALG_DEG2RAD * (1 / 2)) * zNear * aspect = 0 ∨
      tan (fov * LINALG_DEG2RAD * (1 / 2)) * zNear = 0 ∨ zFar - zNear = 0) := by
    rintro (h | h | h)
    · exact hra h
    · exact hr h
    · exact hd h
  have hP : (mat4_t.identity : mat4_t T).perspective tan fov aspect zNear zFar =
      some ((mat4_t.identity : mat4_t T).mul
        ⟨⟨(zNear * 2) / (tan (fov * LINALG_DEG2RAD * (1 / 2)) * zNear * aspect
            + tan (fov * LINALG_DEG2RAD * (1 / 2)) * zNear * aspect), 0, 0, 0⟩,
         ⟨0, zNear / (tan (fov * LINALG_DEG2RAD * (1 / 2)) * zNear), 0, 0⟩,
         ⟨0, 0, -(zFar + zNear) / (zFar - zNear), -1⟩,
         ⟨0, 0, -(zFar * zNear * 2) / (zFar - zNear), 0⟩⟩) := by
    simp only [mat4_t.perspective, if_neg hcond]
  refine ⟨_, hP, ?_, ?_⟩
  · simp only [mat4_mul_identity_left, mat4_t.mulVec, mat4_t.index]
    field_simp
    ring
  · simp only [mat4_mul_identity_left, mat4_t.mulVec, mat4_t.index]
    field_simp
    ring

/-- The real tangent of `90 * LINALG_DEG2RAD * 0.5` (about 0.7854) is not 0. -/
theorem real_tan_fov_ninety_ne_zero :
    Real.tan ((90 : ℝ) * LINALG_DEG2RAD * (1 / 2)) ≠ 0 := by
  have hpi : (3 : ℝ) < Real.pi := Real.pi_gt_three
  apply ne_of_gt
  apply Real.tan_pos_of_pos_of_lt_pi_div_two
  · norm_num [LINALG_DEG2RAD, LINALG_PI]
  · have h : (90 : ℝ) * LINALG_DEG2RAD * (1 / 2) < 1 := by
      norm_num [LINALG_DEG2RAD, LINALG_PI]
    linarith

/-- C34, amended, at `fov = 90`, `aspect = 4/3`, `zNear = 1`, `zFar = 10` over the reals,
with the real tangent. -/
theorem mat4_perspective_maps_depth_witness :
    ((1 : ℝ) ≠ 0 ∧ (10 : ℝ) ≠ 0 ∧ (1 : ℝ) ≠ 10 ∧
      Real.tan ((90 : ℝ) * LINALG_DEG2RAD * (1 / 2)) ≠ 0 ∧ (4 / 3 : ℝ) ≠ 0) ∧
    ∃ P : mat4_t ℝ,
      (mat4_t.identity : mat4_t ℝ).perspective Real.tan 90 (4 / 3) 1 10 = some P ∧
      (P.mulVec ⟨0, 0, -1, 1⟩).z / (P.mulVec ⟨0, 0, -1, 1⟩).w = -1 ∧
      (P.mulVec ⟨0, 0, -10, 1⟩).z / (P.mulVec ⟨0, 0, -10, 1⟩).w = 1 :=
  ⟨⟨by norm_num, by norm_num, by norm_num, real_tan_fov_ninety_ne_zero, by norm_num⟩,
   mat4_perspective_maps_depth Real.tan 90 (4 / 3) 1 10 (by norm_num) (by norm_num)
     (by norm_num) real_tan_fov_ninety_ne_zero (by norm_num)⟩

/-- C34 as stated fails at two inputs over the reals with `zNear = 1`, `zFar = 10` (both
non-zero and distinct). For `fov = 0`, `aspect = 4/3` the real tangent of 0 is 0, so
`range = 0` and `sx` and `sy` divide by zero; for `fov = 90`, `aspect = 0` the quotient `sx`
divides by `range * 0 + range * 0 = 0`. In both cases `perspective` builds no matrix over
the exact scalars, so there is no `P` with the stated depths. -/
theorem mat4_perspective_counterexample :
    ((1 : ℝ) ≠ 0 ∧ (10 : ℝ) ≠ 0 ∧ (1 : ℝ) ≠ 10) ∧
    (mat4_t.identity : mat4_t ℝ).perspective Real.tan 0 (4 / 3) 1 10 = none ∧
    (mat4_t.identity : mat4_t ℝ).perspective Real.tan 90 0 1 10 = none ∧
    (¬ ∃ P : mat4_t ℝ,
      (mat4_t.identity : mat4_t ℝ).perspective Real.tan 0 (4 / 3) 1 10 = some P ∧
      (P.mulVec ⟨0, 0, -1, 1⟩).z / (P.mulVec ⟨0, 0, -1, 1⟩).w = -1 ∧
      (P.mulVec ⟨0, 0, -10, 1⟩).z / (P.mulVec ⟨0, 0, -10, 1⟩).w = 1) := by
  have h1 : (mat4_t.identity : mat4_t ℝ).perspective Real.tan 0 (4 / 3) 1 10 = none := by
    simp [mat4_t.perspective]
  have h2 : (mat4_t.identity : mat4_t ℝ).perspective Real.tan 90 0 1 10 = none := by
    simp [mat4_t.perspective]
  refine ⟨⟨by norm_num, by norm_num, by norm_num⟩, h1, h2, ?_⟩
  rintro ⟨P, hP, -⟩
  rw [h1] at hP
  exact Option.noConfusion hP

/-! ## The determinant inside the inverse -/

/-- The index the `vec2_t` macro assigns is 0 or 1. -/
theorem vec2_swizzle_index_lt (c : Char) : vec2_t.LINALG_SWIZZLE_INDEX c < 2 := by
  unfold vec2_t.LINALG_SWIZZLE_INDEX
  split_ifs <;> decide

/-- The index the `vec3_t` macro assigns is 0, 1 or 2. -/
theorem vec3_swizzle_index_lt (c : Char) : vec3_t.LINALG_SWIZZLE_INDEX c < 3 := by
  unfold vec3_t.LINALG_SWIZZLE_INDEX
  split_ifs <;> decide

/-- The index the `vec4_t` macro assigns is 0, 1, 2 or 3. -/
theorem vec4_swizzle_index_lt (c : Char) : vec4_t.LINALG_SWIZZLE_INDEX c < 4 := by
  unfold vec4_t.LINALG_SWIZZLE_INDEX
  split_ifs <;> decide

/-- C39: `swizzle` never indexes out of range. For every selector character and each
receiver arity `N` in 2, 3, 4, the index chosen by that class's `LINALG_SWIZZLE_INDEX`
is below `N`, so every overload of `swizzle` reads inside the receiver and returns a
vector; a selector naming a channel the receiver lacks falls back to index 0: `'z'` and
`'w'` on a `vec2`, `'w'` on a `vec3`. -/
theorem vec_swizzle_index_in_range {T : Type} :
    (∀ c : Char, vec2_t.LINALG_SWIZZLE_INDEX c < 2) ∧
    (∀ c : Char, vec3_t.LINALG_SWIZZLE_INDEX c < 3) ∧
    (∀ c : Char, vec4_t.LINALG_SWIZZLE_INDEX c < 4) ∧
    (∀ (v : vec2_t T) (x y : Char), (v.swizzle x y).isSome = true) ∧
    (∀ (v : vec3_t T) (x y : Char), (v.swizzle2 x y).isSome = true) ∧
    (∀ (v : vec3_t T) (x y z : Char), (v.swizzle3 x y z).isSome = true) ∧
    (∀ (v : vec4_t T) (x y : Char), (v.swizzle2 x y).isSome = true) ∧
    (∀ (v : vec4_t T) (x y z : Char), (v.swizzle3 x y z).isSome = true) ∧
    (∀ (v : vec4_t T) (x y z w : Char), (v.swizzle4 x y z w).isSome = true) ∧
    (vec2_t.LINALG_SWIZZLE_INDEX 'z' = 0 ∧ vec2_t.LINALG_SWIZZLE_INDEX 'w' = 0 ∧
      vec3_t.LINALG_SWIZZLE_INDEX 'w' = 0) := by
  have h2 : ∀ (v : vec2_t T) (c : Char),
      v.indexInt (vec2_t.LINALG_SWIZZLE_INDEX c)
        = some (v.index ⟨vec2_t.LINALG_SWIZZLE_INDEX c, vec2_swizzle_index_lt c⟩) :=
    fun v c => dif_pos (vec2_swizzle_index_lt c)
  have h3 : ∀ (v : vec3_t T) (c : Char),
      v.indexInt (vec3_t.LINALG_SWIZZLE_INDEX c)
        = some (v.index ⟨vec3_t.LINALG_SWIZZLE_INDEX c, vec3_swizzle_index_lt c⟩) :=
    fun v c => dif_pos (vec3_swizzle_index_lt c)
  have h4 : ∀ (v : vec4_t T) (c : Char),
      v.indexInt (vec4_t.LINALG_SWIZZLE_INDEX c)
        = some (v.index ⟨vec4_t.LINALG_SWIZZLE_INDEX c, vec4_swizzle_index_lt c⟩) :=
    fun v c => dif_pos (vec4_swizzle_index_lt c)
  refine ⟨vec2_swizzle_index_lt, vec3_swizzle_index_lt, vec4_swizzle_index_lt,
    ?_, ?_, ?_, ?_, ?_, ?_, ⟨by decide, by decide, by decide⟩⟩
  · intro v x y
    simp [vec2_t.swizzle, h2]
  · intro v x y
    simp [vec3_t.swizzle2, h3]
  · intro v x y z
    simp [vec3_t.swizzle3, h3]
  · intro v x y
    simp [vec4_t.swizzle2, h4]
  · intro v x y z
    simp [vec4_t.swizzle3, h4]
  · intro v x y z w
    simp [vec4_t.swizzle4, h4]

/-! ## Increment and decrement -/

/-- C40: for `N` in 2, 3, 4 and every vector `v`, post-increment and post-decrement return
the already-updated value rather than the old one: `v++` adds one to every component of `v`
and returns the same vector that `++v` returns, the old value plus one in every component;
likewise `v--` leaves and returns the decremented vector. The first component of each pair
is the receiver after the call, the second the value returned. -/
theorem vec_postIncrement_returns_updated {T : Type} [Ring T] :
    (∀ v : vec2_t T, v.postIncrement = (⟨v.x + 1, v.y + 1⟩, ⟨v.x + 1, v.y + 1⟩) ∧
      v.postIncrement = v.preIncrement ∧
      v.postDecrement = (⟨v.x - 1, v.y - 1⟩, ⟨v.x - 1, v.y - 1⟩) ∧
      v.postDecrement = v.preDecrement) ∧
    (∀ v : vec3_t T,
      v.postIncrement = (⟨v.x + 1, v.y + 1, v.z + 1⟩, ⟨v.x + 1, v.y + 1, v.z + 1⟩) ∧
      v.postIncrement = v.preIncrement ∧
      v.postDecrement = (⟨v.x - 1, v.y - 1, v.z - 1⟩, ⟨v.x - 1, v.y - 1, v.z - 1⟩) ∧
      v.postDecrement = v.preDecrement) ∧
    (∀ v : vec4_t T,
      v.postIncrement = (⟨v.x + 1, v.y + 1, v.z + 1, v.w + 1⟩,
        ⟨v.x + 1, v.y + 1, v.z + 1, v.w + 1⟩) ∧
      v.postIncrement = v.preIncrement ∧
      v.postDecrement = (⟨v.x - 1, v.y - 1, v.z - 1, v.w - 1⟩,
        ⟨v.x - 1, v.y - 1, v.z - 1, v.w - 1⟩) ∧
      v.postDecrement = v.preDecrement) ∧
    ((⟨1, 2, 3⟩ : vec3_t ℤ).postIncrement.2 = ⟨2, 3, 4⟩ ∧
      (⟨1, 2, 3⟩ : vec3_t ℤ).postIncrement.2 ≠ ⟨1, 2, 3⟩) := by
  refine ⟨fun v => ⟨rfl, rfl, rfl, rfl⟩, fun v => ⟨rfl, rfl, rfl, rfl⟩,
    fun v => ⟨rfl, rfl, rfl, rfl⟩, by decide, by decide⟩

/-! ## Projection and reflection -/

/-- The square of the length is the squared length. -/
theorem vec2_length_mul_self {T : Type} [LinearOrderedField T] {sqrt : T → T}
    (hsqrt : IsSqrt sqrt) (b : vec2_t T) :
    b.length sqrt * b.length sqrt = b.x * b.x + b.y * b.y :=
  (hsqrt b.lengthSquared (vec2_lengthSquared_nonneg b)).2

/-- The square of the length is the squared length. -/
theorem vec3_length_mul_self {T : Type} [LinearOrderedField T] {sqrt : T → T}
    (hsqrt : IsSqrt sqrt) (b : vec3_t T) :
    b.length sqrt * b.length sqrt = b.x * b.x + b.y * b.y + b.z * b.z :=
  (hsqrt b.lengthSquared (vec3_lengthSquared_nonneg b)).2

/-- A `vec2` other than zero has a non-zero squared length. -/
theorem vec2_lengthSquared_ne_zero {T : Type} [LinearOrderedField T] {b : vec2_t T}
    (hb : b ≠ vec2_t.zero) : b.x * b.x + b.y * b.y ≠ 0 := by
  intro h
  apply hb
  obtain ⟨x, y⟩ := b
  have hx : x = 0 := by nlinarith [mul_self_nonneg x, mul_self_nonneg y]
  have hy : y = 0 := by nlinarith [mul_self_nonneg x, mul_self_nonneg y]
  simp [vec2_t.zero, hx, hy]

/-- A `vec3` other than zero has a non-zero squared length. -/
theorem vec3_lengthSquared_ne_zero {T : Type} [LinearOrderedField T] {b : vec3_t T}
    (hb : b ≠ vec3_t.zero) : b.x * b.x + b.y * b.y + b.z * b.z ≠ 0 := by
  intro h
  apply hb
  obtain ⟨x, y, z⟩ := b
  have hx : x = 0 := by nlinarith [mul_self_nonneg x, mul_self_nonneg y, mul_self_nonneg z]
  have hy : y = 0 := by nlinarith [mul_self_nonneg x, mul_self_nonneg y, mul_self_nonneg z]
  have hz : z = 0 := by nlinarith [mul_self_nonneg x, mul_self_nonneg y, mul_self_nonneg z]
  simp [vec3_t.zero, hx, hy, hz]

/-- The components of `vec2_t::project`. -/
theorem vec2_project_eq {T : Type} [LinearOrderedField T] {sqrt : T → T}
    (hsqrt : IsSqrt sqrt) (a b : vec2_t T) :
    a.project sqrt b =
      ⟨(a.x * b.x + a.y * b.y) / (b.x * b.x + b.y * b.y) * b.x,
       (a.x * b.x + a.y * b.y) / (b.x * b.x + b.y * b.y) * b.y⟩ := by
  simp only [vec2_t.project, vec2_length_mul_self hsqrt, vec2_t.scalarMul, vec2_t.splat,
    vec2_t.mul, vec2_t.dot]

/-- The components of `vec3_t::project`. -/
theorem vec3_project_eq {T : Type} [LinearOrderedField T] {sqrt : T → T}
    (hsqrt : IsSqrt sqrt) (a b : vec3_t T) :
    a.project sqrt b =
      ⟨(a.x * b.x + a.y * b.y + a.z * b.z) / (b.x * b.x + b.y * b.y + b.z * b.z) * b.x,
       (a.x * b.x + a.y * b.y + a.z * b.z) / (b.x * b.x + b.y * b.y + b.z * b.z) * b.y,
       (a.x * b.x + a.y * b.y + a.z * b.z) / (b.x * b.x + b.y * b.y + b.z * b.z) * b.z⟩ := by
  simp only [vec3_t.project, vec3_length_mul_self hsqrt, vec3_t.scalarMul, vec3_t.splat,
    vec3_t.mul, vec3_t.dot]

/-- The components of `vec2_t::perpendicular`. -/
theorem vec2_perpendicular_eq {T : Type} [LinearOrderedField T] {sqrt : T → T}
    (hsqrt : IsSqrt sqrt) (a b : vec2_t T) :
    a.perpendicular sqrt b =
      ⟨a.x - (a.x * b.x + a.y * b.y) / (b.x * b.x + b.y * b.y) * b.x,
       a.y - (a.x * b.x + a.y * b.y) / (b.x * b.x + b.y * b.y) * b.y⟩ := by
  simp only [vec2_t.perpendicular, vec2_length_mul_self hsqrt, vec2_t.scalarMul,
    vec2_t.splat, vec2_t.mul, vec2_t.dot, vec2_t.sub]

/-- The components of `vec3_t::perpendicular`. -/
theorem vec3_perpendicular_eq {T : Type} [LinearOrderedField T] {sqrt : T → T}
    (hsqrt : IsSqrt sqrt) (a b : vec3_t T) :
    a.perpendicular sqrt b =
      ⟨a.x - (a.x * b.x + a.y * b.y + a.z * b.z) / (b.x * b.x + b.y * b.y + b.z * b.z) * b.x,
       a.y - (a.x * b.x + a.y * b.y + a.z * b.z) / (b.x * b.x + b.y * b.y + b.z * b.z) * b.y,
       a.z - (a.x * b.x + a.y * b.y + a.z * b.z) / (b.x * b.x + b.y * b.y + b.z * b.z) * b.z⟩ := by
  simp only [vec3_t.perpendicular, vec3_length_mul_self hsqrt, vec3_t.scalarMul,
    vec3_t.splat, vec3_t.mul, vec3_t.dot, vec3_t.sub]

/-- C36: for `N` in 2, 3 and all vectors `a` and `b` with `b` non-zero, over an exact
ordered field with the non-negative square root:
`project(a,b) = (dot(a,b) / lengthSquared(b)) * b`,
`project(a,b) + perpendicular(a,b) = a`, and `dot(perpendicular(a,b), b) = 0`. -/
theorem vec_project_perpendicular {T : Type} [LinearOrderedField T] (sqrt : T → T)
    (hsqrt : IsSqrt sqrt) (a2 b2 : vec2_t T) (a3 b3 : vec3_t T)
    (h2 : b2 ≠ vec2_t.zero) (h3 : b3 ≠ vec3_t.zero) :
    (a2.project sqrt b2 = vec2_t.scalarMul (a2.dot b2 / b2.lengthSquared) b2 ∧
      (a2.project sqrt b2).add (a2.perpendicular sqrt b2) = a2 ∧
      (a2.perpendicular sqrt b2).dot b2 = 0) ∧
    (a3.project sqrt b3 = vec3_t.scalarMul (a3.dot b3 / b3.lengthSquared) b3 ∧
      (a3.project sqrt b3).add (a3.perpendicular sqrt b3) = a3 ∧
      (a3.perpendicular sqrt b3).dot b3 = 0) := by
  have hl2 := vec2_lengthSquared_ne_zero h2
  have hl3 := vec3_lengthSquared_ne_zero h3
  refine ⟨⟨?_, ?_, ?_⟩, ?_, ?_, ?_⟩
  · rw [vec2_project_eq hsqrt]
    rfl
  · rw [vec2_project_eq hsqrt, vec2_perpendicular_eq hsqrt]
    obtain ⟨x, y⟩ := a2
    simp only [vec2_t.add, vec2_t.mk.injEq]
    constructor <;> ring
  · rw [vec2_perpendicular_eq hsqrt]
    simp only [vec2_t.dot]
    field_simp
    ring
  · rw [vec3_project_eq hsqrt]
    rfl
  · rw [vec3_project_eq hsqrt, vec3_perpendicular_eq hsqrt]
    obtain ⟨x, y, z⟩ := a3
    simp only [vec3_t.add, vec3_t.mk.injEq]
    refine ⟨?_, ?_, ?_⟩ <;> ring
  · rw [vec3_perpendicular_eq hsqrt]
    simp only [vec3_t.dot]
    field_simp
    ring

/-- C36 over the reals at `a = (3,4)`, `b = (2,0)` and `a = (1,2,3)`, `b = (0,0,2)`. -/
theorem vec_project_perpendicular_witness :
    ((⟨2, 0⟩ : vec2_t ℝ) ≠ vec2_t.zero ∧ (⟨0, 0, 2⟩ : vec3_t ℝ) ≠ vec3_t.zero) ∧
    ((⟨3, 4⟩ : vec2_t ℝ).project Real.sqrt ⟨2, 0⟩).add
        ((⟨3, 4⟩ : vec2_t ℝ).perpendicular Real.sqrt ⟨2, 0⟩) = ⟨3, 4⟩ ∧
    ((⟨1, 2, 3⟩ : vec3_t ℝ).perpendicular Real.sqrt ⟨0, 0, 2⟩).dot ⟨0, 0, 2⟩ = 0 :=
  ⟨⟨by simp [vec2_t.zero], by simp [vec3_t.zero]⟩,
   (vec_project_perpendicular Real.sqrt isSqrt_real ⟨3, 4⟩ ⟨2, 0⟩ ⟨1, 2, 3⟩ ⟨0, 0, 2⟩
      (by simp [vec2_t.zero]) (by simp [vec3_t.zero])).1.2.1,
   (vec_project_perpendicular Real.sqrt isSqrt_real ⟨3, 4⟩ ⟨2, 0⟩ ⟨1, 2, 3⟩ ⟨0, 0, 2⟩
      (by simp [vec2_t.zero]) (by simp [vec3_t.zero])).2.2.2⟩

/-- The components of `vec2_t::reflect`. -/
theorem vec2_reflect_eq {T : Type} [LinearOrderedField T] {sqrt : T → T}
    (hsqrt : IsSqrt sqrt) (a b : vec2_t T) :
    a.reflect sqrt b =
      ⟨2 * ((a.x * b.x + a.y * b.y) / (b.x * b.x + b.y * b.y) * b.x) - a.x,
       2 * ((a.x * b.x + a.y * b.y) / (b.x * b.x + b.y * b.y) * b.y) - a.y⟩ := by
  simp only [vec2_t.reflect, vec2_project_eq hsqrt, vec2_t.scalarMul, vec2_t.splat,
    vec2_t.mul, vec2_t.sub]

/-- The components of `vec3_t::reflect`. -/
theorem vec3_reflect_eq {T : Type} [LinearOrderedField T] {sqrt : T → T}
    (hsqrt : IsSqrt sqrt) (a b : vec3_t T) :
    a.reflect sqrt b =
      ⟨2 * ((a.x * b.x + a.y * b.y + a.z * b.z) / (b.x * b.x + b.y * b.y + b.z * b.z) * b.x)
          - a.x,
       2 * ((a.x * b.x + a.y * b.y + a.z * b.z) / (b.x * b.x + b.y * b.y + b.z * b.z) * b.y)
          - a.y,
       2 * ((a.x * b.x + a.y * b.y + a.z * b.z) / (b.x * b.x + b.y * b.y + b.z * b.z) * b.z)
          - a.z⟩ := by
  simp only [vec3_t.reflect, vec3_project_eq hsqrt, vec3_t.scalarMul, vec3_t.splat,
    vec3_t.mul, vec3_t.sub]

/-- Reflecting twice about a non-zero `vec2` and the squared length of the reflection. -/
theorem vec2_reflect_reflect {T : Type} [LinearOrderedField T] {sqrt : T → T}
    (hsqrt : IsSqrt sqrt) (a b : vec2_t T) (hb : b ≠ vec2_t.zero) :
    (a.reflect sqrt b).reflect sqrt b = a ∧
    (a.reflect sqrt b).lengthSquared = a.lengthSquared := by
  have hl := vec2_lengthSquared_ne_zero hb
  obtain ⟨x, y⟩ := a
  obtain ⟨p, q⟩ := b
  simp only [vec2_reflect_eq hsqrt, vec2_t.lengthSquared] at hl ⊢
  have ht : (x * p + y * q) / (p * p + q * q) * (p * p + q * q) = x * p + y * q :=
    div_mul_cancel₀ _ hl
  generalize (x * p + y * q) / (p * p + q * q) = t at ht ⊢
  have hr : (2 * (t * p) - x) * p + (2 * (t * q) - y) * q = t * (p * p + q * q) := by
    linear_combination ht
  rw [hr, mul_div_cancel_right₀ t hl, vec2_t.mk.injEq]
  refine ⟨⟨?_, ?_⟩, ?_⟩
  · ring
  · ring
  · linear_combination (4 * t) * ht

/-- Reflecting twice about a non-zero `vec3` and the squared length of the reflection. -/
theorem vec3_reflect_reflect {T : Type} [LinearOrderedField T] {sqrt : T → T}
    (hsqrt : IsSqrt sqrt) (a b : vec3_t T) (hb : b ≠ vec3_t.zero) :
    (a.reflect sqrt b).reflect sqrt b = a ∧
    (a.reflect sqrt b).lengthSquared = a.lengthSquared := by
  have hl := vec3_lengthSquared_ne_zero hb
  obtain ⟨x, y, z⟩ := a
  obtain ⟨p, q, r⟩ := b
  simp only [vec3_reflect_eq hsqrt, vec3_t.lengthSquared] at hl ⊢
  have ht : (x * p + y * q + z * r) / (p * p + q * q + r * r) * (p * p + q * q + r * r)
      = x * p + y * q + z * r := div_mul_cancel₀ _ hl
  generalize (x * p + y * q + z * r) / (p * p + q * q + r * r) = t at ht ⊢
  have hr : (2 * (t * p) - x) * p + (2 * (t * q) - y) * q + (2 * (t * r) - z) * r
      = t * (p * p + q * q + r * r) := by
    linear_combination ht
  rw [hr, mul_div_cancel_right₀ t hl, vec3_t.mk.injEq]
  refine ⟨⟨?_, ?_, ?_⟩, ?_⟩
  · ring
  · ring
  · ring
  · linear_combination (4 * t) * ht

/-- C37: for `N` in 2, 3 and all vectors `a` and `b` with `b` non-zero, over an exact
ordered field with the non-negative square root, `reflect` is an involution that preserves
length: `reflect(reflect(a,b), b) = a` and
`lengthSquared(reflect(a,b)) = lengthSquared(a)`. -/
theorem vec_reflect_involution {T : Type} [LinearOrderedField T] (sqrt : T → T)
    (hsqrt : IsSqrt sqrt) (a2 b2 : vec2_t T) (a3 b3 : vec3_t T)
    (h2 : b2 ≠ vec2_t.zero) (h3 : b3 ≠ vec3_t.zero) :
    ((a2.reflect sqrt b2).reflect sqrt b2 = a2 ∧
      (a2.reflect sqrt b2).lengthSquared = a2.lengthSquared) ∧
    ((a3.reflect sqrt b3).reflect sqrt b3 = a3 ∧
      (a3.reflect sqrt b3).lengthSquared = a3.lengthSquared) :=
  ⟨vec2_reflect_reflect hsqrt a2 b2 h2, vec3_reflect_reflect hsqrt a3 b3 h3⟩

/-- C37 over the reals at `a = (3,4)`, `b = (2,0)` and `a = (1,2,3)`, `b = (0,0,2)`. -/
theorem vec_reflect_involution_witness :
    ((⟨2, 0⟩ : vec2_t ℝ) ≠ vec2_t.zero ∧ (⟨0, 0, 2⟩ : vec3_t ℝ) ≠ vec3_t.zero) ∧
    (((⟨3, 4⟩ : vec2_t ℝ).reflect Real.sqrt ⟨2, 0⟩).reflect Real.sqrt ⟨2, 0⟩ = ⟨3, 4⟩ ∧
      ((⟨3, 4⟩ : vec2_t ℝ).reflect Real.sqrt ⟨2, 0⟩).lengthSquared
        = (⟨3, 4⟩ : vec2_t ℝ).lengthSquared) ∧
    (((⟨1, 2, 3⟩ : vec3_t ℝ).reflect Real.sqrt ⟨0, 0, 2⟩).reflect Real.sqrt ⟨0, 0, 2⟩
        = ⟨1, 2, 3⟩ ∧
      ((⟨1, 2, 3⟩ : vec3_t ℝ).reflect Real.sqrt ⟨0, 0, 2⟩).lengthSquared
        = (⟨1, 2, 3⟩ : vec3_t ℝ).lengthSquared) :=
  ⟨⟨by simp [vec2_t.zero], by simp [vec3_t.zero]⟩,
   vec_reflect_involution Real.sqrt isSqrt_real ⟨3, 4⟩ ⟨2, 0⟩ ⟨1, 2, 3⟩ ⟨0, 0, 2⟩
      (by simp [vec2_t.zero]) (by simp [vec3_t.zero])⟩

/-! ## Gram-Schmidt orthogonalisation -/

theorem vec3_dot_sub {T : Type} [CommRing T] (a u v : vec3_t T) :
    a.dot (u.sub v) = a.dot u - a.dot v := by
  simp only [vec3_t.dot, vec3_t.sub]
  ring

theorem vec3_dot_scalarMul {T : Type} [CommRing T] (a v : vec3_t T) (t : T) :
    a.dot (vec3_t.scalarMul t v) = t * a.dot v := by
  simp only [vec3_t.dot, vec3_t.scalarMul, vec3_t.splat, vec3_t.mul]
  ring

theorem vec3_dot_mulScalar {T : Type} [CommRing T] (a v : vec3_t T) (t : T) :
    a.dot (v.mulScalar t) = t * a.dot v := by
  simp only [vec3_t.dot, vec3_t.mulScalar, vec3_t.splat, vec3_t.mul]
  ring

theorem vec3_dot_comm {T : Type} [CommRing T] (a b : vec3_t T) : a.dot b = b.dot a := by
  simp only [vec3_t.dot]
  ring

/-- The member `project` as a multiple of `b`. -/
theorem vec3_project_eq_scalarMul {T : Type} [LinearOrderedField T] {sqrt : T → T}
    (hsqrt : IsSqrt sqrt) (a b : vec3_t T) :
    a.project sqrt b = vec3_t.scalarMul (a.dot b / b.dot b) b := by
  rw [vec3_project_eq hsqrt]
  rfl

/-- The scalar `normalize` multiplies by is not zero when `to_` is not. -/
theorem vec3_normalize_eq_mulScalar_ne_zero {T : Type} [LinearOrderedField T] (sqrt : T → T)
    (v : vec3_t T) (to_ : T) (hto : to_ ≠ 0) :
    ∃ k : T, k ≠ 0 ∧ v.normalize sqrt to_ = v.mulScalar k := by
  by_cases h : (!LINALG_FEQUAL (v.length sqrt) 0 && !LINALG_FEQUAL (v.length sqrt) to_) = true
  · have h0 : LINALG_FEQUAL (v.length sqrt) 0 = false := by
      simp only [Bool.and_eq_true, Bool.not_eq_true'] at h
      exact h.1
    refine ⟨to_ / v.length sqrt, div_ne_zero hto (LINALG_FEQUAL_false_zero_ne h0), ?_⟩
    simp only [vec3_t.normalize, h, if_true]
  · refine ⟨1, one_ne_zero, ?_⟩
    simp only [vec3_t.normalize, h]
    simp [vec3_t.mulScalar, vec3_t.mul, vec3_t.splat]

/-- Three vectors with a non-zero triple product: the first is not zero. -/
theorem vec3_dot_self_ne_zero_of_triple {T : Type} [LinearOrderedField T] (a b c : vec3_t T)
    (h : a.dot (b.cross c) ≠ 0) : a.dot a ≠ 0 := by
  apply vec3_lengthSquared_ne_zero
  intro ha
  apply h
  rw [ha]
  simp [vec3_t.zero, vec3_t.dot]

/-- Three vectors with a non-zero triple product: the second is not a multiple of the
first. -/
theorem vec3_sub_scalarMul_ne_zero_of_triple {T : Type} [LinearOrderedField T]
    (a b c : vec3_t T) (t : T) (h : a.dot (b.cross c) ≠ 0) :
    (b.sub (vec3_t.scalarMul t a)).dot (b.sub (vec3_t.scalarMul t a)) ≠ 0 := by
  apply vec3_lengthSquared_ne_zero
  intro hb
  apply h
  obtain ⟨ax, ay, az⟩ := a
  obtain ⟨bx, by_, bz⟩ := b
  obtain ⟨cx, cy, cz⟩ := c
  simp only [vec3_t.sub, vec3_t.scalarMul, vec3_t.splat, vec3_t.mul, vec3_t.zero,
    vec3_t.mk.injEq] at hb
  obtain ⟨hx, hy, hz⟩ := hb
  simp only [vec3_t.dot, vec3_t.cross]
  linear_combination (az * cy - ay * cz) * hx + (ax * cz - az * cx) * hy
    + (ay * cx - ax * cy) * hz

/-- C31, amended: for all `a`, `b`, `c` with a non-zero triple product (linearly
independent), over an exact ordered field with the non-negative square root, after
`orthogonalize(a, b, c)` the vectors `a`, `b`, `c` are pairwise orthogonal
(`dot(a,b) = dot(a,c) = dot(b,c) = 0`); `b` has length within epsilon of 1 when the length
of `b - b.project(a)` is not within epsilon of 0, and `c` has length within epsilon of 1
when the length of `c - c.project(a) - c.project(b)` is not within epsilon of 0 (a vector
whose length is within epsilon of 0 is left unscaled by `normalize`). Nothing is stated
about the length of `a`. -/
theorem vec3_orthogonalize_orthogonal {T : Type} [LinearOrderedField T] (sqrt : T → T)
    (hsqrt : IsSqrt sqrt) (a b c : vec3_t T) (hind : a.dot (b.cross c) ≠ 0) :
    a.dot (vec3_t.orthogonalize sqrt a b c).1 = 0 ∧
    a.dot (vec3_t.orthogonalize sqrt a b c).2 = 0 ∧
    (vec3_t.orthogonalize sqrt a b c).1.dot (vec3_t.orthogonalize sqrt a b c).2 = 0 ∧
    (LINALG_FEQUAL ((b.sub (b.project sqrt a)).length sqrt) 0 = false →
      LINALG_FEQUAL ((vec3_t.orthogonalize sqrt a b c).1.length sqrt) 1 = true) ∧
    (LINALG_FEQUAL
        (((c.sub (c.project sqrt a)).sub
          (c.project sqrt (vec3_t.orthogonalize sqrt a b c).1)).length sqrt) 0 = false →
      LINALG_FEQUAL ((vec3_t.orthogonalize sqrt a b c).2.length sqrt) 1 = true) := by
  have ha : a.dot a ≠ 0 := vec3_dot_self_ne_zero_of_triple a b c hind
  have hb1 : (b.sub (b.project sqrt a)).dot (b.sub (b.project sqrt a)) ≠ 0 := by
    rw [vec3_project_eq_scalarMul hsqrt]
    exact vec3_sub_scalarMul_ne_zero_of_triple a b c _ hind
  have hab1 : a.dot (b.sub (b.project sqrt a)) = 0 := by
    rw [vec3_project_eq_scalarMul hsqrt, vec3_dot_sub, vec3_dot_scalarMul,
      div_mul_cancel₀ _ ha, vec3_dot_comm b a, sub_self]
  obtain ⟨k, hk0, hk⟩ :=
    vec3_normalize_eq_mulScalar_ne_zero sqrt (b.sub (b.project sqrt a)) 1 one_ne_zero
  have h1 : (vec3_t.orthogonalize sqrt a b c).1 = (b.sub (b.project sqrt a)).mulScalar k :=
    hk
  have hc2 : (vec3_t.orthogonalize sqrt a b c).2 =
      ((c.sub (c.project sqrt a)).sub
        (c.project sqrt (vec3_t.orthogonalize sqrt a b c).1)).normalize sqrt 1 := rfl
  generalize (vec3_t.orthogonalize sqrt a b c).1 = b2 at h1 hc2 ⊢
  have hab2 : a.dot b2 = 0 := by
    rw [h1, vec3_dot_mulScalar, hab1, mul_zero]
  have hb2 : b2.dot b2 ≠ 0 := by
    rw [h1, vec3_dot_mulScalar, vec3_dot_comm, vec3_dot_mulScalar]
    exact mul_ne_zero hk0 (mul_ne_zero hk0 hb1)
  have hac1 : a.dot ((c.sub (c.project sqrt a)).sub (c.project sqrt b2)) = 0 := by
    rw [vec3_project_eq_scalarMul hsqrt, vec3_project_eq_scalarMul hsqrt, vec3_dot_sub,
      vec3_dot_sub, vec3_dot_scalarMul, vec3_dot_scalarMul, div_mul_cancel₀ _ ha, hab2,
      vec3_dot_comm c a]
    ring
  have hbc1 : b2.dot ((c.sub (c.project sqrt a)).sub (c.project sqrt b2)) = 0 := by
    rw [vec3_project_eq_scalarMul hsqrt, vec3_project_eq_scalarMul hsqrt, vec3_dot_sub,
      vec3_dot_sub, vec3_dot_scalarMul, vec3_dot_scalarMul, div_mul_cancel₀ _ hb2,
      vec3_dot_comm b2 a, hab2, vec3_dot_comm c b2]
    ring
  obtain ⟨k2, -, hk2⟩ := vec3_normalize_eq_mulScalar_ne_zero sqrt
    ((c.sub (c.project sqrt a)).sub (c.project sqrt b2)) 1 one_ne_zero
  refine ⟨hab2, ?_, ?_, ?_, ?_⟩
  · rw [hc2, hk2, vec3_dot_mulScalar, hac1, mul_zero]
  · rw [hc2, hk2, vec3_dot_mulScalar, hbc1, mul_zero]
  · intro h0
    rw [h1, ← hk]
    exact (vec3_normalize_length hsqrt _ 1 zero_le_one h0).1
  · intro h0
    rw [hc2]
    exact (vec3_normalize_length hsqrt _ 1 zero_le_one h0).1

/-- The residual of `b = (1,1,0)` after projecting out `a = (1,0,0)` is `(0,1,0)`, whose
length is not within epsilon of 0. -/
theorem vec3_orthogonalize_residual_example :
    LINALG_FEQUAL
      (((⟨1, 1, 0⟩ : vec3_t ℝ).sub
        ((⟨1, 1, 0⟩ : vec3_t ℝ).project Real.sqrt ⟨1, 0, 0⟩)).length Real.sqrt) 0 = false := by
  have hb1 : (⟨1, 1, 0⟩ : vec3_t ℝ).sub ((⟨1, 1, 0⟩ : vec3_t ℝ).project Real.sqrt ⟨1, 0, 0⟩)
      = ⟨0, 1, 0⟩ := by
    rw [vec3_project_eq isSqrt_real]
    norm_num [vec3_t.sub]
  have hlen : (⟨0, 1, 0⟩ : vec3_t ℝ).length Real.sqrt = 1 :=
    real_sqrt_of_mul_self (by norm_num) (by norm_num [vec3_t.lengthSquared])
  rw [hb1, hlen]
  norm_num [LINALG_FEQUAL, LINALG_EPSILON]

/-- C31, amended, over the reals at `a = (1,0,0)`, `b = (1,1,0)`, `c = (1,1,1)`: the triple
product is not 0, the residual of `b` is not within epsilon of 0, the three vectors are
pairwise orthogonal afterwards and `b` has length within epsilon of 1. -/
theorem vec3_orthogonalize_orthogonal_witness :
    (⟨1, 0, 0⟩ : vec3_t ℝ).dot ((⟨1, 1, 0⟩ : vec3_t ℝ).cross ⟨1, 1, 1⟩) ≠ 0 ∧
    ((⟨1, 0, 0⟩ : vec3_t ℝ).dot
        (vec3_t.orthogonalize Real.sqrt (⟨1, 0, 0⟩ : vec3_t ℝ) ⟨1, 1, 0⟩ ⟨1, 1, 1⟩).1 = 0 ∧
      (⟨1, 0, 0⟩ : vec3_t ℝ).dot
        (vec3_t.orthogonalize Real.sqrt (⟨1, 0, 0⟩ : vec3_t ℝ) ⟨1, 1, 0⟩ ⟨1, 1, 1⟩).2 = 0 ∧
      (vec3_t.orthogonalize Real.sqrt (⟨1, 0, 0⟩ : vec3_t ℝ) ⟨1, 1, 0⟩ ⟨1, 1, 1⟩).1.dot
        (vec3_t.orthogonalize Real.sqrt (⟨1, 0, 0⟩ : vec3_t ℝ) ⟨1, 1, 0⟩ ⟨1, 1, 1⟩).2 = 0) ∧
    LINALG_FEQUAL
      ((vec3_t.orthogonalize Real.sqrt (⟨1, 0, 0⟩ : vec3_t ℝ) ⟨1, 1, 0⟩
        ⟨1, 1, 1⟩).1.length Real.sqrt) 1 = true :=
  ⟨by norm_num [vec3_t.dot, vec3_t.cross],
   ⟨(vec3_orthogonalize_orthogonal Real.sqrt isSqrt_real ⟨1, 0, 0⟩ ⟨1, 1, 0⟩ ⟨1, 1, 1⟩
      (by norm_num [vec3_t.dot, vec3_t.cross])).1,
    (vec3_orthogonalize_orthogonal Real.sqrt isSqrt_real ⟨1, 0, 0⟩ ⟨1, 1, 0⟩ ⟨1, 1, 1⟩
      (by norm_num [vec3_t.dot, vec3_t.cross])).2.1,
    (vec3_orthogonalize_orthogonal Real.sqrt isSqrt_real ⟨1, 0, 0⟩ ⟨1, 1, 0⟩ ⟨1, 1, 1⟩
      (by norm_num [vec3_t.dot, vec3_t.cross])).2.2.1⟩,
   (vec3_orthogonalize_orthogonal Real.sqrt isSqrt_real ⟨1, 0, 0⟩ ⟨1, 1, 0⟩ ⟨1, 1, 1⟩
      (by norm_num [vec3_t.dot, vec3_t.cross])).2.2.2.1
     vec3_orthogonalize_residual_example⟩

/-- C31 as stated fails over the reals at `a = (1,0,0)`, `b = (1, 0.00005, 0)`,
`c = (0,0,1)`: the triple product is `0.00005`, so the three are linearly independent, and
`a` has length 1; the residual `b - b.project(a) = (0, 0.00005, 0)` has a length within
epsilon of 0, `normalize` returns it unscaled, and `b` afterwards is `(0, 0.00005, 0)`,
whose length is not within epsilon of 1. -/
theorem vec3_orthogonalize_counterexample :
    (⟨1, 0, 0⟩ : vec3_t ℝ).dot ((⟨1, 5 / 100000, 0⟩ : vec3_t ℝ).cross ⟨0, 0, 1⟩) ≠ 0 ∧
    LINALG_FEQUAL ((⟨1, 0, 0⟩ : vec3_t ℝ).length Real.sqrt) 1 = true ∧
    (vec3_t.orthogonalize Real.sqrt (⟨1, 0, 0⟩ : vec3_t ℝ) ⟨1, 5 / 100000, 0⟩ ⟨0, 0, 1⟩).1
      = ⟨0, 5 / 100000, 0⟩ ∧
    LINALG_FEQUAL
      ((vec3_t.orthogonalize Real.sqrt (⟨1, 0, 0⟩ : vec3_t ℝ) ⟨1, 5 / 100000, 0⟩
        ⟨0, 0, 1⟩).1.length Real.sqrt) 1 = false := by
  have hlenA : (⟨1, 0, 0⟩ : vec3_t ℝ).length Real.sqrt = 1 :=
    real_sqrt_of_mul_self (by norm_num) (by norm_num [vec3_t.lengthSquared])
  have hb1 : (⟨1, 5 / 100000, 0⟩ : vec3_t ℝ).sub
      ((⟨1, 5 / 100000, 0⟩ : vec3_t ℝ).project Real.sqrt ⟨1, 0, 0⟩)
      = ⟨0, 5 / 100000, 0⟩ := by
    rw [vec3_project_eq isSqrt_real]
    norm_num [vec3_t.sub]
  have hlenB : (⟨0, 5 / 100000, 0⟩ : vec3_t ℝ).length Real.sqrt = 5 / 100000 :=
    real_sqrt_of_mul_self (by norm_num) (by norm_num [vec3_t.lengthSquared])
  have h0 : LINALG_FEQUAL ((⟨0, 5 / 100000, 0⟩ : vec3_t ℝ).length Real.sqrt) 0 = true := by
    rw [hlenB]
    norm_num [LINALG_FEQUAL, LINALG_EPSILON]
  have h1 : (vec3_t.orthogonalize Real.sqrt (⟨1, 0, 0⟩ : vec3_t ℝ) ⟨1, 5 / 100000, 0⟩
      ⟨0, 0, 1⟩).1 = ⟨0, 5 / 100000, 0⟩ := by
    show ((⟨1, 5 / 100000, 0⟩ : vec3_t ℝ).sub
      ((⟨1, 5 / 100000, 0⟩ : vec3_t ℝ).project Real.sqrt ⟨1, 0, 0⟩)).normalize Real.sqrt 1 = _
    rw [hb1]
    exact (vec3_normalize_of_length_near_zero isSqrt_real _ 1 h0).2
  refine ⟨?_, ?_, h1, ?_⟩
  · norm_num [vec3_t.dot, vec3_t.cross]
  · rw [hlenA]
    exact LINALG_FEQUAL_self 1
  · rw [h1, hlenB]
    norm_num [LINALG_FEQUAL, LINALG_EPSILON]

end LinAlg
